import Mathlib

/-!
# Peersky `hyper-handler.js`: chat rooms over append-only feeds

A shallow embedding of `src/protocols/hyper-handler.js`.  The module-level
variables (`localRoomFeeds`, `remoteRoomFeeds`, `roomSseClients`, `peers`,
`joinedRooms`) become fields of a `State`; every handler is a function from
a state to a state.  Effects on collaborators (content store, swarm, peer
connections, SSE streams, the protocol callback) are recorded, in program
order, in the `trace` field.  What the collaborators answer (time, fresh
keys, JSON parsing and printing, failures) is read from an `Env`.

`async` functions are run to completion: one handler invocation is one
step.  Two functions are split at an `await`: `joinChatRoom` is also given
in two halves, split at its `await feed.ready()`, and the append listener
`joinChatRoom` installs is suspended at its `await feed.get(idx)` and
resumed in a step of its own.

The three registries are plain objects, so a read `registry[k]` also finds
the names every object inherits from `Object.prototype` (`JSObj.read`).
What those inherited values hold is the runtime's and is asked of the
`Env`; the feeds a hello puts on one of them are kept in the state.  A
property put on `Object.prototype` itself (a hello for the room
`__proto__`) is recorded likewise.  From then on every object of the
runtime, those of the libraries included, inherits a feed object under that
name; what the handlers do after that depends on the internals of the feed
object and of the libraries, which are not in this source, and is not
followed.
-/

namespace HyperHandler

/-! ## JavaScript values -/

/-- JavaScript values that reach the handler: what `JSON.parse` can return,
plus `undefined` (what reading an absent property gives).  Numbers are the
integer-valued ones; beyond `2^53` in absolute value not every integer is
a Number. -/
inductive JVal where
  | undefined : JVal
  | null : JVal
  | bool (b : Bool) : JVal
  | num (n : Int) : JVal
  | str (s : String) : JVal
  | arr (items : List JVal) : JVal
  | obj (fields : List (String × JVal)) : JVal

namespace JVal

/-- ToBoolean: `undefined`, `null`, `false`, `0` and `""` are falsy. -/
def truthy : JVal → Bool
  | undefined => false
  | null => false
  | bool b => b
  | num n => n != 0
  | str s => s != ""
  | arr _ => true
  | obj _ => true

/-- Own-property read `v[k]` on a field list (the last duplicate wins in
`JSON.parse`, so field lists are built without duplicates; the first match
is returned). -/
def lookupField (k : String) : List (String × JVal) → JVal
  | [] => undefined
  | (k', v) :: rest => if k' = k then v else lookupField k rest

/-- Property read `v.k` for the property names the handler uses (`type`,
`roomKey`, `feedKey`, `sender`, `message`, `timestamp`): these exist on no
prototype, so primitives and arrays give `undefined`.  Reading a property of
`null` or `undefined` throws a `TypeError`: `none`. -/
def getProp (v : JVal) (k : String) : Option JVal :=
  match v with
  | undefined => none
  | null => none
  | obj fields => some (lookupField k fields)
  | _ => some undefined

/-- Field update on a field list: overwrite in place, or add at the end. -/
def assignField (k : String) (x : JVal) : List (String × JVal) → List (String × JVal)
  | [] => [(k, x)]
  | (k', v) :: rest => if k' = k then (k', x) :: rest else (k', v) :: assignField k x rest

/-- The named own properties of a value that can carry some: an object's
fields; an array has none of the names the handler uses. -/
def namedFields : JVal → Option (List (String × JVal))
  | obj fields => some fields
  | arr _ => some []
  | _ => none

/-- Whether the conversion of the value to a string throws a `TypeError`
(ToString in a template literal, ToPropertyKey in `registry[value]`): an
object with an own `toString` property, which on a value of `JSON.parse` is
never callable while the inherited `valueOf` gives the object back; or an
array with such an element, `null` and `undefined` elements being joined
as empty text. -/
def unprintable : JVal → Bool
  | arr items => anyUnprintable items
  | obj fields => fields.any (fun e => e.1 == "toString")
  | _ => false
where
  /-- Whether the conversion of some element throws. -/
  anyUnprintable : List JVal → Bool
    | [] => false
    | v :: rest => unprintable v || anyUnprintable rest

/-- ToPropertyKey, as in `localRoomFeeds[msg.roomKey]`, where the
conversion does not throw (`unprintable`): a string is its own key, an
array its elements joined by commas with `null`/`undefined` elements as
empty text, an object without an own `toString` the text of
`Object.prototype.toString`.  A number up to `2^53` in absolute value is
its decimal numeral; beyond that the text is the shortest one that reads
back as the number, with an exponent from `1e21` on, and is asked of the
runtime (`numberText`). -/
def toKey (numberText : Int → String) : JVal → String
  | undefined => "undefined"
  | null => "null"
  | bool b => if b then "true" else "false"
  | num n => if n.natAbs ≤ 9007199254740992 then toString n else numberText n
  | str s => s
  | arr items => ",".intercalate (toKeyItems numberText items)
  | obj _ => "[object Object]"
where
  /-- The texts of an array's elements. -/
  toKeyItems (numberText : Int → String) : List JVal → List String
    | [] => []
    | undefined :: rest => "" :: toKeyItems numberText rest
    | null :: rest => "" :: toKeyItems numberText rest
    | v :: rest => toKey numberText v :: toKeyItems numberText rest

/-- The value of `typeof v`, as in the message of the `TypeError` of a
property write on a primitive. -/
def typeName : JVal → String
  | undefined => "undefined"
  | null => "object"
  | bool _ => "boolean"
  | num _ => "number"
  | str _ => "string"
  | arr _ => "object"
  | obj _ => "object"

end JVal

/-- The message of the `TypeError` of a conversion to a string that throws. -/
def convertError : String := "Cannot convert object to primitive value"

/-! ## JavaScript objects used as maps -/

/-- Digits of a canonical decimal numeral, most significant first. -/
def digitsValue : List Char → Nat → Option Nat
  | [], acc => some acc
  | c :: rest, acc =>
    if c.isDigit then digitsValue rest (acc * 10 + (c.toNat - 48)) else none

/-- The array index a property key denotes, if any: a canonical decimal
numeral (no sign, no leading zero) below `2^32 - 1`.  Such keys are
enumerated first, in ascending numeric order, whatever their creation
order. -/
def arrayIndex (k : String) : Option Nat :=
  match k.data with
  | [] => none
  | [c] => digitsValue [c] 0
  | c :: rest =>
    if c = '0' then none
    else if rest.length > 9 then none
    else match digitsValue (c :: rest) 0 with
      | some n => if n < 4294967295 then some n else none
      | none => none

/-- A plain object used as a string-keyed map: its own properties in
creation order. -/
abbrev JSObj (α : Type) := List (String × α)

/-- The property names every plain object inherits from `Object.prototype`:
the constructor, the accessor `__proto__` and the methods.  A read of one
of them on an object that has no own property of that name gives the
inherited value, which is truthy. -/
def objectPrototypeNames : List String :=
  ["constructor", "__proto__", "hasOwnProperty", "isPrototypeOf", "propertyIsEnumerable",
    "toLocaleString", "toString", "valueOf", "__defineGetter__", "__defineSetter__",
    "__lookupGetter__", "__lookupSetter__"]

/-- The value of `Object.prototype[name].length` as a loop bound
`i < value.length`: the number of parameters of the function, and nothing
for `__proto__`, whose value is an object without a `length`. -/
def inheritedLength (name : String) : Nat :=
  if name ∈ ["constructor", "hasOwnProperty", "isPrototypeOf", "propertyIsEnumerable",
    "__lookupGetter__", "__lookupSetter__"] then 1
  else if name ∈ ["__defineGetter__", "__defineSetter__"] then 2
  else 0

/-- What a read `o[k]` on a plain object finds: an own property, a value
inherited from `Object.prototype`, or nothing (`undefined`). -/
inductive Slot (α : Type) where
  | own (v : α) : Slot α
  | inherited : Slot α
  | absent : Slot α

namespace JSObj

variable {α : Type}

/-- The own property `k` of `o`: `none` when `o` has no own property of that
name. -/
def get (o : JSObj α) (k : String) : Option α :=
  match o with
  | [] => none
  | (k', v) :: rest => if k' = k then some v else get rest k

/-- Read `o[k]`: the own property, else the value `Object.prototype` has
under that name, else `undefined`. -/
def read (o : JSObj α) (k : String) : Slot α :=
  match o.get k with
  | some v => .own v
  | none => if k ∈ objectPrototypeNames then .inherited else .absent

/-- Whether `o[k]` is truthy, the own values of the map being objects. -/
def has (o : JSObj α) (k : String) : Bool :=
  match o.read k with
  | .absent => false
  | _ => true

/-- Assign `o[k] = v`: an existing property keeps its place. -/
def set (o : JSObj α) (k : String) (v : α) : JSObj α :=
  match o with
  | [] => [(k, v)]
  | (k', v') :: rest => if k' = k then (k', v) :: rest else (k', v') :: set rest k v

/-- The array-index properties, tagged with their index. -/
def indexed (o : JSObj α) : List (Nat × (String × α)) :=
  o.filterMap (fun e => (arrayIndex e.1).map (fun i => (i, e)))

/-- Own properties in enumeration order (`for ... in`, `Object.keys`,
`Object.values`): array-index keys ascending, then the other keys in
creation order. -/
def ownEntries (o : JSObj α) : List (String × α) :=
  ((indexed o).insertionSort (fun a b => a.1 ≤ b.1)).map (fun p => p.2)
    ++ o.filter (fun e => (arrayIndex e.1).isNone)

end JSObj

/-! ## State, collaborators and effects -/

abbrev RoomKey := String
abbrev FeedKey := String
/-- A feed object, by its position in the content store. -/
abbrev FeedId := Nat
/-- A swarm connection object, by identity. -/
abbrev ConnId := Nat
/-- A `PassThrough` stream object, by identity. -/
abbrev StreamId := Nat
abbrev Bytes := List (Fin 256)

/-- A feed of the content store: its public key (hex), its entries by
index, and the rooms whose `append` listener (installed by `joinChatRoom`,
closing over the room key) is attached to it. -/
structure Feed where
  key : FeedKey
  entries : List JVal
  listeners : List RoomKey

/-- An element of `peers`. -/
structure Peer where
  connection : ConnId
  shortID : String

/-- The `data` of a response: `Readable.from([text])` or an SSE stream. -/
inductive Body where
  | text (s : String) : Body
  | stream (id : StreamId) : Body

/-- The argument of the protocol `callback`. -/
structure Response where
  statusCode : Nat
  headers : List (String × String)
  data : Body

/-- Calls made on collaborators, in program order. -/
inductive Event where
  | storeGet (key : Option FeedKey) (feed : FeedId) : Event
  | replicate (feed : FeedId) (conn : ConnId) : Event
  | swarmJoin (roomKey : RoomKey) : Event
  | swarmFlush : Event
  | peerWrite (conn : ConnId) (data : String) : Event
  | streamWrite (stream : StreamId) (frame : String) : Event
  | setInterval (stream : StreamId) : Event
  | clearInterval (stream : StreamId) : Event
  | callback (resp : Response) : Event

/-- One element of `uploadData`. -/
structure Chunk where
  bytes : Option Bytes
  file : Option String
  blobUUID : Option String

/-- A request as the chat router sees it: the method, the parts of the
parsed URL, and the upload data. -/
structure Request where
  method : String
  protocol : String
  hostname : String
  pathname : String
  action : Option String
  roomKey : Option String
  uploadData : Option (List Chunk)

/-- A run of the append listener suspended at `await feed.get(idx)`: the
feed and the room key it closed over, and `idx`. -/
structure Push where
  feed : FeedId
  roomKey : RoomKey
  idx : Nat

/-- What the collaborators answer. -/
structure Env where
  /-- `Date.now()` at its n-th call. -/
  now : Nat → Nat
  /-- Hex key of the feed the store generates when it holds n feeds. -/
  freshKey : Nat → FeedKey
  /-- Byte `i` of the n-th `crypto.randomBytes(32)`. -/
  randomByte : Nat → Nat → Fin 256
  /-- `b4a.from(feedKey, "hex")`, as the hex text of the bytes, or the
  message of the error thrown. -/
  decodeKey : JVal → Except String FeedKey
  /-- Message of the rejection of `feed.ready()`, if it rejects. -/
  readyError : FeedId → Option String
  /-- Message of the rejection of `feed.append(...)`, if it rejects. -/
  appendError : FeedId → Option String
  /-- Message of the error `connection.write(...)` throws, if it throws. -/
  writeError : ConnId → Option String
  /-- `connection.destroyed`. -/
  destroyed : ConnId → Bool
  /-- `JSON.parse`, or the message of its `SyntaxError`. -/
  parse : String → Except String JVal
  /-- `JSON.stringify`. -/
  stringify : JVal → String
  /-- `String(n)` for a Number beyond `2^53` in absolute value. -/
  numberText : Int → String
  /-- `Buffer.toString()`. -/
  decodeText : Bytes → String
  /-- Contents of a file, or the message of the read error. -/
  readFile : String → Except String Bytes
  /-- `session.getBlobData`, or the message of its rejection. -/
  getBlobData : String → Except String Bytes
  /-- Whether `Object.prototype[name][prop]` is truthy as the runtime starts
  (`name` one of `objectPrototypeNames`), or the message of the error the
  read throws. -/
  builtinMember : String → String → Except String Bool
  /-- Message of the `TypeError` of the assignment
  `Object.prototype[name][prop] = feed`, if it throws (a read-only
  property). -/
  builtinAssignError : String → String → Option String

/-- ToPropertyKey of a value in this runtime. -/
abbrev Env.key (env : Env) (v : JVal) : String :=
  v.toKey env.numberText

/-- The module-level variables, the content store, and the trace. -/
structure State where
  /-- Feeds of the content store. -/
  feeds : List Feed
  localRoomFeeds : JSObj FeedId
  remoteRoomFeeds : JSObj (JSObj FeedId)
  roomSseClients : JSObj (List StreamId)
  peers : List Peer
  joinedRooms : List RoomKey
  /-- The feeds this module has put on the values of `Object.prototype`, by
  the name of the value and the property assigned. -/
  builtinProps : JSObj (JSObj FeedId)
  /-- The runs of append listeners suspended at `await feed.get(idx)`. -/
  pending : List Push
  /-- Streams whose `keepAlive` interval is running. -/
  timers : List StreamId
  /-- `session.messageStream`. -/
  messageStream : Option StreamId
  /-- Streams created so far. -/
  nextStream : Nat
  /-- Calls of `Date.now()` so far. -/
  clock : Nat
  /-- Calls of `crypto.randomBytes` so far. -/
  randomCalls : Nat
  trace : List Event

/-- The state at module load. -/
def State.init : State :=
  { feeds := [], localRoomFeeds := [], remoteRoomFeeds := [], roomSseClients := [],
    peers := [], joinedRooms := [], builtinProps := [], pending := [], timers := [],
    messageStream := none,
    nextStream := 0, clock := 0, randomCalls := 0, trace := [] }

namespace State

/-- Record calls on collaborators. -/
def emit (s : State) (es : List Event) : State :=
  { s with trace := s.trace ++ es }

/-- Entries of a feed (`feed.get(i)` for `i < feed.length`). -/
def feedEntries (s : State) (fid : FeedId) : List JVal :=
  match s.feeds[fid]? with
  | some f => f.entries
  | none => []

/-- The value of `feed.length`. -/
def feedLength (s : State) (fid : FeedId) : Nat :=
  (s.feedEntries fid).length

/-- The value of `b4a.toString(feed.key, "hex")`. -/
def feedKey (s : State) (fid : FeedId) : FeedKey :=
  match s.feeds[fid]? with
  | some f => f.key
  | none => ""

/-- Rooms whose append listener is attached to the feed. -/
def feedListeners (s : State) (fid : FeedId) : List RoomKey :=
  match s.feeds[fid]? with
  | some f => f.listeners
  | none => []

/-- Change one feed of the store in place. -/
def updateFeed (s : State) (fid : FeedId) (f : Feed → Feed) : State :=
  { s with feeds := s.feeds.modify f fid }

/-- The remote feeds registered under a room (none when the room has no
mapping). -/
def remoteFeeds (s : State) (roomKey : RoomKey) : JSObj FeedId :=
  (s.remoteRoomFeeds.get roomKey).getD []

/-- The streams registered under a room: the list `roomSseClients` has as
own property, none when it has no such property. -/
def sseClients (s : State) (roomKey : RoomKey) : List StreamId :=
  (s.roomSseClients.get roomKey).getD []

/-- The feeds this module has put on `Object.prototype[name]`. -/
def builtinFeeds (s : State) (name : String) : JSObj FeedId :=
  (s.builtinProps.get name).getD []

end State

/-- A handler's outcome: the state it leaves, and whether it returned
(`ok`) or threw (`error` with the message). -/
abbrev Outcome (α : Type) := Except String α × State

/-- The state after one more call of `Date.now()`. -/
def State.tick (s : State) : State :=
  { s with clock := s.clock + 1 }

/-- The value of `Date.now()`, and the state after the call. -/
def dateNow (env : Env) (s : State) : Nat × State :=
  (env.now s.clock, s.tick)

/-- The object `{ sender, message, timestamp }`. -/
def chatMessage (sender message timestamp : JVal) : JVal :=
  .obj [("sender", sender), ("message", message), ("timestamp", timestamp)]

/-- The SSE frame of a feed entry. -/
def dataFrame (env : Env) (msg : JVal) : String :=
  "data: " ++ env.stringify msg ++ "\n\n"

/-- The SSE frame of a peer count. -/
def peersCountFrame (cnt : Nat) : String :=
  "event: peersCount\ndata: " ++ toString cnt ++ "\n\n"

/-! ## Peers and broadcasts -/

/-- The loop of `sendMessageToPeers`: write to each connection that is not
destroyed; a write that throws ends the loop. -/
def writePeers (env : Env) (data : String) : List Peer → State → Outcome Unit
  | [], s => (.ok (), s)
  | p :: rest, s =>
    if env.destroyed p.connection then writePeers env data rest s
    else match env.writeError p.connection with
      | some m => (.error m, s)
      | none => writePeers env data rest (s.emit [Event.peerWrite p.connection data])

/-- Send a raw data string to all currently connected peers. -/
def sendMessageToPeers (env : Env) (data : String) (s : State) : Outcome Unit :=
  writePeers env data s.peers s

/-- The hello announcement of a local feed. -/
def helloMessage (roomKey : RoomKey) (myFeedKey : FeedKey) : JVal :=
  .obj [("type", .str "hello"), ("roomKey", .str roomKey), ("feedKey", .str myFeedKey)]

/-- Broadcast our local feed key to all connected peers. -/
def broadcastHello (env : Env) (roomKey : RoomKey) (myFeedKey : FeedKey) (s : State) :
    Outcome Unit :=
  sendMessageToPeers env (env.stringify (helloMessage roomKey myFeedKey)) s

/-- Broadcast the peer count to all SSE clients: one frame per stream of
each value of `roomSseClients`. -/
def broadcastPeerCount (s : State) : State :=
  s.emit ((s.roomSseClients.ownEntries.flatMap (fun e => e.2)).map
    (fun st => Event.streamWrite st (peersCountFrame s.peers.length)))

/-! ## Local feeds -/

/-- The append listener `joinChatRoom` installs, for the room it closed
over, from its `await feed.get(idx)` on: forward the entry at `idx` to the
streams of `roomSseClients[roomKey] || []`.  For a room key that is an
inherited name without own property the value is a function of the runtime,
the loop over it throws, and nothing is written either. -/
def appendListener (env : Env) (fid : FeedId) (roomKey : RoomKey) (idx : Nat) (s : State) :
    State :=
  match (s.feedEntries fid)[idx]? with
  | some msg => s.emit ((s.sseClients roomKey).map (fun st => Event.streamWrite st (dataFrame env msg)))
  | none => s

/-- The feed emits `append`: each listener attached to it computes
`idx = feed.length - 1` and is suspended at its `await feed.get(idx)`. -/
def emitAppend (fid : FeedId) (rooms : List RoomKey) (s : State) : State :=
  { s with pending := s.pending ++
      rooms.map (fun r => { feed := fid, roomKey := r, idx := s.feedLength fid - 1 }) }

/-- The value of `feed.append(obj)`, by the content store's contract
(`Feed.append(value) → index`): the entry is stored at the end, the feed
emits `append`, and the index of the new entry is returned. -/
def feedAppend (env : Env) (fid : FeedId) (v : JVal) (s : State) : Outcome Nat :=
  match env.appendError fid with
  | some m => (.error m, s)
  | none =>
    (.ok (s.feedLength fid), emitAppend fid (s.feedListeners fid)
      (s.updateFeed fid (fun f => { f with entries := f.entries ++ [v] })))

/-- The statement `await feed.append(obj)` at the end of a function that
has no `return`: the value of the call is dropped, the function's value is
`undefined`. -/
def awaitAppend (env : Env) (feed : FeedId) (obj : JVal) (s : State) : Outcome JVal :=
  ((feedAppend env feed obj s).1.map (fun _ => JVal.undefined), (feedAppend env feed obj s).2)

/-- Append a message object to our local feed for a given roomKey. -/
def appendMessageToLocalFeed (env : Env) (roomKey : RoomKey) (sender message timestamp : JVal)
    (s : State) : Outcome JVal :=
  match s.localRoomFeeds.read roomKey with
  | .absent => (.error ("Local feed not initialized for room " ++ roomKey), s)
  | .own feed =>
    if timestamp.truthy then
      awaitAppend env feed (chatMessage sender message timestamp) s
    else
      awaitAppend env feed (chatMessage sender message (.num (dateNow env s).1)) (dateNow env s).2
  | .inherited =>
    -- `feed` is a value of `Object.prototype`: the guard is passed, the
    -- object is built, and `feed.append` is not a function
    if timestamp.truthy then (.error "feed.append is not a function", s)
    else (.error "feed.append is not a function", (dateNow env s).2)

/-- The value of `sdk.corestore.get({ valueEncoding })`: a new feed with a
key of the store's choosing. -/
def storeGetFresh (env : Env) (s : State) : FeedId × State :=
  (s.feeds.length,
    { s with feeds := s.feeds ++ [{ key := env.freshKey s.feeds.length, entries := [], listeners := [] }],
             trace := s.trace ++ [Event.storeGet none s.feeds.length] })

/-- Position of the feed with a given key. -/
def findFeed (key : FeedKey) : List Feed → Nat → Option FeedId
  | [], _ => none
  | f :: rest, i => if f.key = key then some i else findFeed key rest (i + 1)

/-- The value of `sdk.corestore.get({ key, valueEncoding })`: the feed of
that key, created empty if the store does not hold it. -/
def storeGetByKey (key : FeedKey) (s : State) : FeedId × State :=
  match findFeed key s.feeds 0 with
  | some fid => (fid, s.emit [Event.storeGet (some key) fid])
  | none =>
    (s.feeds.length,
      { s with feeds := s.feeds ++ [{ key := key, entries := [], listeners := [] }],
               trace := s.trace ++ [Event.storeGet (some key) s.feeds.length] })

/-- The statement `if (!remoteRoomFeeds[roomKey]) remoteRoomFeeds[roomKey] = {}`. -/
def ensureRemoteRoom (roomKey : RoomKey) (s : State) : State :=
  if s.remoteRoomFeeds.has roomKey then s
  else { s with remoteRoomFeeds := s.remoteRoomFeeds.set roomKey [] }

/-- First half of `joinChatRoom`, up to `await feed.ready()`: initialise
the room's remote mapping, and when `localRoomFeeds[roomKey]` is not
truthy, get a new feed from the store.  Returns the feed awaited, if any. -/
def joinChatRoomBegin (env : Env) (roomKey : RoomKey) (s : State) : Option FeedId × State :=
  if (ensureRemoteRoom roomKey s).localRoomFeeds.has roomKey then
    (none, ensureRemoteRoom roomKey s)
  else
    (some (storeGetFresh env (ensureRemoteRoom roomKey s)).1,
      (storeGetFresh env (ensureRemoteRoom roomKey s)).2)

/-- The statements of `joinChatRoom` between `await feed.ready()` and
`broadcastHello`: store the feed, install the append listener, and join
the swarm for the room if not already joined. -/
def registerLocalFeed (roomKey : RoomKey) (feed : FeedId) (s : State) : State :=
  let s1 := { s with localRoomFeeds := s.localRoomFeeds.set roomKey feed }
  let s2 := s1.updateFeed feed (fun f => { f with listeners := f.listeners ++ [roomKey] })
  if roomKey ∈ s2.joinedRooms then s2
  else { s2 with joinedRooms := s2.joinedRooms ++ [roomKey],
                 trace := s2.trace ++ [Event.swarmJoin roomKey, Event.swarmFlush] }

/-- Second half of `joinChatRoom`, from `await feed.ready()` on: store the
feed, install the append listener, join the swarm if not yet joined, and
announce the feed. -/
def joinChatRoomResume (env : Env) (roomKey : RoomKey) (feed : FeedId) (s : State) :
    Outcome Unit :=
  match env.readyError feed with
  | some m => (.error m, s)
  | none =>
    broadcastHello env roomKey ((registerLocalFeed roomKey feed s).feedKey feed)
      (registerLocalFeed roomKey feed s)

/-- Join a chat room: create your personal feed and start replication. -/
def joinChatRoom (env : Env) (roomKey : RoomKey) (s : State) : Outcome Unit :=
  match joinChatRoomBegin env roomKey s with
  | (none, s1) => (.ok (), s1)
  | (some feed, s1) => joinChatRoomResume env roomKey feed s1

/-! ## Swarm connections -/

/-- Lower-case hex digit. -/
def hexDigit (n : Nat) : Char :=
  if n < 10 then Char.ofNat (48 + n) else Char.ofNat (87 + n)

/-- The value of `b4a.toString(buf, "hex")`. -/
def toHex (buf : Bytes) : String :=
  String.mk (buf.flatMap (fun b => [hexDigit (b.val / 16), hexDigit (b.val % 16)]))

/-- The short display id of a connection. -/
def shortIdOf (remotePublicKey : Option Bytes) : String :=
  match remotePublicKey with
  | some pk => String.mk ((toHex pk).data.take 6)
  | none => "peer"

/-- The `replicate` calls of the connection handler: every local feed, by
`Object.keys(localRoomFeeds)`, then every remote feed of every room. -/
def replicateAll (conn : ConnId) (s : State) : List Event :=
  s.localRoomFeeds.ownEntries.map (fun e => Event.replicate e.2 conn)
    ++ s.remoteRoomFeeds.ownEntries.flatMap
        (fun room => room.2.ownEntries.map (fun e => Event.replicate e.2 conn))

/-- The swarm `connection` handler, up to the installation of the `data`
and `close` handlers. -/
def onConnection (conn : ConnId) (remotePublicKey : Option Bytes) (s : State) : State :=
  (broadcastPeerCount
    { s with peers := s.peers ++ [{ connection := conn, shortID := shortIdOf remotePublicKey }] }).emit
    (replicateAll conn s)

/-- The `close` handler of a connection. -/
def onClose (conn : ConnId) (s : State) : State :=
  broadcastPeerCount { s with peers := s.peers.filter (fun p => p.connection != conn) }

/-- Whether `msg.type === "hello"`. -/
def isHelloType : JVal → Bool
  | .str t => t == "hello"
  | _ => false

/-- The statements of the hello branch after `await remoteFeed.ready()`:
register the feed under the room and replicate it on the connection. -/
def registerRemoteFeed (conn : ConnId) (roomKey : RoomKey) (feedKey : String)
    (remoteFeed : FeedId) (s : State) : State :=
  { s with remoteRoomFeeds :=
      s.remoteRoomFeeds.set roomKey ((s.remoteFeeds roomKey).set feedKey remoteFeed),
           trace := s.trace ++ [Event.replicate remoteFeed conn] }

/-- The value of `Object.prototype[name][prop]`: truthy when this module has
put a feed there, else as the runtime has it. -/
def builtinRead (env : Env) (s : State) (name prop : String) : Except String Bool :=
  match (s.builtinFeeds name).get prop with
  | some _ => .ok true
  | none => env.builtinMember name prop

/-- The statements of the hello branch after `await remoteFeed.ready()` when
`remoteRoomFeeds[roomKey]` is a value of `Object.prototype`: the feed is
put on that value, and replicated on the connection. -/
def registerBuiltinFeed (conn : ConnId) (name prop : String) (remoteFeed : FeedId) (s : State) :
    State :=
  { s with builtinProps := s.builtinProps.set name ((s.builtinFeeds name).set prop remoteFeed),
           trace := s.trace ++ [Event.replicate remoteFeed conn] }

/-- The hello branch of the `data` handler from `b4a.from(msg.feedKey, "hex")`
on: the feed is loaded from the store, awaited, and handed to `register`. -/
def loadRemoteFeed (env : Env) (feedKey : JVal) (register : FeedId → State → Outcome Unit)
    (s : State) : Outcome Unit :=
  match env.decodeKey feedKey with
  | .error m => (.error m, s)
  | .ok key =>
    match env.readyError (storeGetByKey key s).1 with
    | some m => (.error m, (storeGetByKey key s).2)
    | none => register (storeGetByKey key s).1 (storeGetByKey key s).2

/-- The hello branch of the `data` handler when `remoteRoomFeeds[roomKey]` is
a value of `Object.prototype`. -/
def onHelloBuiltin (env : Env) (conn : ConnId) (name prop : String) (feedKey : JVal) (s : State) :
    Outcome Unit :=
  match builtinRead env s name prop with
  | .error m => (.error m, s)
  | .ok true => (.ok (), s)
  | .ok false =>
    loadRemoteFeed env feedKey
      (fun remoteFeed s2 =>
        match env.builtinAssignError name prop with
        | some m => (.error m, s2)
        | none => (.ok (), registerBuiltinFeed conn name prop remoteFeed s2))
      s

/-- The hello branch of the `data` handler. -/
def onHello (env : Env) (conn : ConnId) (roomKey feedKey : JVal) (s : State) : Outcome Unit :=
  if roomKey.unprintable then (.error convertError, s)
  else if feedKey.unprintable then (.error convertError, ensureRemoteRoom (env.key roomKey) s)
  else
    match (ensureRemoteRoom (env.key roomKey) s).remoteRoomFeeds.read (env.key roomKey) with
    | .absent =>
      (.error "Cannot read properties of undefined", ensureRemoteRoom (env.key roomKey) s)
    | .inherited =>
      onHelloBuiltin env conn (env.key roomKey) (env.key feedKey) feedKey
        (ensureRemoteRoom (env.key roomKey) s)
    | .own room =>
      if room.has (env.key feedKey) then (.ok (), ensureRemoteRoom (env.key roomKey) s)
      else
        loadRemoteFeed env feedKey
          (fun remoteFeed s2 =>
            (.ok (), registerRemoteFeed conn (env.key roomKey) (env.key feedKey) remoteFeed s2))
          (ensureRemoteRoom (env.key roomKey) s)

/-- The chat branch of the `data` handler, on the named properties of the
message. -/
def onChatMessage (env : Env) (shortID : String) (fields : List (String × JVal)) (s : State) :
    Outcome Unit :=
  let fields1 := JVal.assignField "sender" (.str shortID) fields
  let stamped := (JVal.lookupField "timestamp" fields1).truthy
  let fields2 := if stamped then fields1
    else JVal.assignField "timestamp" (.num (dateNow env s).1) fields1
  let s1 := if stamped then s else (dateNow env s).2
  let roomKey := JVal.lookupField "roomKey" fields2
  if roomKey.truthy && roomKey.unprintable then (.error convertError, s1)
  else if roomKey.truthy && s1.localRoomFeeds.has (env.key roomKey) then
    -- try { await appendMessageToLocalFeed(...) } catch (err) { console.error(...) }
    (.ok (), (appendMessageToLocalFeed env (env.key roomKey) (JVal.lookupField "sender" fields2)
      (JVal.lookupField "message" fields2) (JVal.lookupField "timestamp" fields2) s1).2)
  else (.ok (), s1)

/-- The `data` handler after `msg` has been set: the test for the hello
shape and the two branches. -/
def onMessage (env : Env) (conn : ConnId) (shortID : String) (msg : JVal) (s : State) :
    Outcome Unit :=
  match msg.getProp "type", msg.getProp "roomKey", msg.getProp "feedKey" with
  | some type, some roomKey, some feedKey =>
    if isHelloType type && roomKey.truthy && feedKey.truthy then
      onHello env conn roomKey feedKey s
    else
      match msg.namedFields with
      | some fields => onChatMessage env shortID fields s
      | none =>
        (.error ("Cannot create property 'sender' on " ++ msg.typeName ++ " '" ++ env.key msg
          ++ "'"), s)
  | _, _, _ => (.error "Cannot read properties of null (reading 'type')", s)

/-- The `data` handler of a connection with short id `shortID`. -/
def onData (env : Env) (conn : ConnId) (shortID : String) (rawData : String) (s : State) :
    Outcome Unit :=
  match env.parse rawData with
  | .ok msg => onMessage env conn shortID msg s
  | .error _ =>
    onMessage env conn shortID
      (chatMessage (.str shortID) (.str rawData) (.num (dateNow env s).1)) (dateNow env s).2

/-! ## The chat router -/

/-- The bytes one upload chunk contributes to the body stream. -/
def readChunk (env : Env) (data : Chunk) : Except String Bytes :=
  match data.bytes with
  | some b => .ok b
  | none =>
    match data.file with
    | some f => if f != "" then env.readFile f else
      match data.blobUUID with
      | some u => if u != "" then env.getBlobData u else .ok []
      | none => .ok []
    | none =>
      match data.blobUUID with
      | some u => if u != "" then env.getBlobData u else .ok []
      | none => .ok []

/-- The loop of `readBody` over `body || []`. -/
def readChunks (env : Env) : List Chunk → Except String Bytes
  | [] => .ok []
  | data :: rest =>
    match readChunk env data with
    | .error m => .error m
    | .ok b =>
      match readChunks env rest with
      | .error m => .error m
      | .ok bs => .ok (b ++ bs)

/-- The bytes the stream of `readBody` delivers, or the message of the
error it emits. -/
def readBody (env : Env) (body : Option (List Chunk)) : Except String Bytes :=
  readChunks env (body.getD [])

/-- Read JSON body from a request. -/
def getJSONBody (env : Env) (uploadData : Option (List Chunk)) : Except String JVal :=
  match readBody env uploadData with
  | .error m => .error m
  | .ok buf => env.parse (env.decodeText buf)

/-- Create a new chat room key. -/
def generateChatRoom (env : Env) (s : State) : String × State :=
  (toHex ((List.range 32).map (env.randomByte s.randomCalls)),
    { s with randomCalls := s.randomCalls + 1 })

/-- A `200 application/json` response. -/
def jsonResponse (env : Env) (v : JVal) : Response :=
  { statusCode := 200, headers := [("Content-Type", "application/json")],
    data := .text (env.stringify v) }

/-- A `text/plain` response. -/
def textResponse (status : Nat) (text : String) : Response :=
  { statusCode := status, headers := [("Content-Type", "text/plain")], data := .text text }

/-- Whether `!roomKey` holds for `searchParams.get("roomKey")`. -/
def roomKeyMissing (roomKey : Option String) : Bool :=
  match roomKey with
  | none => true
  | some k => k == ""

/-- The replay loop over one feed: `for (let i = 0; i < feed.length; i++)`
write the frame of `feed.get(i)`. -/
def replayFeed (env : Env) (stream : StreamId) (s : State) (fid : FeedId) : List Event :=
  (List.range (s.feedLength fid)).filterMap
    (fun i => (s.feedEntries fid)[i]?.map (fun msg => Event.streamWrite stream (dataFrame env msg)))

/-- The history replay of the receive action where it does not throw: the
local feed, then every remote feed of the room by `for ... in`.  Where
`remoteRoomFeeds[roomKey]` is a value of `Object.prototype`, the loop runs
over the feeds this module has put on it. -/
def replayAll (env : Env) (stream : StreamId) (roomKey : RoomKey) (s : State) : List Event :=
  (match s.localRoomFeeds.get roomKey with
    | some myFeed => replayFeed env stream s myFeed
    | none => [])
  ++ (match s.remoteRoomFeeds.get roomKey with
    | some room => room.ownEntries.flatMap (fun e => replayFeed env stream s e.2)
    | none =>
      if roomKey ∈ objectPrototypeNames then
        (s.builtinFeeds roomKey).ownEntries.flatMap (fun e => replayFeed env stream s e.2)
      else [])

/-- Whether the replay of the local feed throws: `localRoomFeeds[roomKey]`
is a function of `Object.prototype` with parameters, so the loop is entered
and `myFeed.get` is not a function. -/
def localReplayThrows (roomKey : RoomKey) (s : State) : Bool :=
  match s.localRoomFeeds.read roomKey with
  | .inherited => decide (0 < inheritedLength roomKey)
  | _ => false

/-- Whether `roomSseClients[roomKey].push(stream)` throws: the value is one
of `Object.prototype`, which has no `push`. -/
def pushThrows (roomKey : RoomKey) (s : State) : Bool :=
  match s.roomSseClients.read roomKey with
  | .inherited => true
  | _ => false

/-- The receive action, after the roomKey check. -/
def receiveAction (env : Env) (roomKey : RoomKey) (s : State) : Outcome Unit :=
  let stream := s.nextStream
  let s1 := { s with nextStream := s.nextStream + 1, messageStream := some stream }
  if localReplayThrows roomKey s1 then (.error "myFeed.get is not a function", s1)
  else
    let s2 := s1.emit (replayAll env stream roomKey s1)
    let s3 := { s2 with timers := s2.timers ++ [stream], trace := s2.trace ++ [Event.setInterval stream] }
    if pushThrows roomKey s3 then (.error "roomSseClients[roomKey].push is not a function", s3)
    else
      let s4 := { s3 with roomSseClients :=
        s3.roomSseClients.set roomKey (s3.sseClients roomKey ++ [stream]) }
      (.ok (), s4.emit [Event.callback
        { statusCode := 200,
          headers := [("Content-Type", "text/event-stream"), ("Cache-Control", "no-cache"),
            ("Connection", "keep-alive")],
          data := .stream stream }])

/-- The object `{ sender, message, timestamp, roomKey }` sent to peers. -/
def peerMessage (sender message timestamp : JVal) (roomKey : RoomKey) : JVal :=
  .obj [("sender", sender), ("message", message), ("timestamp", timestamp),
    ("roomKey", .str roomKey)]

/-- The send action, after the roomKey check. -/
def sendAction (env : Env) (roomKey : RoomKey) (uploadData : Option (List Chunk)) (s : State) :
    Outcome Unit :=
  match getJSONBody env uploadData with
  | .error m => (.error m, s)
  | .ok body =>
    match body.getProp "sender", body.getProp "message" with
    | some sender, some message =>
      -- console.log(`Sending message [${sender}]: ${message}`)
      if sender.unprintable || message.unprintable then (.error convertError, s)
      else
        let appended := appendMessageToLocalFeed env roomKey sender message
          (.num (dateNow env s).1) (dateNow env s).2
        match appended.1 with
        | .error m => (.error m, appended.2)
        | .ok _ =>
          let sent := sendMessageToPeers env
            (env.stringify (peerMessage sender message (.num (dateNow env appended.2).1) roomKey))
            (dateNow env appended.2).2
          match sent.1 with
          | .error m => (.error m, sent.2)
          | .ok _ =>
            (.ok (), sent.2.emit
              [Event.callback (jsonResponse env (.obj [("message", .str "Message sent")]))])
    | _, _ =>
      (.error "Cannot destructure property 'sender' of '(intermediate value)' as it is null.", s)

/-- The `try` block of `handleChatRequest`. -/
def handleChatBody (env : Env) (req : Request) (s : State) : Outcome Unit :=
  if req.method = "POST" ∧ req.action = some "create-key" then
    (.ok (), (generateChatRoom env s).2.emit
      [Event.callback (jsonResponse env (.obj [("roomKey", .str (generateChatRoom env s).1)]))])
  else if req.method = "POST" ∧ req.action = some "join" then
    if roomKeyMissing req.roomKey then (.error "Missing roomKey in join request", s)
    else
      match (joinChatRoom env (req.roomKey.getD "") s).1 with
      | .error m => (.error m, (joinChatRoom env (req.roomKey.getD "") s).2)
      | .ok _ =>
        (.ok (), (joinChatRoom env (req.roomKey.getD "") s).2.emit
          [Event.callback (jsonResponse env (.obj [("message", .str "Joined chat room")]))])
  else if req.method = "POST" ∧ req.action = some "send" then
    if roomKeyMissing req.roomKey then (.error "Missing roomKey in send request", s)
    else sendAction env (req.roomKey.getD "") req.uploadData s
  else if req.method = "GET" ∧ req.action = some "receive" then
    if roomKeyMissing req.roomKey then (.error "Missing roomKey in receive request", s)
    else receiveAction env (req.roomKey.getD "") s
  else
    (.ok (), s.emit [Event.callback (textResponse 400 "Invalid chat action")])

/-- Handle all chat-related endpoints: the `try` block, and the `catch`
that answers 500 with the message of the error. -/
def handleChatRequest (env : Env) (req : Request) (s : State) : Outcome Unit :=
  match (handleChatBody env req s).1 with
  | .ok _ => (.ok (), (handleChatBody env req s).2)
  | .error m =>
    (.ok (), (handleChatBody env req s).2.emit
      [Event.callback (textResponse 500 ("Error in chat request: " ++ m))])

/-- The `close` handler of an SSE stream registered for `roomKey`. -/
def onStreamClose (roomKey : RoomKey) (stream : StreamId) (s : State) : State :=
  let s1 := { s with timers := s.timers.filter (fun t => t != stream),
                     trace := s.trace ++ [Event.clearInterval stream] }
  { s1 with roomSseClients :=
    s1.roomSseClients.set roomKey ((s1.sseClients roomKey).filter (fun t => t != stream)) }

/-- One tick of the `keepAlive` interval of a stream. -/
def onKeepAlive (stream : StreamId) (s : State) : State :=
  s.emit [Event.streamWrite stream ":\n\n"]

/-! ## Sequential runs -/

/-- The `feed.get(idx)` awaited by the `i`-th suspended run of an append
listener settles, and the run goes on. -/
def resumeListener (env : Env) (i : Nat) (s : State) : State :=
  match s.pending[i]? with
  | some p => appendListener env p.feed p.roomKey p.idx { s with pending := s.pending.eraseIdx i }
  | none => s

/-- What can happen to the module, one handler invocation at a time. -/
inductive Action where
  /-- A chat request reaches `handleChatRequest`. -/
  | request (env : Env) (req : Request) : Action
  /-- The swarm emits `connection`. -/
  | connection (conn : ConnId) (remotePublicKey : Option Bytes) : Action
  /-- A connection emits `data`. -/
  | data (env : Env) (conn : ConnId) (shortID : String) (rawData : String) : Action
  /-- A connection emits `close`. -/
  | close (conn : ConnId) : Action
  /-- An SSE stream emits `close`. -/
  | streamClose (roomKey : RoomKey) (stream : StreamId) : Action
  /-- A `keepAlive` interval fires. -/
  | keepAlive (stream : StreamId) : Action
  /-- Replication delivers further entries of a feed that has no local
  writer (no append listener). -/
  | replicated (feed : FeedId) (entries : List JVal) : Action
  /-- The `feed.get(idx)` a suspended run of an append listener awaits
  settles: the run, the `i`-th of those suspended, goes on. -/
  | listener (env : Env) (i : Nat) : Action

/-- The state after one action. -/
def step (a : Action) (s : State) : State :=
  match a with
  | .request env req => (handleChatRequest env req s).2
  | .connection conn pk => onConnection conn pk s
  | .data env conn shortID rawData => (onData env conn shortID rawData s).2
  | .close conn => onClose conn s
  | .streamClose roomKey stream => onStreamClose roomKey stream s
  | .keepAlive stream => onKeepAlive stream s
  | .replicated feed entries =>
    if (s.feedListeners feed).isEmpty then
      s.updateFeed feed (fun f => { f with entries := f.entries ++ entries })
    else s
  | .listener env i => resumeListener env i s

/-- The state after a sequence of actions. -/
def run (as : List Action) (s : State) : State :=
  as.foldl (fun st a => step a st) s

/-- States the module can be in after sequential (non-interleaved) handler
invocations from module load. -/
inductive Reachable : State → Prop where
  | init : Reachable State.init
  | next (a : Action) {s : State} (h : Reachable s) : Reachable (step a s)

/-! ## Reading traces -/

/-- The calls recorded since an earlier state. -/
def eventsSince (s s' : State) : List Event :=
  s'.trace.drop s.trace.length

/-- Whether the event is a `sdk.corestore.get`. -/
def Event.isStoreGet : Event → Bool
  | .storeGet _ _ => true
  | _ => false

/-- Whether the event is `swarm.join` for the topic of `roomKey`. -/
def Event.isSwarmJoin (roomKey : RoomKey) : Event → Bool
  | .swarmJoin k => k == roomKey
  | _ => false

/-- Whether the event is a write to a peer connection. -/
def Event.isPeerWrite : Event → Bool
  | .peerWrite _ _ => true
  | _ => false

/-- Whether the event is a write to the given SSE stream. -/
def Event.isWriteTo (stream : StreamId) : Event → Bool
  | .streamWrite st _ => st == stream
  | _ => false

/-- Whether the event is a `replicate` call. -/
def Event.isReplicate : Event → Bool
  | .replicate _ _ => true
  | _ => false

/-- The responses passed to the callback, in order. -/
def responses : List Event → List Response
  | [] => []
  | .callback r :: rest => r :: responses rest
  | _ :: rest => responses rest

/-- The peers `sendMessageToPeers` writes to: those not destroyed, up to
the first whose write throws. -/
def writtenPeers (env : Env) : List Peer → List Peer
  | [] => []
  | p :: rest =>
    if env.destroyed p.connection then writtenPeers env rest
    else match env.writeError p.connection with
      | some _ => []
      | none => p :: writtenPeers env rest

/-- The registry: the five module-level variables. -/
structure Registry where
  localRoomFeeds : JSObj FeedId
  remoteRoomFeeds : JSObj (JSObj FeedId)
  roomSseClients : JSObj (List StreamId)
  peers : List Peer
  joinedRooms : List RoomKey

/-- The registry of a state. -/
def State.registry (s : State) : Registry :=
  { localRoomFeeds := s.localRoomFeeds, remoteRoomFeeds := s.remoteRoomFeeds,
    roomSseClients := s.roomSseClients, peers := s.peers, joinedRooms := s.joinedRooms }

/-- The two variables `joinChatRoom` consults: local feeds and joined rooms. -/
def State.rooms (s : State) : JSObj FeedId × List RoomKey :=
  (s.localRoomFeeds, s.joinedRooms)

/-- The invariant behind the swarm-join guard: a joined room has a local feed. -/
def JoinedHaveFeed (s : State) : Prop :=
  ∀ k, k ∈ s.joinedRooms → ∃ f, s.localRoomFeeds.get k = some f

/-- No room with a local feed has a name inherited from `Object.prototype`
as its key. -/
def LocalKeysOk (s : State) : Prop :=
  ∀ k f, s.localRoomFeeds.get k = some f → k ∉ objectPrototypeNames

/-! ## A concrete environment -/

/-- JSON text of a value whose strings need no escaping; `undefined`
properties are left out. -/
def printJson : JVal → String
  | .undefined => "null"
  | .null => "null"
  | .bool b => if b then "true" else "false"
  | .num n => toString n
  | .str s => "\"" ++ s ++ "\""
  | .arr items => "[" ++ ",".intercalate (printItems items) ++ "]"
  | .obj fields => "\x7b" ++ ",".intercalate (printFields fields) ++ "\x7d"
where
  /-- The texts of the elements of an array. -/
  printItems : List JVal → List String
    | [] => []
    | v :: rest => printJson v :: printItems rest
  /-- The texts of the properties of an object. -/
  printFields : List (String × JVal) → List String
    | [] => []
    | (_, .undefined) :: rest => printFields rest
    | (k, v) :: rest => ("\"" ++ k ++ "\":" ++ printJson v) :: printFields rest

/-- A few JSON texts with their values; every other text is taken as a
syntax error. -/
def parseSample (text : String) : Except String JVal :=
  if text = "null" then .ok .null
  else if text = "5" then .ok (.num 5)
  else if text = "\"hi\"" then .ok (.str "hi")
  else if text = "\x7b\"sender\":\"a\",\"message\":\"hi\"\x7d" then
    .ok (.obj [("sender", .str "a"), ("message", .str "hi")])
  else if text = "\x7b\"message\":\"hi\"\x7d" then .ok (.obj [("message", .str "hi")])
  else if text = "\x7b\"type\":\"hello\",\"roomKey\":\"ab\",\"feedKey\":\"cd\"\x7d" then
    .ok (.obj [("type", .str "hello"), ("roomKey", .str "ab"), ("feedKey", .str "cd")])
  else if text = "\x7b\"type\":\"hello\",\"roomKey\":\"ab\",\"feedKey\":\"ef\"\x7d" then
    .ok (.obj [("type", .str "hello"), ("roomKey", .str "ab"), ("feedKey", .str "ef")])
  else if text = "\x7b\"type\":\"hello\",\"roomKey\":\"ab\",\"feedKey\":\"20\"\x7d" then
    .ok (.obj [("type", .str "hello"), ("roomKey", .str "ab"), ("feedKey", .str "20")])
  else if text = "\x7b\"type\":\"hello\",\"roomKey\":\"ab\",\"feedKey\":\"10\"\x7d" then
    .ok (.obj [("type", .str "hello"), ("roomKey", .str "ab"), ("feedKey", .str "10")])
  else if text = "\x7b\"type\":\"hello\",\"roomKey\":\"ab\",\"feedKey\":\"constructor\"\x7d" then
    .ok (.obj [("type", .str "hello"), ("roomKey", .str "ab"), ("feedKey", .str "constructor")])
  else if text = "\x7b\"sender\":\"a\",\"message\":\x7b\"toString\":null\x7d\x7d" then
    .ok (.obj [("sender", .str "a"), ("message", .obj [("toString", .null)])])
  else if text = "\x7b\"message\":\"yo\",\"roomKey\":\"ab\"\x7d" then
    .ok (.obj [("message", .str "yo"), ("roomKey", .str "ab")])
  else if text = "\x7b\"message\":\"yo\",\"roomKey\":\"ab\",\"timestamp\":0\x7d" then
    .ok (.obj [("message", .str "yo"), ("roomKey", .str "ab"), ("timestamp", .num 0)])
  else if text = "\x7b\"message\":\"yo\",\"roomKey\":0\x7d" then
    .ok (.obj [("message", .str "yo"), ("roomKey", .num 0)])
  else if text = "\x7b\"sender\":\"mallory\",\"message\":\"yo\",\"roomKey\":\"ab\",\"timestamp\":5\x7d" then
    .ok (.obj [("sender", .str "mallory"), ("message", .str "yo"), ("roomKey", .str "ab"),
      ("timestamp", .num 5)])
  else .error "Unexpected token"

/-- An environment in which no collaborator fails: the clock advances by
one per call, the n-th feed gets the key of 64 times the hex digit of n. -/
def demoEnv : Env :=
  { now := fun n => 1700000000000 + n
    freshKey := fun n => String.mk (List.replicate 64 (hexDigit (n % 16)))
    randomByte := fun n i => ⟨(n + 7 * i) % 256, Nat.mod_lt _ (by decide)⟩
    decodeKey := fun v => .ok (v.toKey (fun n => toString n))
    readyError := fun _ => none
    appendError := fun _ => none
    writeError := fun _ => none
    destroyed := fun _ => false
    parse := parseSample
    stringify := printJson
    numberText := fun n => toString n
    decodeText := fun b => String.mk (b.map (fun x => Char.ofNat x.val))
    readFile := fun _ => .error "ENOENT"
    getBlobData := fun _ => .error "no blob"
    builtinMember := fun name prop =>
      .ok (decide (prop ∈ objectPrototypeNames ∨ prop = "name"
        ∨ (prop = "length" ∧ 0 < inheritedLength name)
        ∨ (name ≠ "__proto__" ∧ prop ∈ ["apply", "bind", "call"])))
    builtinAssignError := fun _ prop =>
      if prop = "length" then some "Cannot assign to read only property 'length' of function"
      else none }

/-- The state after one peer has connected. -/
def onePeer : State :=
  step (.connection 7 none) State.init

/-- The append listeners of the feeds of the store, feed by feed. -/
def State.listenerLists (s : State) : List (List RoomKey) :=
  s.feeds.map (fun f => f.listeners)

/-- The store has gained feeds without listeners, and the listeners of the
feeds it had are the same. -/
def ListenersGrow (s s' : State) : Prop :=
  ∃ n, s'.listenerLists = s.listenerLists ++ List.replicate n []

/-- Every local feed is a feed of the store and carries the append listener
of its room and no other. -/
def LocalFeedsOk (s : State) : Prop :=
  ∀ k f, s.localRoomFeeds.get k = some f → s.listenerLists[f]? = some [k]

/-- The state after a room has been joined from module load. -/
def joinedAb : State :=
  step (.request demoEnv
    { method := "POST", protocol := "hyper:", hostname := "chat", pathname := "/",
      action := some "join", roomKey := some "ab", uploadData := none }) State.init

/-- The timestamp `appendMessageToLocalFeed` stores: the one passed when it
is truthy, else the time of the call. -/
def storedTimestamp (env : Env) (timestamp : JVal) (s : State) : JVal :=
  if timestamp.truthy then timestamp else .num (env.now s.clock)

/-- The writes to SSE streams among recorded calls: stream and frame. -/
def streamWrites : List Event → List (StreamId × String)
  | [] => []
  | .streamWrite st frame :: rest => (st, frame) :: streamWrites rest
  | _ :: rest => streamWrites rest

/-- The entries of the local feed of a room, none when it has no local feed. -/
def State.localEntries (s : State) (roomKey : RoomKey) : List JVal :=
  match s.localRoomFeeds.get roomKey with
  | some f => s.feedEntries f
  | none => []

/-- A receive request for a room. -/
def receiveRequest (roomKey : String) : Request :=
  { method := "GET", protocol := "hyper:", hostname := "chat", pathname := "/",
    action := some "receive", roomKey := some roomKey, uploadData := none }

/-- The text of a hello message for room `ab` announcing the feed `cd`. -/
def helloCd : String :=
  "\x7b\"type\":\"hello\",\"roomKey\":\"ab\",\"feedKey\":\"cd\"\x7d"

/-- The text of a hello message for room `ab` announcing the feed `ef`. -/
def helloEf : String :=
  "\x7b\"type\":\"hello\",\"roomKey\":\"ab\",\"feedKey\":\"ef\"\x7d"

/-- The state after a join of room `ab`, two hello messages announcing the
feeds `ef` and `cd` for it, and replication of one entry of each. -/
def twoRemotes : State :=
  run [.data demoEnv 7 "peer" helloEf, .data demoEnv 7 "peer" helloCd,
      .replicated 1 [chatMessage (.str "x") (.str "one") (.num 1)],
      .replicated 2 [chatMessage (.str "y") (.str "two") (.num 2)]] joinedAb

/-- The state after a join of room `ab`, two hello messages announcing for
it the feed `20` and then the feed `10`, and replication of one entry of
each. -/
def remotes2010 : State :=
  run [.data demoEnv 7 "peer" "\x7b\"type\":\"hello\",\"roomKey\":\"ab\",\"feedKey\":\"20\"\x7d",
      .data demoEnv 7 "peer" "\x7b\"type\":\"hello\",\"roomKey\":\"ab\",\"feedKey\":\"10\"\x7d",
      .replicated 1 [chatMessage (.str "x") (.str "one") (.num 1)],
      .replicated 2 [chatMessage (.str "y") (.str "two") (.num 2)]] joinedAb

/-- A send request for a room with the given upload data. -/
def sendRequest (roomKey : String) (uploadData : Option (List Chunk)) : Request :=
  { method := "POST", protocol := "hyper:", hostname := "chat", pathname := "/",
    action := some "send", roomKey := some roomKey, uploadData := uploadData }

/-- The timestamp the send action stores with the entry: the time of its
first `Date.now()`, or, when that is 0, the time of the next call. -/
def sendTimestamp (env : Env) (s : State) : JVal :=
  storedTimestamp env (.num (env.now s.clock)) s.tick

/-- The bytes of a text of characters below 256. -/
def bytesOf (text : String) : Bytes :=
  text.data.map (fun c => ⟨c.toNat % 256, Nat.mod_lt _ (by decide)⟩)

/-- Upload data of one chunk of raw bytes: the JSON text of
`{"sender":"a","message":"hi"}`. -/
def hiUpload : Option (List Chunk) :=
  some [{ bytes := some (bytesOf "\x7b\"sender\":\"a\",\"message\":\"hi\"\x7d"),
          file := none, blobUUID := none }]

/-- The SSE clients of the rooms, and the number of streams created. -/
def State.sse (s : State) : JSObj (List StreamId) × Nat :=
  (s.roomSseClients, s.nextStream)

/-- The streams registered under a room are distinct streams already
created. -/
def StreamsOk (s : State) : Prop :=
  ∀ k l, s.roomSseClients.get k = some l → l.Nodup ∧ ∀ st ∈ l, st < s.nextStream

/-- The state after a join of room `ab`, two receive requests for it and
one for room `cd`. -/
def twoStreams : State :=
  run [.request demoEnv (receiveRequest "ab"), .request demoEnv (receiveRequest "ab"),
    .request demoEnv (receiveRequest "cd")] joinedAb

/-- The remote feeds of the rooms. -/
def State.remote (s : State) : JSObj (JSObj FeedId) :=
  s.remoteRoomFeeds

/-- No room's mapping of remote feeds has a key twice. -/
def RemoteKeysOk (s : State) : Prop :=
  ∀ k o, s.remoteRoomFeeds.get k = some o → (o.map Prod.fst).Nodup

/-- The message has the hello shape, with these `roomKey` and `feedKey`. -/
def IsHello (msg roomKey feedKey : JVal) : Prop :=
  msg.getProp "type" = some (.str "hello")
  ∧ msg.getProp "roomKey" = some roomKey ∧ roomKey.truthy = true
  ∧ msg.getProp "feedKey" = some feedKey ∧ feedKey.truthy = true

/-- The peer list. -/
def State.peerList (s : State) : List Peer :=
  s.peers

/-- The connections of the peer list. -/
def State.peerConns (s : State) : List ConnId :=
  s.peers.map (fun p => p.connection)

/-- Number of `connection` events of a sequence. -/
def connects : List Action → Nat
  | [] => 0
  | .connection _ _ :: rest => connects rest + 1
  | _ :: rest => connects rest

/-- Number of connection `close` events of a sequence. -/
def closes : List Action → Nat
  | [] => 0
  | .close _ :: rest => closes rest + 1
  | _ :: rest => closes rest

/-- Every `connection` event of the sequence brings a connection object
that is not in the peer list, and every `close` event is for a connection
that is in the peer list at that moment. -/
def PeerEventsOk : List Action → State → Prop
  | [], _ => True
  | .connection c pk :: rest, s =>
    c ∉ s.peerConns ∧ PeerEventsOk rest (step (.connection c pk) s)
  | .close c :: rest, s => c ∈ s.peerConns ∧ PeerEventsOk rest (step (.close c) s)
  | a :: rest, s => PeerEventsOk rest (step a s)

/-- All streams registered under the rooms, room by room in the order of
`Object.values(roomSseClients)`. -/
def State.allStreams (s : State) : List StreamId :=
  s.roomSseClients.ownEntries.flatMap (fun e => e.2)

/-- The responses passed to the callback so far. -/
def State.answered (s : State) : List Response :=
  responses s.trace

/-- The (method, action) pairs the chat router serves. -/
def chatRoutes : List (String × Option String) :=
  [("POST", some "create-key"), ("POST", some "join"), ("POST", some "send"),
    ("GET", some "receive")]

/-- The (method, action) pairs of the routes that need a roomKey. -/
def roomRoutes : List (String × String) :=
  [("POST", "join"), ("POST", "send"), ("GET", "receive")]

/-- A join request without a `roomKey` query parameter. -/
def joinNoRoomKey : Request :=
  { method := "POST", protocol := "hyper:", hostname := "chat", pathname := "/",
    action := some "join", roomKey := none, uploadData := none }

/-- The status codes of the responses among recorded calls. -/
def statusCodes (es : List Event) : List Nat :=
  (responses es).map (fun r => r.statusCode)

/-- No write to a peer of the list whose connection is not destroyed
throws. -/
def NoWriteFails (env : Env) (ps : List Peer) : Prop :=
  ∀ p ∈ ps, env.destroyed p.connection = false → env.writeError p.connection = none

/-- The peers whose connection is not destroyed. -/
def livePeers (env : Env) (ps : List Peer) : List Peer :=
  ps.filter (fun p => !env.destroyed p.connection)

/-- The time the send action puts into the frame for the peers: the value
of the `Date.now()` that follows the append. -/
def peerTimestamp (env : Env) (s : State) : JVal :=
  .num (env.now (if env.now s.clock = 0 then s.clock + 2 else s.clock + 1))

/-- The answer `200 application/json {"message":"Message sent"}`. -/
def messageSent (env : Env) : Response :=
  { statusCode := 200, headers := [("Content-Type", "application/json")],
    data := .text (env.stringify (.obj [("message", .str "Message sent")])) }

/-- The entry a send appends. -/
def sentEntry (env : Env) (sender message : JVal) (s : State) : JVal :=
  chatMessage sender message (sendTimestamp env s)

/-- The calls a send that goes through records: the frame to every peer
that is not destroyed, and the answer. -/
def sendEvents (env : Env) (K : RoomKey) (sender message : JVal) (s : State) : List Event :=
  (livePeers env s.peers).map (fun p => Event.peerWrite p.connection
      (env.stringify (peerMessage sender message (peerTimestamp env s) K)))
  ++ [Event.callback (messageSent env)]

/-- A join request for a room. -/
def joinRequest (roomKey : String) : Request :=
  { method := "POST", protocol := "hyper:", hostname := "chat", pathname := "/",
    action := some "join", roomKey := some roomKey, uploadData := none }

/-- The demo environment with connection 9 destroyed. -/
def demoEnv9 : Env :=
  { demoEnv with destroyed := fun c => c == 9 }

/-- The state after two peers have connected (connections 7 and 9), room
`ab` has been joined and a receive stream for it is open. -/
def roomWithPeers : State :=
  run [.connection 7 none, .connection 9 none, .request demoEnv (joinRequest "ab"),
    .request demoEnv (receiveRequest "ab")] State.init

/-- Upload data of one chunk of raw bytes: the JSON text of
`{"message":"hi"}`, a body without the `sender` field. -/
def noSenderUpload : Option (List Chunk) :=
  some [{ bytes := some (bytesOf "\x7b\"message\":\"hi\"\x7d"), file := none, blobUUID := none }]

/-- The demo environment with writes to connection 9 throwing. -/
def demoEnvThrow : Env :=
  { demoEnv with writeError := fun c => if c = 9 then some "write after end" else none }

/-- The timestamp of the entry the data handler appends for a chat
message: the payload's when it is truthy, else the time of the handler's
`Date.now()` (or, were that 0, of the next call). -/
def receivedTimestamp (env : Env) (timestamp : JVal) (s : State) : JVal :=
  if timestamp.truthy then timestamp else storedTimestamp env (.num (env.now s.clock)) s.tick

/-- The frame is a JSON object without the hello shape. -/
def LacksHelloShape (fields : List (String × JVal)) : Prop :=
  ¬ (isHelloType (JVal.lookupField "type" fields) = true
      ∧ (JVal.lookupField "roomKey" fields).truthy = true
      ∧ (JVal.lookupField "feedKey" fields).truthy = true)

/-- The state after room `0` has been joined from module load. -/
def joinedZero : State :=
  step (.request demoEnv (joinRequest "0")) State.init

/-- The text of a chat frame for room `ab` with a sender and the timestamp
5 in the payload. -/
def chatFrame : String :=
  "\x7b\"sender\":\"mallory\",\"message\":\"yo\",\"roomKey\":\"ab\",\"timestamp\":5\x7d"

/-- The `replicate` calls among recorded calls. -/
def replicateCalls (es : List Event) : List Event :=
  es.filter Event.isReplicate

/-- The message the data handler synthesizes for a frame that is not JSON. -/
def fallbackMessage (env : Env) (shortID rawData : String) (s : State) : JVal :=
  chatMessage (.str shortID) (.str rawData) (.num (env.now s.clock))

/-- The value of a hexadecimal digit, of either case. -/
def hexValue (c : Char) : Option Nat :=
  if 48 ≤ c.toNat ∧ c.toNat ≤ 57 then some (c.toNat - 48)
  else if 97 ≤ c.toNat ∧ c.toNat ≤ 102 then some (c.toNat - 87)
  else if 65 ≤ c.toNat ∧ c.toNat ≤ 70 then some (c.toNat - 55)
  else none

/-- Hex decoding of a list of characters, two digits a byte: `none` when a
character is not a hex digit or the length is odd. -/
def decodeHex : List Char → Option Bytes
  | [] => some []
  | [_] => none
  | hi :: lo :: rest =>
    match hexValue hi, hexValue lo, decodeHex rest with
    | some h, some l, some bs =>
      if hlt : h * 16 + l < 256 then some (⟨h * 16 + l, hlt⟩ :: bs) else none
    | _, _, _ => none

/-- Hex decoding of a string (`b4a.from(text, "hex")` on well-formed text). -/
def fromHex (text : String) : Option Bytes :=
  decodeHex text.data

/-- The lowercase hexadecimal digits. -/
def lowerHexDigits : List Char :=
  ['0', '1', '2', '3', '4', '5', '6', '7', '8', '9', 'a', 'b', 'c', 'd', 'e', 'f']

/-- The bytes of the n-th `crypto.randomBytes(32)`. -/
def randomBytes32 (env : Env) (n : Nat) : Bytes :=
  (List.range 32).map (env.randomByte n)

/-- A create-key request: method POST, action `create-key`, the rest as in
`req`. -/
def createKeyRequest (req : Request) : Request :=
  { req with method := "POST", action := some "create-key" }

/-- One element of upload data, by its kind: raw bytes, a file reference or
a blob reference. -/
inductive UploadPart where
  | raw (bytes : Bytes) : UploadPart
  | file (path : String) : UploadPart
  | blob (uuid : String) : UploadPart

namespace UploadPart

/-- The chunk object of a part: the one property of its kind is set. -/
def toChunk : UploadPart → Chunk
  | raw b => { bytes := some b, file := none, blobUUID := none }
  | file p => { bytes := none, file := some p, blobUUID := none }
  | blob u => { bytes := none, file := none, blobUUID := some u }

/-- The bytes a part stands for: the bytes themselves, the contents of the
file, the blob data of the session; or the message of the failure. -/
def resolve (env : Env) : UploadPart → Except String Bytes
  | raw b => .ok b
  | file p => env.readFile p
  | blob u => env.getBlobData u

/-- Whether the reference of a part names something: a file path or blob
id is a non-empty string. -/
def named : UploadPart → Bool
  | raw _ => true
  | file p => p != ""
  | blob u => u != ""

end UploadPart

/-- The demo environment with one file and one blob. -/
def demoEnvFiles : Env :=
  { demoEnv with
    readFile := fun p => if p = "/tmp/part" then .ok (bytesOf "\"a\",\"message\":") else .error "ENOENT"
    getBlobData := fun u => if u = "b1" then .ok (bytesOf "\"hi\"\x7d") else .error "no blob" }

/-- Upload data of three chunks, raw bytes, a file and a blob, that
together hold the JSON text of `{"sender":"a","message":"hi"}`. -/
def threeParts : List UploadPart :=
  [.raw (bytesOf "\x7b\"sender\":"), .file "/tmp/part", .blob "b1"]

/-- The rooms that have a stream list, in creation order. -/
def State.sseRooms (s : State) : List RoomKey :=
  s.roomSseClients.map Prod.fst

/-- The rest of a `joinChatRoom(roomKey)` call that was suspended at its
`await feed.ready()`; a call that awaited no feed has returned already. -/
def resumeJoin (env : Env) (roomKey : RoomKey) (awaited : Option FeedId) (s : State) : State :=
  match awaited with
  | some feed => (joinChatRoomResume env roomKey feed s).2
  | none => s

/-- Two calls of `joinChatRoom(roomKey)`, the second starting while the
first is suspended at its `await feed.ready()`: the first call up to its
wait, the second call up to its wait, then the first call resumed, then
the second.  The state after each of the four stretches. -/
def joinRace (env : Env) (roomKey : RoomKey) (s : State) : State × State × State × State :=
  let b1 := joinChatRoomBegin env roomKey s
  let b2 := joinChatRoomBegin env roomKey b1.2
  let r1 := resumeJoin env roomKey b1.1 b2.2
  let r2 := resumeJoin env roomKey b2.1 r1
  (b1.2, b2.2, r1, r2)

/-- The `sdk.corestore.get` calls among recorded calls. -/
def storeGets (es : List Event) : List Event :=
  es.filter Event.isStoreGet

/-- What the SDK's fetch answers: `resp.status`, `resp.headers`, and
`resp.body` (`none` when it is null). -/
structure FetchResponse where
  status : Nat
  headers : List (String × String)
  body : Option String

/-- The SDK's fetch, on the request it is given: its response, or the
message of its rejection. -/
abbrev FetchFn := Request → Except String FetchResponse

/-- The value of `text.replace(":", "")`: the text without its first colon. -/
def dropFirstColon (text : String) : String :=
  String.mk (text.data.erase ':')

/-- The value of `text.startsWith(start)`. -/
def startsWith (text start : String) : Bool :=
  start.data.isPrefixOf text.data

/-- Handle general hyper:// requests not related to chat routes: pass the
request to the SDK's fetch and answer with its response, or with 500 and
the message when it rejects.  `readBody` hands back its stream at once and
does not throw, so the `catch` around it (answer 400) is never entered;
the upload data reaches the fetch with the request. -/
def handleHyperRequest (fetchFn : FetchFn) (req : Request) (s : State) : Outcome Unit :=
  match fetchFn req with
  | .ok resp =>
    match resp.body with
    | some body =>
      (.ok (), s.emit [Event.callback
        { statusCode := resp.status, headers := resp.headers, data := .text body }])
    | none =>
      (.ok (), s.emit [Event.callback
        { statusCode := resp.status, headers := resp.headers, data := .text "" }])
  | .error m =>
    (.ok (), s.emit [Event.callback (textResponse 500 ("Error fetching data: " ++ m))])

/-- The condition of the `if` of `protocolHandler`, on the parts of the
parsed URL: whether the request goes to the chat router. -/
def routedToChat (req : Request) : Bool :=
  dropFirstColon req.protocol == "hyper"
    && (req.hostname == "chat" || startsWith req.pathname "/chat")

/-- The `try` block of `protocolHandler`. -/
def protocolHandlerBody (env : Env) (fetchFn : FetchFn) (req : Request) (s : State) :
    Outcome Unit :=
  if routedToChat req then handleChatRequest env req s
  else handleHyperRequest fetchFn req s

/-- The handler of the `hyper://` protocol: the `try` block, and the
`catch` that answers 500 with the message of the error. -/
def protocolHandler (env : Env) (fetchFn : FetchFn) (req : Request) (s : State) :
    Outcome Unit :=
  match (protocolHandlerBody env fetchFn req s).1 with
  | .ok _ => (.ok (), (protocolHandlerBody env fetchFn req s).2)
  | .error m =>
    (.ok (), (protocolHandlerBody env fetchFn req s).2.emit
      [Event.callback (textResponse 500 ("Error handling Hyper request: " ++ m))])

/-- The chat namespace: the scheme is `hyper`, and the hostname is `chat`
or the pathname begins with `/chat`. -/
def InChatNamespace (scheme : String) (req : Request) : Prop :=
  scheme = "hyper" ∧ (req.hostname = "chat" ∨ ∃ rest, req.pathname = "/chat" ++ rest)

/-- A request for a file of a hyper drive. -/
def driveRequest : Request :=
  { method := "GET", protocol := "hyper:", hostname := "blog.example", pathname := "/index.html",
    action := none, roomKey := none, uploadData := none }

/-- A fetch that answers every request with `200` and the text `ok`. -/
def demoFetch : FetchFn :=
  fun _ => .ok { status := 200, headers := [("Content-Type", "text/html")], body := some "ok" }

/-- Whether the room has a local feed: `localRoomFeeds` has an own property
`roomKey`, which then holds a feed. -/
def State.hasLocalFeed (s : State) (roomKey : RoomKey) : Bool :=
  (s.localRoomFeeds.get roomKey).isSome

/-- Whether the room has an entry in `remoteRoomFeeds`: an own property
`roomKey`, which then holds a mapping. -/
def State.hasRemoteEntry (s : State) (roomKey : RoomKey) : Bool :=
  (s.remoteRoomFeeds.get roomKey).isSome

/-- Every room that has an entry in `remoteRoomFeeds` still has one. -/
def RemoteGrows (s s' : State) : Prop :=
  ∀ k, s.hasRemoteEntry k = true → s'.hasRemoteEntry k = true

/-- Every room with a local feed is in `joinedRooms` and has an entry in
`remoteRoomFeeds`. -/
def LocalRoomsOk (s : State) : Prop :=
  ∀ k, s.hasLocalFeed k = true → k ∈ s.joinedRooms ∧ s.hasRemoteEntry k = true

/-- The writes to peer connections among recorded calls: connection and
data. -/
def peerWrites : List Event → List (ConnId × String)
  | [] => []
  | .peerWrite conn data :: rest => (conn, data) :: peerWrites rest
  | _ :: rest => peerWrites rest

/-- The writes to peer connections so far. -/
def State.written (s : State) : List (ConnId × String) :=
  peerWrites s.trace

/-- The data is the hello announcement of some feed for the room. -/
def IsHelloFrame (env : Env) (roomKey : RoomKey) (data : String) : Prop :=
  ∃ feedKey, data = env.stringify (helloMessage roomKey feedKey)

/-- The data is the message of a send to the room. -/
def IsSendFrame (env : Env) (roomKey : RoomKey) (data : String) : Prop :=
  ∃ sender message timestamp, data = env.stringify (peerMessage sender message timestamp roomKey)

/-- The data written to a peer comes from the join or the send of a chat
request: the request is a POST with a roomKey, and either its action is
`join` and the data is a hello for that room, or its action is `send` and
the data is the message of a send to that room. -/
def FromJoinOrSend (env : Env) (req : Request) (data : String) : Prop :=
  req.method = "POST" ∧ ∃ K, req.roomKey = some K
    ∧ ((req.action = some "join" ∧ IsHelloFrame env K data)
      ∨ (req.action = some "send" ∧ IsSendFrame env K data))

/-- A ChatMessage as the data model has it: `{sender, message, timestamp}`
with a string sender, a string message and an integer timestamp. -/
def IsChatMessage (e : JVal) : Prop :=
  ∃ sender message timestamp, e = chatMessage (.str sender) (.str message) (.num timestamp)

/-- What the code makes of an entry: an object `{sender, message,
timestamp}` whose timestamp is a number, or whose sender is a string and
whose timestamp is truthy. -/
def EntryShape (e : JVal) : Prop :=
  ∃ sender message timestamp, e = chatMessage sender message timestamp
    ∧ ((∃ n, timestamp = .num n) ∨ ((∃ id, sender = .str id) ∧ timestamp.truthy = true))

/-- Every feed of the store that carries an append listener holds entries
of the shape `EntryShape` only. -/
def LogsOk (s : State) : Prop :=
  ∀ (i : Nat) (f : Feed), s.feeds[i]? = some f → f.listeners ≠ [] → ∀ e ∈ f.entries, EntryShape e

/-- An environment whose `JSON.parse` gives, for every frame, a chat
message for room `ab` with a number as message and a text as timestamp. -/
def oddEnv : Env :=
  { demoEnv with
    parse := fun _ =>
      .ok (.obj [("message", .num 5), ("roomKey", .str "ab"), ("timestamp", .str "soon")]) }

/-- The state after room `ab` has been joined and a send with the body
`{"sender":"a","message":"hi"}` has been handled. -/
def sentHi : State :=
  step (.request demoEnv (sendRequest "ab" hiUpload)) joinedAb

/-- The state after room `ab` has been joined and a send with the body
`{"message":"hi"}` has been handled. -/
def sentNoSender : State :=
  step (.request demoEnv (sendRequest "ab" noSenderUpload)) joinedAb

/-- The state after room `ab` has been joined and a peer frame whose
message is the number 5 and whose timestamp is the text `soon` has been
handled. -/
def receivedOdd : State :=
  step (.data oddEnv 7 "peer" "frame") joinedAb

/-- The text of a hello message for room `ab` announcing the feed key
`constructor`. -/
def helloConstructor : String :=
  "\x7b\"type\":\"hello\",\"roomKey\":\"ab\",\"feedKey\":\"constructor\"\x7d"

/-- Upload data of one chunk of raw bytes: the JSON text of
`{"sender":"a","message":{"toString":null}}`, a body whose message does
not convert to a string. -/
def unprintableUpload : Option (List Chunk) :=
  some [{ bytes := some (bytesOf "\x7b\"sender\":\"a\",\"message\":\x7b\"toString\":null\x7d\x7d"),
          file := none, blobUUID := none }]

/-! ## Lemmas on objects used as maps -/

namespace JSObj

variable {α : Type}

theorem get_set_self (o : JSObj α) (k : String) (v : α) : (o.set k v).get k = some v := by
  induction o with
  | nil => simp [set, get]
  | cons e rest ih =>
    obtain ⟨k', v'⟩ := e
    by_cases h : k' = k
    · simp [set, get, h]
    · simp [set, get, h, ih]

theorem get_set_ne (o : JSObj α) {k k' : String} (v : α) (h : k' ≠ k) :
    (o.set k v).get k' = o.get k' := by
  induction o with
  | nil => simp [set, get, Ne.symm h]
  | cons e rest ih =>
    obtain ⟨k1, v1⟩ := e
    by_cases h1 : k1 = k
    · subst h1
      simp [set, get, Ne.symm h]
    · by_cases h2 : k1 = k'
      · subst h2
        simp [set, get, h1]
      · simp [set, get, h1, h2, ih]

theorem get_eq_none_iff (o : JSObj α) (k : String) :
    o.get k = none ↔ k ∉ o.map Prod.fst := by
  induction o with
  | nil => simp [get]
  | cons e rest ih =>
    obtain ⟨k', v'⟩ := e
    by_cases h : k' = k
    · simp [get, h]
    · simp [get, h, ih, Ne.symm h]

theorem set_of_get_none (o : JSObj α) (k : String) (v : α) (h : o.get k = none) :
    o.set k v = o ++ [(k, v)] := by
  induction o with
  | nil => simp [set]
  | cons e rest ih =>
    obtain ⟨k', v'⟩ := e
    by_cases h1 : k' = k
    · simp [get, h1] at h
    · simp only [get, h1, if_false] at h
      simp [set, h1, ih h]

theorem mem_of_get (o : JSObj α) (k : String) (v : α) (h : o.get k = some v) :
    (k, v) ∈ o := by
  induction o with
  | nil => simp [get] at h
  | cons e rest ih =>
    obtain ⟨k', v'⟩ := e
    by_cases h1 : k' = k
    · simp [get, h1] at h
      simp [h1, h]
    · simp only [get, h1, if_false] at h
      exact List.mem_cons_of_mem _ (ih h)

theorem read_of_get {o : JSObj α} {k : String} {v : α} (h : o.get k = some v) :
    o.read k = .own v := by
  simp [read, h]

theorem read_of_absent {o : JSObj α} {k : String} (h : o.get k = none)
    (hk : k ∉ objectPrototypeNames) : o.read k = .absent := by
  simp [read, h, hk]

theorem read_of_inherited {o : JSObj α} {k : String} (h : o.get k = none)
    (hk : k ∈ objectPrototypeNames) : o.read k = .inherited := by
  simp [read, h, hk]

theorem read_eq_own {o : JSObj α} {k : String} {v : α} (h : o.read k = .own v) :
    o.get k = some v := by
  unfold read at h
  split at h
  · rename_i w hw; cases h; exact hw
  · split at h <;> cases h

theorem read_eq_absent {o : JSObj α} {k : String} (h : o.read k = .absent) :
    o.get k = none ∧ k ∉ objectPrototypeNames := by
  unfold read at h
  split at h
  · cases h
  · rename_i hn
    split at h
    · cases h
    · rename_i hk; exact ⟨hn, hk⟩

theorem read_eq_inherited {o : JSObj α} {k : String} (h : o.read k = .inherited) :
    o.get k = none ∧ k ∈ objectPrototypeNames := by
  unfold read at h
  split at h
  · cases h
  · rename_i hn
    split at h
    · rename_i hk; exact ⟨hn, hk⟩
    · cases h

theorem has_of_get {o : JSObj α} {k : String} {v : α} (h : o.get k = some v) :
    o.has k = true := by
  simp [has, read_of_get h]

theorem has_of_inherited (o : JSObj α) {k : String} (hk : k ∈ objectPrototypeNames) :
    o.has k = true := by
  unfold has read
  cases o.get k <;> simp [hk]

theorem has_of_absent {o : JSObj α} {k : String} (h : o.get k = none)
    (hk : k ∉ objectPrototypeNames) : o.has k = false := by
  simp [has, read_of_absent h hk]

theorem has_eq_false {o : JSObj α} {k : String} (h : o.has k = false) :
    o.get k = none ∧ k ∉ objectPrototypeNames := by
  unfold has at h
  split at h
  · rename_i hr; exact read_eq_absent hr
  · cases h

theorem has_eq_true {o : JSObj α} {k : String} (h : o.has k = true) :
    (∃ v, o.get k = some v) ∨ (o.get k = none ∧ k ∈ objectPrototypeNames) := by
  cases hg : o.get k with
  | some v => exact Or.inl ⟨v, rfl⟩
  | none =>
    refine Or.inr ⟨rfl, ?_⟩
    by_contra hk
    rw [has_of_absent hg hk] at h
    cases h

end JSObj

/-! ## Lemmas on traces and peers -/

namespace State

@[simp] theorem emit_nil (s : State) : s.emit [] = s := by
  simp [emit]

@[simp] theorem emit_emit (s : State) (a b : List Event) :
    (s.emit a).emit b = s.emit (a ++ b) := by
  simp [emit, List.append_assoc]

@[simp] theorem registry_emit (s : State) (a : List Event) :
    (s.emit a).registry = s.registry := rfl

@[simp] theorem feeds_emit (s : State) (a : List Event) : (s.emit a).feeds = s.feeds := rfl

@[simp] theorem trace_emit (s : State) (a : List Event) :
    (s.emit a).trace = s.trace ++ a := rfl

@[simp] theorem peers_emit (s : State) (a : List Event) : (s.emit a).peers = s.peers := rfl

end State

theorem eventsSince_emit (s : State) (a : List Event) : eventsSince s (s.emit a) = a := by
  simp [eventsSince]

theorem writePeers_eq (env : Env) (data : String) (ps : List Peer) (s : State) :
    (writePeers env data ps s).2
      = s.emit ((writtenPeers env ps).map (fun p => Event.peerWrite p.connection data)) := by
  induction ps generalizing s with
  | nil => simp [writePeers, writtenPeers]
  | cons p rest ih =>
    unfold writePeers writtenPeers
    by_cases hd : env.destroyed p.connection = true
    · simp [hd, ih]
    · cases hw : env.writeError p.connection with
      | some m => simp [hd]
      | none => simp [hd, ih]

/-- A property of states that the steps of the hello branch keep is kept
by the hello branch. -/
theorem onHello_induct (P : State → Prop) (env : Env) (conn : ConnId) (rk fk : JVal) (s : State)
    (hensure : ∀ k t, P t → P (ensureRemoteRoom k t))
    (hstore : ∀ key t, P t → P (storeGetByKey key t).2)
    (hremote : ∀ k p f t, P t → P (registerRemoteFeed conn k p f t))
    (hbuiltin : ∀ n p f t, P t → P (registerBuiltinFeed conn n p f t))
    (hs : P s) : P (onHello env conn rk fk s).2 := by
  have h0 := hensure (env.key rk) s hs
  have hload : ∀ (register : FeedId → State → Outcome Unit) (t : State),
      (∀ f t2, P t2 → P (register f t2).2) → P t → P (loadRemoteFeed env fk register t).2 := by
    intro register t hreg ht
    unfold loadRemoteFeed
    split
    · exact ht
    · split
      · exact hstore _ _ ht
      · exact hreg _ _ (hstore _ _ ht)
  unfold onHello
  split
  · exact hs
  · split
    · exact h0
    · split
      · exact h0
      · unfold onHelloBuiltin
        split
        · exact h0
        · exact h0
        · refine hload _ _ ?_ h0
          intro f t2 ht2
          split
          · exact ht2
          · exact hbuiltin _ _ _ _ ht2
      · split
        · exact h0
        · exact hload _ _ (fun f t2 ht2 => hremote _ _ _ _ ht2) h0

/-- The hello branch for a room key and a feed key that convert to strings
and are no names inherited from `Object.prototype`. -/
theorem onHello_of_ordinary (env : Env) (conn : ConnId) (rk fk : JVal) (s : State)
    (hrk : rk.unprintable = false) (hfk : fk.unprintable = false)
    (hr : env.key rk ∉ objectPrototypeNames) (hf : env.key fk ∉ objectPrototypeNames) :
    onHello env conn rk fk s
      = match ((ensureRemoteRoom (env.key rk) s).remoteFeeds (env.key rk)).get (env.key fk) with
        | some _ => (.ok (), ensureRemoteRoom (env.key rk) s)
        | none =>
          match env.decodeKey fk with
          | .error m => (.error m, ensureRemoteRoom (env.key rk) s)
          | .ok key =>
            match env.readyError (storeGetByKey key (ensureRemoteRoom (env.key rk) s)).1 with
            | some m => (.error m, (storeGetByKey key (ensureRemoteRoom (env.key rk) s)).2)
            | none =>
              (.ok (), registerRemoteFeed conn (env.key rk) (env.key fk)
                (storeGetByKey key (ensureRemoteRoom (env.key rk) s)).1
                (storeGetByKey key (ensureRemoteRoom (env.key rk) s)).2) := by
  have hhas : (ensureRemoteRoom (env.key rk) s).remoteRoomFeeds.has (env.key rk) = true := by
    unfold ensureRemoteRoom
    split
    · assumption
    · exact JSObj.has_of_get (JSObj.get_set_self _ _ _)
  obtain ⟨o, ho⟩ : ∃ o, (ensureRemoteRoom (env.key rk) s).remoteRoomFeeds.get (env.key rk) = some o := by
    rcases JSObj.has_eq_true hhas with h | ⟨_, h⟩
    · exact h
    · exact absurd h hr
  unfold onHello loadRemoteFeed
  simp only [hrk, hfk, Bool.false_eq_true, if_false, JSObj.read_of_get ho, State.remoteFeeds, ho,
    Option.getD_some]
  cases hg : o.get (env.key fk) with
  | some f0 => simp [JSObj.has_of_get hg]
  | none => simp [JSObj.has_of_absent hg hf]

/-! ## Joined rooms have a local feed -/

@[simp] theorem rooms_emit (s : State) (a : List Event) : (s.emit a).rooms = s.rooms := rfl

@[simp] theorem rooms_tick (s : State) : s.tick.rooms = s.rooms := rfl

@[simp] theorem rooms_dateNow (env : Env) (s : State) : (dateNow env s).2.rooms = s.rooms := rfl

@[simp] theorem rooms_updateFeed (s : State) (fid : FeedId) (f : Feed → Feed) :
    (s.updateFeed fid f).rooms = s.rooms := rfl

@[simp] theorem rooms_writePeers (env : Env) (data : String) (ps : List Peer) (s : State) :
    (writePeers env data ps s).2.rooms = s.rooms := by
  rw [writePeers_eq]; rfl

@[simp] theorem rooms_sendMessageToPeers (env : Env) (data : String) (s : State) :
    (sendMessageToPeers env data s).2.rooms = s.rooms := by
  simp [sendMessageToPeers]

@[simp] theorem rooms_broadcastPeerCount (s : State) : (broadcastPeerCount s).rooms = s.rooms := rfl

@[simp] theorem rooms_appendListener (env : Env) (fid : FeedId) (r : RoomKey) (i : Nat)
    (s : State) : (appendListener env fid r i s).rooms = s.rooms := by
  unfold appendListener
  split <;> rfl

@[simp] theorem rooms_registerBuiltinFeed (c : ConnId) (n p : String) (f : FeedId) (s : State) :
    (registerBuiltinFeed c n p f s).rooms = s.rooms := rfl

@[simp] theorem rooms_resumeListener (env : Env) (i : Nat) (s : State) :
    (resumeListener env i s).rooms = s.rooms := by
  unfold resumeListener
  split
  · rw [rooms_appendListener]; rfl
  · rfl

@[simp] theorem rooms_emitAppend (fid : FeedId) (rs : List RoomKey) (s : State) :
    (emitAppend fid rs s).rooms = s.rooms := rfl

@[simp] theorem rooms_feedAppend (env : Env) (fid : FeedId) (v : JVal) (s : State) :
    (feedAppend env fid v s).2.rooms = s.rooms := by
  unfold feedAppend
  split <;> simp

@[simp] theorem rooms_appendMessageToLocalFeed (env : Env) (k : RoomKey) (a b c : JVal)
    (s : State) : (appendMessageToLocalFeed env k a b c s).2.rooms = s.rooms := by
  unfold appendMessageToLocalFeed
  split
  · rfl
  · split <;> simp [awaitAppend]
  · split <;> simp

@[simp] theorem rooms_storeGetByKey (key : FeedKey) (s : State) :
    (storeGetByKey key s).2.rooms = s.rooms := by
  unfold storeGetByKey
  split <;> rfl

@[simp] theorem rooms_ensureRemoteRoom (k : RoomKey) (s : State) :
    (ensureRemoteRoom k s).rooms = s.rooms := by
  unfold ensureRemoteRoom
  split <;> rfl

@[simp] theorem rooms_registerRemoteFeed (c : ConnId) (k : RoomKey) (fk : String) (f : FeedId)
    (s : State) : (registerRemoteFeed c k fk f s).rooms = s.rooms := rfl

@[simp] theorem rooms_onHello (env : Env) (conn : ConnId) (rk fk : JVal) (s : State) :
    (onHello env conn rk fk s).2.rooms = s.rooms := by
  unfold onHello onHelloBuiltin loadRemoteFeed
  repeat' split
  all_goals simp

@[simp] theorem rooms_onChatMessage (env : Env) (sid : String) (fields : List (String × JVal))
    (s : State) : (onChatMessage env sid fields s).2.rooms = s.rooms := by
  unfold onChatMessage
  simp only []
  repeat' split
  all_goals simp

@[simp] theorem rooms_onMessage (env : Env) (conn : ConnId) (sid : String) (msg : JVal)
    (s : State) : (onMessage env conn sid msg s).2.rooms = s.rooms := by
  unfold onMessage
  split
  · split
    · simp
    · split <;> simp
  · rfl

@[simp] theorem rooms_onData (env : Env) (conn : ConnId) (sid : String) (raw : String)
    (s : State) : (onData env conn sid raw s).2.rooms = s.rooms := by
  unfold onData
  split <;> simp

@[simp] theorem rooms_onConnection (conn : ConnId) (pk : Option Bytes) (s : State) :
    (onConnection conn pk s).rooms = s.rooms := rfl

@[simp] theorem rooms_onClose (conn : ConnId) (s : State) : (onClose conn s).rooms = s.rooms := rfl

@[simp] theorem rooms_onStreamClose (k : RoomKey) (st : StreamId) (s : State) :
    (onStreamClose k st s).rooms = s.rooms := rfl

@[simp] theorem rooms_onKeepAlive (st : StreamId) (s : State) :
    (onKeepAlive st s).rooms = s.rooms := rfl

@[simp] theorem rooms_receiveAction (env : Env) (k : RoomKey) (s : State) :
    (receiveAction env k s).2.rooms = s.rooms := by
  unfold receiveAction
  simp only []
  repeat' split
  all_goals rfl

@[simp] theorem rooms_sendAction (env : Env) (k : RoomKey) (u : Option (List Chunk)) (s : State) :
    (sendAction env k u s).2.rooms = s.rooms := by
  unfold sendAction
  simp only []
  repeat' split
  all_goals simp

@[simp] theorem rooms_generateChatRoom (env : Env) (s : State) :
    (generateChatRoom env s).2.rooms = s.rooms := rfl

@[simp] theorem rooms_storeGetFresh (env : Env) (s : State) :
    (storeGetFresh env s).2.rooms = s.rooms := rfl

theorem joinedHaveFeed_of_rooms {s s' : State} (h : s'.rooms = s.rooms)
    (hs : JoinedHaveFeed s) : JoinedHaveFeed s' := by
  simp only [State.rooms, Prod.mk.injEq] at h
  intro k hk
  rw [h.2] at hk
  rw [h.1]
  exact hs k hk

theorem joinedHaveFeed_registerLocalFeed (k : RoomKey) (f : FeedId) (s : State)
    (hs : JoinedHaveFeed s) : JoinedHaveFeed (registerLocalFeed k f s) := by
  intro k' hk'
  have hl : (registerLocalFeed k f s).localRoomFeeds = s.localRoomFeeds.set k f := by
    unfold registerLocalFeed
    simp only []
    split <;> rfl
  rw [hl]
  by_cases hkk : k' = k
  · subst hkk
    exact ⟨f, JSObj.get_set_self _ _ _⟩
  · rw [JSObj.get_set_ne _ _ hkk]
    apply hs
    unfold registerLocalFeed at hk'
    simp only [] at hk'
    split at hk'
    · exact hk'
    · simp [State.updateFeed] at hk'
      rcases hk' with h | h
      · exact h
      · exact absurd h hkk

/-- The two ways of `joinChatRoom`: `localRoomFeeds[roomKey]` is truthy and
the call returns at once, or it is not and the call goes on with a new
feed. -/
theorem joinChatRoom_cases (env : Env) (k : RoomKey) (s : State) :
    ((ensureRemoteRoom k s).localRoomFeeds.has k = true
      ∧ joinChatRoom env k s = (.ok (), ensureRemoteRoom k s))
    ∨ ((ensureRemoteRoom k s).localRoomFeeds.has k = false
      ∧ joinChatRoom env k s
        = joinChatRoomResume env k (storeGetFresh env (ensureRemoteRoom k s)).1
            (storeGetFresh env (ensureRemoteRoom k s)).2) := by
  unfold joinChatRoom joinChatRoomBegin
  cases h : (ensureRemoteRoom k s).localRoomFeeds.has k with
  | true => left; simp
  | false => right; simp

theorem joinedHaveFeed_joinChatRoom (env : Env) (k : RoomKey) (s : State)
    (hs : JoinedHaveFeed s) : JoinedHaveFeed (joinChatRoom env k s).2 := by
  rcases joinChatRoom_cases env k s with ⟨_, h⟩ | ⟨_, h⟩
  · rw [h]
    exact joinedHaveFeed_of_rooms (by simp) hs
  · rw [h]
    unfold joinChatRoomResume
    split
    · exact joinedHaveFeed_of_rooms (by rw [rooms_storeGetFresh, rooms_ensureRemoteRoom]) hs
    · unfold broadcastHello
      refine joinedHaveFeed_of_rooms (rooms_sendMessageToPeers _ _ _) ?_
      apply joinedHaveFeed_registerLocalFeed
      exact joinedHaveFeed_of_rooms (by rw [rooms_storeGetFresh, rooms_ensureRemoteRoom]) hs

theorem joinedHaveFeed_handleChatRequest (env : Env) (req : Request) (s : State)
    (hs : JoinedHaveFeed s) : JoinedHaveFeed (handleChatRequest env req s).2 := by
  have hb : JoinedHaveFeed (handleChatBody env req s).2 := by
    unfold handleChatBody
    split
    · exact joinedHaveFeed_of_rooms (by simp) hs
    · split
      · split
        · exact hs
        · split
          · exact joinedHaveFeed_joinChatRoom env _ s hs
          · exact joinedHaveFeed_of_rooms (rooms_emit _ _) (joinedHaveFeed_joinChatRoom env _ s hs)
      · split
        · split
          · exact hs
          · exact joinedHaveFeed_of_rooms (by simp) hs
        · split
          · split
            · exact hs
            · exact joinedHaveFeed_of_rooms (by simp) hs
          · exact joinedHaveFeed_of_rooms (by simp) hs
  unfold handleChatRequest
  split
  · exact hb
  · exact joinedHaveFeed_of_rooms (rooms_emit _ _) hb

theorem joinedHaveFeed_step (a : Action) (s : State) (hs : JoinedHaveFeed s) :
    JoinedHaveFeed (step a s) := by
  cases a with
  | request env req => exact joinedHaveFeed_handleChatRequest env req s hs
  | connection conn pk => exact joinedHaveFeed_of_rooms (rooms_onConnection _ _ _) hs
  | data env conn sid raw => exact joinedHaveFeed_of_rooms (rooms_onData _ _ _ _ _) hs
  | close conn => exact joinedHaveFeed_of_rooms (rooms_onClose _ _) hs
  | streamClose k st => exact joinedHaveFeed_of_rooms (rooms_onStreamClose _ _ _) hs
  | keepAlive st => exact joinedHaveFeed_of_rooms (rooms_onKeepAlive _ _) hs
  | replicated f es =>
    unfold step
    simp only []
    split
    · exact joinedHaveFeed_of_rooms (rooms_updateFeed _ _ _) hs
    · exact hs
  | listener env i => exact joinedHaveFeed_of_rooms (rooms_resumeListener _ _ _) hs

theorem Reachable.joinedHaveFeed {s : State} (h : Reachable s) : JoinedHaveFeed s := by
  induction h with
  | init => intro k hk; simp [State.init] at hk
  | next a _ ih => exact joinedHaveFeed_step a _ ih

theorem localKeysOk_of_rooms {s s' : State} (h : s'.rooms = s.rooms)
    (hs : LocalKeysOk s) : LocalKeysOk s' := by
  simp only [State.rooms, Prod.mk.injEq] at h
  intro k f hk
  rw [h.1] at hk
  exact hs k f hk

theorem localRoomFeeds_registerLocalFeed (k : RoomKey) (f : FeedId) (s : State) :
    (registerLocalFeed k f s).localRoomFeeds = s.localRoomFeeds.set k f := by
  unfold registerLocalFeed
  simp only []
  split <;> rfl

theorem localKeysOk_registerLocalFeed (k : RoomKey) (f : FeedId) (s : State)
    (hk : k ∉ objectPrototypeNames) (hs : LocalKeysOk s) :
    LocalKeysOk (registerLocalFeed k f s) := by
  intro k' f' hk'
  rw [localRoomFeeds_registerLocalFeed] at hk'
  by_cases hkk : k' = k
  · subst hkk; exact hk
  · rw [JSObj.get_set_ne _ _ hkk] at hk'
    exact hs k' f' hk'

theorem localKeysOk_joinChatRoom (env : Env) (k : RoomKey) (s : State)
    (hs : LocalKeysOk s) : LocalKeysOk (joinChatRoom env k s).2 := by
  rcases joinChatRoom_cases env k s with ⟨_, h⟩ | ⟨hno, h⟩
  · rw [h]
    exact localKeysOk_of_rooms (by simp) hs
  · rw [h]
    unfold joinChatRoomResume
    split
    · exact localKeysOk_of_rooms (by rw [rooms_storeGetFresh, rooms_ensureRemoteRoom]) hs
    · unfold broadcastHello
      refine localKeysOk_of_rooms (rooms_sendMessageToPeers _ _ _) ?_
      apply localKeysOk_registerLocalFeed _ _ _ (JSObj.has_eq_false hno).2
      exact localKeysOk_of_rooms (by rw [rooms_storeGetFresh, rooms_ensureRemoteRoom]) hs

theorem localKeysOk_handleChatRequest (env : Env) (req : Request) (s : State)
    (hs : LocalKeysOk s) : LocalKeysOk (handleChatRequest env req s).2 := by
  have hb : LocalKeysOk (handleChatBody env req s).2 := by
    unfold handleChatBody
    split
    · exact localKeysOk_of_rooms (by simp) hs
    · split
      · split
        · exact hs
        · split
          · exact localKeysOk_joinChatRoom env _ s hs
          · exact localKeysOk_of_rooms (rooms_emit _ _) (localKeysOk_joinChatRoom env _ s hs)
      · split
        · split
          · exact hs
          · exact localKeysOk_of_rooms (by simp) hs
        · split
          · split
            · exact hs
            · exact localKeysOk_of_rooms (by simp) hs
          · exact localKeysOk_of_rooms (by simp) hs
  unfold handleChatRequest
  split
  · exact hb
  · exact localKeysOk_of_rooms (rooms_emit _ _) hb

theorem localKeysOk_step (a : Action) (s : State) (hs : LocalKeysOk s) :
    LocalKeysOk (step a s) := by
  cases a with
  | request env req => exact localKeysOk_handleChatRequest env req s hs
  | connection conn pk => exact localKeysOk_of_rooms (rooms_onConnection _ _ _) hs
  | data env conn sid raw => exact localKeysOk_of_rooms (rooms_onData _ _ _ _ _) hs
  | close conn => exact localKeysOk_of_rooms (rooms_onClose _ _) hs
  | streamClose k st => exact localKeysOk_of_rooms (rooms_onStreamClose _ _ _) hs
  | keepAlive st => exact localKeysOk_of_rooms (rooms_onKeepAlive _ _) hs
  | replicated f es =>
    unfold step
    simp only []
    split
    · exact localKeysOk_of_rooms (rooms_updateFeed _ _ _) hs
    · exact hs
  | listener env i => exact localKeysOk_of_rooms (rooms_resumeListener _ _ _) hs

theorem Reachable.localKeysOk {s : State} (h : Reachable s) : LocalKeysOk s := by
  induction h with
  | init => intro k f hk; simp [State.init, JSObj.get] at hk
  | next a _ ih => exact localKeysOk_step a _ ih

/-- In a reachable state the key of a room with a local feed is no name
inherited from `Object.prototype`. -/
theorem Reachable.localFeed_ordinary {s : State} (h : Reachable s) {k : RoomKey} {f : FeedId}
    (hf : s.localRoomFeeds.get k = some f) : k ∉ objectPrototypeNames :=
  h.localKeysOk k f hf

/-! ## Joining a room -/

theorem localRoomFeeds_ensureRemoteRoom (k : RoomKey) (s : State) :
    (ensureRemoteRoom k s).localRoomFeeds = s.localRoomFeeds := by
  unfold ensureRemoteRoom; split <;> rfl

theorem feeds_ensureRemoteRoom (k : RoomKey) (s : State) :
    (ensureRemoteRoom k s).feeds = s.feeds := by
  unfold ensureRemoteRoom; split <;> rfl

theorem joinedRooms_ensureRemoteRoom (k : RoomKey) (s : State) :
    (ensureRemoteRoom k s).joinedRooms = s.joinedRooms := by
  unfold ensureRemoteRoom; split <;> rfl

theorem trace_ensureRemoteRoom (k : RoomKey) (s : State) :
    (ensureRemoteRoom k s).trace = s.trace := by
  unfold ensureRemoteRoom; split <;> rfl

theorem peers_ensureRemoteRoom (k : RoomKey) (s : State) :
    (ensureRemoteRoom k s).peers = s.peers := by
  unfold ensureRemoteRoom; split <;> rfl

theorem remote_ensureRemoteRoom (k : RoomKey) (s : State) :
    (ensureRemoteRoom k s).remoteRoomFeeds.has k = true := by
  unfold ensureRemoteRoom
  split
  · assumption
  · exact JSObj.has_of_get (JSObj.get_set_self _ _ _)

theorem remote_ensureRemoteRoom_of_ordinary (k : RoomKey) (s : State)
    (hk : k ∉ objectPrototypeNames) :
    ∃ o, (ensureRemoteRoom k s).remoteRoomFeeds.get k = some o := by
  rcases JSObj.has_eq_true (remote_ensureRemoteRoom k s) with h | ⟨_, h⟩
  · exact h
  · exact absurd h hk

theorem ensureRemoteRoom_of_get {k : RoomKey} {s : State} {o : JSObj FeedId}
    (h : s.remoteRoomFeeds.get k = some o) : ensureRemoteRoom k s = s := by
  unfold ensureRemoteRoom; rw [if_pos (JSObj.has_of_get h)]

/-- A join of a room that has its remote mapping and a local feed returns
at once and changes nothing. -/
theorem joinChatRoom_of_joined (env : Env) (k : RoomKey) (s : State) {o : JSObj FeedId}
    {f : FeedId} (hr : s.remoteRoomFeeds.get k = some o) (hl : s.localRoomFeeds.get k = some f) :
    joinChatRoom env k s = (.ok (), s) := by
  unfold joinChatRoom joinChatRoomBegin
  rw [ensureRemoteRoom_of_get hr, if_pos (JSObj.has_of_get hl)]

/-- The state a first join leaves, when the new feed becomes ready. -/
theorem joinChatRoom_of_fresh (env : Env) (k : RoomKey) (s : State)
    (hl : s.localRoomFeeds.has k = false) (hready : env.readyError s.feeds.length = none) :
    (joinChatRoom env k s).2
      = (registerLocalFeed k s.feeds.length (storeGetFresh env (ensureRemoteRoom k s)).2).emit
          ((writtenPeers env s.peers).map (fun p => Event.peerWrite p.connection
            (env.stringify (helloMessage k (env.freshKey s.feeds.length))))) := by
  unfold joinChatRoom joinChatRoomBegin
  rw [localRoomFeeds_ensureRemoteRoom, hl]
  simp only [Bool.false_eq_true, if_false]
  unfold joinChatRoomResume
  have h1 : (storeGetFresh env (ensureRemoteRoom k s)).1 = s.feeds.length := by
    simp [storeGetFresh, feeds_ensureRemoteRoom]
  rw [h1, hready]
  simp only [broadcastHello, sendMessageToPeers, writePeers_eq]
  have hp : (registerLocalFeed k s.feeds.length (storeGetFresh env (ensureRemoteRoom k s)).2).peers
      = s.peers := by
    unfold registerLocalFeed
    simp only []
    split
    · simp [State.updateFeed, storeGetFresh, peers_ensureRemoteRoom]
    · simp [State.updateFeed, storeGetFresh, peers_ensureRemoteRoom]
  have hk : (registerLocalFeed k s.feeds.length (storeGetFresh env (ensureRemoteRoom k s)).2).feedKey
      s.feeds.length = env.freshKey s.feeds.length := by
    unfold registerLocalFeed
    simp only []
    split <;> simp [State.feedKey, State.updateFeed, storeGetFresh, feeds_ensureRemoteRoom]
  rw [hp, hk]

theorem registerLocalFeed_of_not_joined (k : RoomKey) (f : FeedId) (s : State)
    (hj : k ∉ s.joinedRooms) :
    registerLocalFeed k f s
      = { s with localRoomFeeds := s.localRoomFeeds.set k f,
                 feeds := s.feeds.modify (fun x => { x with listeners := x.listeners ++ [k] }) f,
                 joinedRooms := s.joinedRooms ++ [k],
                 trace := s.trace ++ [Event.swarmJoin k, Event.swarmFlush] } := by
  unfold registerLocalFeed
  simp only [State.updateFeed]
  rw [if_neg hj]

theorem countP_peerWrites (q : Event → Bool) (hq : ∀ c d, q (Event.peerWrite c d) = false)
    (ps : List Peer) (data : String) :
    ((ps.map (fun p => Event.peerWrite p.connection data)).countP q) = 0 := by
  induction ps with
  | nil => rfl
  | cons p rest ih => simp [List.countP_cons, ih, hq]

/-- For a reachable state in which `localRoomFeeds[K]` is not truthy, two
`joinChatRoom(K)` calls in sequence, the first one's feed becoming ready:
the first registers the new feed for `K` (one entry for `K`), the two calls
together get one feed from the store and call `swarm.join` for `K` once,
and the second call returns at once leaving the whole state, trace
included, as the first left it (so it opens nothing and writes to no
peer). -/
theorem joinChatRoom_twice (env1 env2 : Env) (K : RoomKey) (s : State)
    (hs : Reachable s) (hK : s.localRoomFeeds.has K = false)
    (hready : env1.readyError s.feeds.length = none) :
    (joinChatRoom env1 K s).2.localRoomFeeds.get K = some s.feeds.length
    ∧ ((joinChatRoom env1 K s).2.localRoomFeeds.map Prod.fst).count K = 1
    ∧ s.trace <+: (joinChatRoom env2 K (joinChatRoom env1 K s).2).2.trace
    ∧ (eventsSince s (joinChatRoom env2 K (joinChatRoom env1 K s).2).2).countP
        Event.isStoreGet = 1
    ∧ (eventsSince s (joinChatRoom env2 K (joinChatRoom env1 K s).2).2).countP
        (Event.isSwarmJoin K) = 1
    ∧ joinChatRoom env2 K (joinChatRoom env1 K s).2 = (.ok (), (joinChatRoom env1 K s).2) := by
  have hj : K ∉ s.joinedRooms := by
    intro hmem
    obtain ⟨f, hf⟩ := hs.joinedHaveFeed K hmem
    rw [(JSObj.has_eq_false hK).1] at hf
    cases hf
  have hj' : K ∉ (storeGetFresh env1 (ensureRemoteRoom K s)).2.joinedRooms := by
    simpa [storeGetFresh, joinedRooms_ensureRemoteRoom] using hj
  have e := joinChatRoom_of_fresh env1 K s hK hready
  rw [registerLocalFeed_of_not_joined _ _ _ hj'] at e
  obtain ⟨o, ho⟩ := remote_ensureRemoteRoom_of_ordinary K s (JSObj.has_eq_false hK).2
  have hl : (joinChatRoom env1 K s).2.localRoomFeeds = s.localRoomFeeds.set K s.feeds.length := by
    rw [e]; simp [State.emit, storeGetFresh, localRoomFeeds_ensureRemoteRoom]
  have hr : (joinChatRoom env1 K s).2.remoteRoomFeeds.get K = some o := by
    rw [e]; simpa [State.emit, storeGetFresh] using ho
  have ht : (joinChatRoom env1 K s).2.trace
      = s.trace ++ ([Event.storeGet none s.feeds.length, Event.swarmJoin K, Event.swarmFlush]
          ++ (writtenPeers env1 s.peers).map (fun p => Event.peerWrite p.connection
            (env1.stringify (helloMessage K (env1.freshKey s.feeds.length))))) := by
    rw [e]; simp [State.emit, storeGetFresh, trace_ensureRemoteRoom, feeds_ensureRemoteRoom]
  have h2 : joinChatRoom env2 K (joinChatRoom env1 K s).2 = (.ok (), (joinChatRoom env1 K s).2) :=
    joinChatRoom_of_joined env2 K _ hr (by rw [hl]; exact JSObj.get_set_self _ _ _)
  refine ⟨by rw [hl]; exact JSObj.get_set_self _ _ _, ?_, ?_, ?_, ?_, h2⟩
  · rw [hl, JSObj.set_of_get_none _ _ _ (JSObj.has_eq_false hK).1]
    have hn : K ∉ s.localRoomFeeds.map Prod.fst :=
      (JSObj.get_eq_none_iff _ _).1 (JSObj.has_eq_false hK).1
    simp [List.count_eq_zero_of_not_mem hn]
  · rw [h2, ht]; exact List.prefix_append _ _
  · rw [h2]
    simp only [eventsSince, ht, List.drop_left, List.countP_append]
    rw [countP_peerWrites _ (fun _ _ => rfl)]
    rfl
  · rw [h2]
    simp only [eventsSince, ht, List.drop_left, List.countP_append]
    rw [countP_peerWrites _ (fun _ _ => rfl)]
    simp [List.countP_cons, Event.isSwarmJoin]

/-! ## Local feeds carry the listener of their room -/

theorem ListenersGrow.refl (s : State) : ListenersGrow s s := ⟨0, by simp⟩

theorem ListenersGrow.of_eq {s s' : State} (h : s'.listenerLists = s.listenerLists) :
    ListenersGrow s s' := ⟨0, by simp [h]⟩

theorem ListenersGrow.trans {a b c : State} (h1 : ListenersGrow a b) (h2 : ListenersGrow b c) :
    ListenersGrow a c := by
  obtain ⟨n, hn⟩ := h1
  obtain ⟨m, hm⟩ := h2
  refine ⟨n + m, ?_⟩
  rw [hm, hn, List.append_assoc, List.append_replicate_replicate]

@[simp] theorem listenerLists_emit (s : State) (a : List Event) :
    (s.emit a).listenerLists = s.listenerLists := rfl

@[simp] theorem listenerLists_tick (s : State) : s.tick.listenerLists = s.listenerLists := rfl

@[simp] theorem listenerLists_dateNow (env : Env) (s : State) :
    (dateNow env s).2.listenerLists = s.listenerLists := rfl

theorem listenerLists_updateFeed (s : State) (fid : FeedId) (g : Feed → Feed)
    (hg : ∀ f, (g f).listeners = f.listeners) :
    (s.updateFeed fid g).listenerLists = s.listenerLists := by
  simp only [State.listenerLists, State.updateFeed]
  apply List.ext_getElem?
  intro i
  simp only [List.getElem?_map, List.getElem?_modify]
  by_cases h : fid = i
  · subst h
    cases s.feeds[fid]? <;> simp [hg]
  · simp [h]

@[simp] theorem listenerLists_updateEntries (s : State) (fid : FeedId) (g : List JVal → List JVal) :
    (s.updateFeed fid (fun f => { f with entries := g f.entries })).listenerLists
      = s.listenerLists :=
  listenerLists_updateFeed s fid _ (fun _ => rfl)

@[simp] theorem listenerLists_writePeers (env : Env) (data : String) (ps : List Peer) (s : State) :
    (writePeers env data ps s).2.listenerLists = s.listenerLists := by
  rw [writePeers_eq]; rfl

@[simp] theorem listenerLists_sendMessageToPeers (env : Env) (data : String) (s : State) :
    (sendMessageToPeers env data s).2.listenerLists = s.listenerLists := by
  simp [sendMessageToPeers]

@[simp] theorem listenerLists_broadcastPeerCount (s : State) :
    (broadcastPeerCount s).listenerLists = s.listenerLists := rfl

@[simp] theorem listenerLists_appendListener (env : Env) (fid : FeedId) (r : RoomKey) (i : Nat)
    (s : State) : (appendListener env fid r i s).listenerLists = s.listenerLists := by
  unfold appendListener
  split <;> rfl

@[simp] theorem listenerLists_registerBuiltinFeed (c : ConnId) (n p : String) (f : FeedId) (s : State) :
    (registerBuiltinFeed c n p f s).listenerLists = s.listenerLists := rfl

@[simp] theorem listenerLists_resumeListener (env : Env) (i : Nat) (s : State) :
    (resumeListener env i s).listenerLists = s.listenerLists := by
  unfold resumeListener
  split
  · rw [listenerLists_appendListener]; rfl
  · rfl

@[simp] theorem listenerLists_emitAppend (fid : FeedId) (rs : List RoomKey) (s : State) :
    (emitAppend fid rs s).listenerLists = s.listenerLists := rfl

@[simp] theorem listenerLists_feedAppend (env : Env) (fid : FeedId) (v : JVal) (s : State) :
    (feedAppend env fid v s).2.listenerLists = s.listenerLists := by
  unfold feedAppend
  split
  · rfl
  · simp only [listenerLists_emitAppend]
    exact listenerLists_updateFeed s fid _ (fun _ => rfl)

@[simp] theorem listenerLists_appendMessageToLocalFeed (env : Env) (k : RoomKey) (a b c : JVal)
    (s : State) : (appendMessageToLocalFeed env k a b c s).2.listenerLists = s.listenerLists := by
  unfold appendMessageToLocalFeed
  split
  · rfl
  · split <;> simp [awaitAppend]
  · split <;> simp

theorem listenersGrow_storeGetByKey (key : FeedKey) (s : State) :
    ListenersGrow s (storeGetByKey key s).2 := by
  unfold storeGetByKey
  split
  · exact ListenersGrow.refl _
  · exact ⟨1, by simp [State.listenerLists]⟩

@[simp] theorem listenerLists_ensureRemoteRoom (k : RoomKey) (s : State) :
    (ensureRemoteRoom k s).listenerLists = s.listenerLists := by
  unfold ensureRemoteRoom
  split <;> rfl

@[simp] theorem listenerLists_registerRemoteFeed (c : ConnId) (k : RoomKey) (fk : String)
    (f : FeedId) (s : State) :
    (registerRemoteFeed c k fk f s).listenerLists = s.listenerLists := rfl

theorem listenersGrow_loadRemoteFeed (env : Env) (fk : JVal)
    (register : FeedId → State → Outcome Unit) (s : State)
    (h : ∀ f s2, ListenersGrow s2 (register f s2).2) :
    ListenersGrow s (loadRemoteFeed env fk register s).2 := by
  unfold loadRemoteFeed
  split
  · exact ListenersGrow.refl _
  · split
    · exact listenersGrow_storeGetByKey _ _
    · exact (listenersGrow_storeGetByKey _ _).trans (h _ _)

theorem listenersGrow_onHello (env : Env) (conn : ConnId) (rk fk : JVal) (s : State) :
    ListenersGrow s (onHello env conn rk fk s).2 := by
  have h0 : ListenersGrow s (ensureRemoteRoom (env.key rk) s) := ListenersGrow.of_eq (by simp)
  unfold onHello
  split
  · exact ListenersGrow.refl _
  · split
    · exact h0
    · split
      · exact h0
      · unfold onHelloBuiltin
        split
        · exact h0
        · exact h0
        · refine h0.trans (listenersGrow_loadRemoteFeed _ _ _ _ ?_)
          intro f s2
          split
          · exact ListenersGrow.refl _
          · exact ListenersGrow.of_eq (listenerLists_registerBuiltinFeed _ _ _ _ _)
      · split
        · exact h0
        · refine h0.trans (listenersGrow_loadRemoteFeed _ _ _ _ ?_)
          intro f s2
          exact ListenersGrow.of_eq (listenerLists_registerRemoteFeed _ _ _ _ _)

@[simp] theorem listenerLists_onChatMessage (env : Env) (sid : String)
    (fields : List (String × JVal)) (s : State) :
    (onChatMessage env sid fields s).2.listenerLists = s.listenerLists := by
  unfold onChatMessage
  simp only []
  repeat' split
  all_goals simp

theorem listenersGrow_onMessage (env : Env) (conn : ConnId) (sid : String) (msg : JVal)
    (s : State) : ListenersGrow s (onMessage env conn sid msg s).2 := by
  unfold onMessage
  split
  · split
    · exact listenersGrow_onHello _ _ _ _ _
    · split
      · exact ListenersGrow.of_eq (by simp)
      · exact ListenersGrow.refl _
  · exact ListenersGrow.refl _

theorem listenersGrow_onData (env : Env) (conn : ConnId) (sid : String) (raw : String)
    (s : State) : ListenersGrow s (onData env conn sid raw s).2 := by
  unfold onData
  split
  · exact listenersGrow_onMessage _ _ _ _ _
  · exact (ListenersGrow.of_eq (listenerLists_dateNow env s)).trans
      (listenersGrow_onMessage _ _ _ _ _)

@[simp] theorem listenerLists_receiveAction (env : Env) (k : RoomKey) (s : State) :
    (receiveAction env k s).2.listenerLists = s.listenerLists := by
  unfold receiveAction
  simp only []
  repeat' split
  all_goals rfl

@[simp] theorem listenerLists_sendAction (env : Env) (k : RoomKey) (u : Option (List Chunk))
    (s : State) : (sendAction env k u s).2.listenerLists = s.listenerLists := by
  unfold sendAction
  simp only []
  repeat' split
  all_goals simp

@[simp] theorem listenerLists_generateChatRoom (env : Env) (s : State) :
    (generateChatRoom env s).2.listenerLists = s.listenerLists := rfl

theorem localFeedsOk_of_frame {s s' : State} (hr : s'.rooms = s.rooms)
    (hg : ListenersGrow s s') (hs : LocalFeedsOk s) : LocalFeedsOk s' := by
  simp only [State.rooms, Prod.mk.injEq] at hr
  obtain ⟨n, hn⟩ := hg
  intro k f hf
  rw [hr.1] at hf
  have := hs k f hf
  rw [hn]
  have hlt : f < s.listenerLists.length := by
    by_contra hc
    rw [List.getElem?_eq_none (Nat.le_of_not_lt hc)] at this
    cases this
  rw [List.getElem?_append_left hlt]
  exact this

theorem listenerLists_registerLocalFeed (k : RoomKey) (f : FeedId) (s : State) :
    (registerLocalFeed k f s).listenerLists = s.listenerLists.modify (fun l => l ++ [k]) f := by
  have h : (registerLocalFeed k f s).feeds
      = s.feeds.modify (fun x => { x with listeners := x.listeners ++ [k] }) f := by
    unfold registerLocalFeed
    simp only []
    split <;> rfl
  simp only [State.listenerLists, h]
  apply List.ext_getElem?
  intro i
  simp only [List.getElem?_map, List.getElem?_modify]
  by_cases hi : f = i
  · subst hi
    cases s.feeds[f]? <;> simp
  · simp [hi]

theorem listenerLists_storeGetFresh (env : Env) (s : State) :
    (storeGetFresh env s).2.listenerLists = s.listenerLists ++ [[]] := by
  simp [storeGetFresh, State.listenerLists]

theorem localFeedsOk_register (env : Env) (k : RoomKey) (s : State) (hs : LocalFeedsOk s) :
    LocalFeedsOk (registerLocalFeed k s.feeds.length (storeGetFresh env s).2) := by
  intro k' f' h
  rw [localRoomFeeds_registerLocalFeed] at h
  rw [listenerLists_registerLocalFeed, listenerLists_storeGetFresh]
  have hlen : s.listenerLists.length = s.feeds.length := by simp [State.listenerLists]
  by_cases hk : k' = k
  · subst hk
    rw [JSObj.get_set_self] at h
    cases h
    rw [List.getElem?_modify_eq, ← hlen]
    simp
  · rw [JSObj.get_set_ne _ _ hk] at h
    have h1 : (storeGetFresh env s).2.localRoomFeeds = s.localRoomFeeds := rfl
    rw [h1] at h
    have h2 := hs k' f' h
    have hlt : f' < s.listenerLists.length := by
      by_contra hc
      rw [List.getElem?_eq_none (Nat.le_of_not_lt hc)] at h2
      cases h2
    have hne : s.feeds.length ≠ f' := by rw [← hlen]; exact Nat.ne_of_gt hlt
    rw [List.getElem?_modify_ne _ _ hne, List.getElem?_append_left hlt]
    exact h2

theorem localFeedsOk_joinChatRoom (env : Env) (k : RoomKey) (s : State)
    (hs : LocalFeedsOk s) : LocalFeedsOk (joinChatRoom env k s).2 := by
  have h0 : LocalFeedsOk (ensureRemoteRoom k s) :=
    localFeedsOk_of_frame (by simp) (ListenersGrow.of_eq (by simp)) hs
  have hf : (ensureRemoteRoom k s).feeds.length = s.feeds.length := by
    rw [← List.length_map (ensureRemoteRoom k s).feeds (fun f => f.listeners),
      ← List.length_map s.feeds (fun f => f.listeners)]
    exact congrArg List.length (listenerLists_ensureRemoteRoom k s)
  rcases joinChatRoom_cases env k s with ⟨_, h⟩ | ⟨hno, h⟩
  · rw [h]
    exact h0
  · rw [h]
    unfold joinChatRoomResume
    split
    · exact localFeedsOk_of_frame (by simp)
        ⟨1, by rw [listenerLists_storeGetFresh]; rfl⟩ h0
    · unfold broadcastHello
      refine localFeedsOk_of_frame (rooms_sendMessageToPeers _ _ _)
        (ListenersGrow.of_eq (listenerLists_sendMessageToPeers _ _ _)) ?_
      exact localFeedsOk_register env k _ h0

theorem localFeedsOk_handleChatRequest (env : Env) (req : Request) (s : State)
    (hs : LocalFeedsOk s) : LocalFeedsOk (handleChatRequest env req s).2 := by
  have hb : LocalFeedsOk (handleChatBody env req s).2 := by
    unfold handleChatBody
    split
    · exact localFeedsOk_of_frame (by simp) (ListenersGrow.of_eq (by simp)) hs
    · split
      · split
        · exact hs
        · split
          · exact localFeedsOk_joinChatRoom env _ s hs
          · exact localFeedsOk_of_frame (rooms_emit _ _) (ListenersGrow.of_eq (by simp))
              (localFeedsOk_joinChatRoom env _ s hs)
      · split
        · split
          · exact hs
          · exact localFeedsOk_of_frame (by simp) (ListenersGrow.of_eq (by simp)) hs
        · split
          · split
            · exact hs
            · exact localFeedsOk_of_frame (by simp) (ListenersGrow.of_eq (by simp)) hs
          · exact localFeedsOk_of_frame (by simp) (ListenersGrow.of_eq (by simp)) hs
  unfold handleChatRequest
  split
  · exact hb
  · exact localFeedsOk_of_frame (rooms_emit _ _) (ListenersGrow.of_eq (by simp)) hb

theorem localFeedsOk_step (a : Action) (s : State) (hs : LocalFeedsOk s) :
    LocalFeedsOk (step a s) := by
  cases a with
  | request env req => exact localFeedsOk_handleChatRequest env req s hs
  | connection conn pk =>
    exact localFeedsOk_of_frame (rooms_onConnection _ _ _) (ListenersGrow.of_eq rfl) hs
  | data env conn sid raw =>
    exact localFeedsOk_of_frame (rooms_onData _ _ _ _ _) (listenersGrow_onData _ _ _ _ _) hs
  | close conn => exact localFeedsOk_of_frame (rooms_onClose _ _) (ListenersGrow.of_eq rfl) hs
  | streamClose k st =>
    exact localFeedsOk_of_frame (rooms_onStreamClose _ _ _) (ListenersGrow.of_eq rfl) hs
  | keepAlive st =>
    exact localFeedsOk_of_frame (rooms_onKeepAlive _ _) (ListenersGrow.of_eq rfl) hs
  | replicated f es =>
    unfold step
    simp only []
    split
    · exact localFeedsOk_of_frame (rooms_updateFeed _ _ _)
        (ListenersGrow.of_eq (listenerLists_updateFeed _ _ _ (fun _ => rfl))) hs
    · exact hs
  | listener env i =>
    exact localFeedsOk_of_frame (rooms_resumeListener _ _ _)
      (ListenersGrow.of_eq (listenerLists_resumeListener _ _ _)) hs

theorem Reachable.localFeedsOk {s : State} (h : Reachable s) : LocalFeedsOk s := by
  induction h with
  | init => intro k f hk; simp [State.init, JSObj.get] at hk
  | next a _ ih => exact localFeedsOk_step a _ ih

/-- In a reachable state a local feed is a feed of the store. -/
theorem Reachable.localFeed_lt {s : State} (h : Reachable s) {k : RoomKey} {f : FeedId}
    (hf : s.localRoomFeeds.get k = some f) : f < s.feeds.length := by
  have h1 := h.localFeedsOk k f hf
  by_contra hc
  rw [List.getElem?_eq_none (by simpa [State.listenerLists] using Nat.le_of_not_lt hc)] at h1
  cases h1

/-- In a reachable state a local feed carries the listener of its room only. -/
theorem Reachable.localFeed_listeners {s : State} (h : Reachable s) {k : RoomKey} {f : FeedId}
    (hf : s.localRoomFeeds.get k = some f) : s.feedListeners f = [k] := by
  have h1 := h.localFeedsOk k f hf
  simp only [State.listenerLists, List.getElem?_map] at h1
  unfold State.feedListeners
  cases hx : s.feeds[f]? with
  | none => simp [hx] at h1
  | some x => simpa [hx] using h1

/-! ## Appending to a local feed -/

@[simp] theorem feeds_appendListener (env : Env) (fid : FeedId) (r : RoomKey) (i : Nat)
    (s : State) : (appendListener env fid r i s).feeds = s.feeds := by
  unfold appendListener
  split <;> rfl

@[simp] theorem feeds_registerBuiltinFeed (c : ConnId) (n p : String) (f : FeedId) (s : State) :
    (registerBuiltinFeed c n p f s).feeds = s.feeds := rfl

@[simp] theorem feeds_resumeListener (env : Env) (i : Nat) (s : State) :
    (resumeListener env i s).feeds = s.feeds := by
  unfold resumeListener
  split
  · rw [feeds_appendListener]
  · rfl

@[simp] theorem feeds_emitAppend (fid : FeedId) (rs : List RoomKey) (s : State) :
    (emitAppend fid rs s).feeds = s.feeds := rfl

theorem feedEntries_updateFeed_self (s : State) (f : FeedId) (g : List JVal → List JVal)
    (hf : f < s.feeds.length) :
    (s.updateFeed f (fun x => { x with entries := g x.entries })).feedEntries f
      = g (s.feedEntries f) := by
  simp only [State.feedEntries, State.updateFeed, List.getElem?_modify_eq]
  rw [List.getElem?_eq_getElem hf]
  rfl

theorem feedEntries_updateFeed_ne (s : State) {f f' : FeedId} (g : Feed → Feed) (h : f ≠ f') :
    (s.updateFeed f g).feedEntries f' = s.feedEntries f' := by
  simp only [State.feedEntries, State.updateFeed, List.getElem?_modify_ne _ _ h]

theorem feedEntries_congr {s s' : State} (h : s'.feeds = s.feeds) (f : FeedId) :
    s'.feedEntries f = s.feedEntries f := by
  simp only [State.feedEntries, h]

/-- A feed append that the store accepts puts the entry at the end of the
feed and returns the index it got: the length before. -/
theorem feedAppend_ok (env : Env) (f : FeedId) (v : JVal) (s : State)
    (hstore : env.appendError f = none) (hf : f < s.feeds.length) :
    (feedAppend env f v s).1 = .ok (s.feedLength f)
    ∧ (feedAppend env f v s).2.feedEntries f = s.feedEntries f ++ [v] := by
  unfold feedAppend
  rw [hstore]
  refine ⟨rfl, ?_⟩
  simp only []
  rw [feedEntries_congr (feeds_emitAppend _ _ _)]
  exact feedEntries_updateFeed_self s f (fun es => es ++ [v]) hf

theorem feedAppend_other (env : Env) {f f' : FeedId} (v : JVal) (s : State) (h : f ≠ f') :
    (feedAppend env f v s).2.feedEntries f' = s.feedEntries f' := by
  unfold feedAppend
  split
  · rfl
  · simp only []
    rw [feedEntries_congr (feeds_emitAppend _ _ _)]
    exact feedEntries_updateFeed_ne s _ h

theorem feedAppend_error (env : Env) (f : FeedId) (v : JVal) (s : State) (m : String)
    (h : (feedAppend env f v s).1 = .error m) : (feedAppend env f v s).2 = s := by
  unfold feedAppend at h ⊢
  split
  · rfl
  · rename_i h1
    rw [h1] at h
    cases h

/-- When `appendMessageToLocalFeed` throws, for whatever reason, the feeds
are as they were. -/
theorem appendMessageToLocalFeed_error_feeds (env : Env) (K : RoomKey)
    (sender message timestamp : JVal) (s : State) (m : String)
    (h : (appendMessageToLocalFeed env K sender message timestamp s).1 = .error m) :
    (appendMessageToLocalFeed env K sender message timestamp s).2.feeds = s.feeds := by
  unfold appendMessageToLocalFeed at h ⊢
  split
  · rfl
  · rename_i f hf
    rw [hf] at h
    simp only [awaitAppend] at h ⊢
    split
    · rename_i ht
      rw [if_pos ht] at h
      cases hx : (feedAppend env f (chatMessage sender message timestamp) s).1 with
      | error m' => rw [feedAppend_error _ _ _ _ _ hx]
      | ok i => rw [hx] at h; cases h
    · rename_i ht
      rw [if_neg ht] at h
      cases hx : (feedAppend env f (chatMessage sender message (.num (dateNow env s).1))
          (dateNow env s).2).1 with
      | error m' => rw [feedAppend_error _ _ _ _ _ hx]; rfl
      | ok i => rw [hx] at h; cases h
  · split <;> rfl

/-- What `appendMessageToLocalFeed(K, m)` does when it throws, the store
accepting appends to K's feed: it throws if and only if `localRoomFeeds`
has no own property `K`; when `localRoomFeeds[K]` is `undefined`, the error
message names the room and the state is untouched; when it is a value of
`Object.prototype`, the message is that of a call of what is not a
function; whenever it throws, every feed of the store is as it was. -/
theorem appendMessageToLocalFeed_fails_iff (env : Env) (K : RoomKey)
    (sender message timestamp : JVal) (s : State)
    (hstore : ∀ f, s.localRoomFeeds.get K = some f → env.appendError f = none) :
    ((∃ m, (appendMessageToLocalFeed env K sender message timestamp s).1 = .error m)
      ↔ s.localRoomFeeds.get K = none)
    ∧ (s.localRoomFeeds.read K = .absent →
        appendMessageToLocalFeed env K sender message timestamp s
          = (.error ("Local feed not initialized for room " ++ K), s))
    ∧ (s.localRoomFeeds.read K = .inherited →
        (appendMessageToLocalFeed env K sender message timestamp s).1
          = .error "feed.append is not a function")
    ∧ (∀ m, (appendMessageToLocalFeed env K sender message timestamp s).1 = .error m →
        (appendMessageToLocalFeed env K sender message timestamp s).2.feeds = s.feeds) := by
  have hnone : s.localRoomFeeds.read K = .absent →
      appendMessageToLocalFeed env K sender message timestamp s
        = (.error ("Local feed not initialized for room " ++ K), s) := by
    intro h
    unfold appendMessageToLocalFeed
    rw [h]
  have hinh : s.localRoomFeeds.read K = .inherited →
      (appendMessageToLocalFeed env K sender message timestamp s).1
        = .error "feed.append is not a function" := by
    intro h
    unfold appendMessageToLocalFeed
    rw [h]
    simp only []
    split <;> rfl
  refine ⟨⟨?_, ?_⟩, hnone, hinh,
    fun m hm => appendMessageToLocalFeed_error_feeds _ _ _ _ _ _ m hm⟩
  · rintro ⟨m, hm⟩
    cases hl : s.localRoomFeeds.get K with
    | none => rfl
    | some f =>
      exfalso
      unfold appendMessageToLocalFeed at hm
      rw [JSObj.read_of_get hl] at hm
      simp only [awaitAppend, feedAppend, hstore f hl] at hm
      split at hm <;> cases hm
  · intro h
    by_cases hk : K ∈ objectPrototypeNames
    · exact ⟨_, hinh (JSObj.read_of_inherited h hk)⟩
    · exact ⟨_, congrArg Prod.fst (hnone (JSObj.read_of_absent h hk))⟩

/-! ## What an append returns -/

/-- What `appendMessageToLocalFeed` does on a room with a local feed, the
store accepting the append: the entry goes to the end of the feed, and the
value of the call is `undefined`. -/
theorem appendMessageToLocalFeed_ok (env : Env) (K : RoomKey)
    (sender message timestamp : JVal) (s : State) (f : FeedId)
    (hf : s.localRoomFeeds.get K = some f) (hlt : f < s.feeds.length)
    (hstore : env.appendError f = none) :
    (appendMessageToLocalFeed env K sender message timestamp s).1 = .ok .undefined
    ∧ (appendMessageToLocalFeed env K sender message timestamp s).2.feedEntries f
        = s.feedEntries f ++ [chatMessage sender message (storedTimestamp env timestamp s)] := by
  unfold appendMessageToLocalFeed storedTimestamp
  rw [JSObj.read_of_get hf]
  simp only [awaitAppend]
  split
  · obtain ⟨h1, h2⟩ := feedAppend_ok env f (chatMessage sender message timestamp) s hstore hlt
    rw [h1, h2]
    exact ⟨rfl, rfl⟩
  · obtain ⟨h1, h2⟩ := feedAppend_ok env f
      (chatMessage sender message (.num (dateNow env s).1)) (dateNow env s).2 hstore hlt
    rw [h1, h2]
    exact ⟨rfl, rfl⟩

/-- C3, as the code has it. On a reachable state in which `K` has a local
feed, the store accepting the append: `appendMessageToLocalFeed` stores
the new entry at the index equal to the feed's length before the call,
the feed grows by that one entry, and the value of the call is
`undefined`, not the index. -/
theorem appendMessageToLocalFeed_stores_at_length (env : Env) (K : RoomKey)
    (sender message timestamp : JVal) (s : State) (f : FeedId) (hs : Reachable s)
    (hf : s.localRoomFeeds.get K = some f) (hstore : env.appendError f = none) :
    (appendMessageToLocalFeed env K sender message timestamp s).1 = .ok .undefined
    ∧ ((appendMessageToLocalFeed env K sender message timestamp s).2.feedEntries f)[s.feedLength f]?
        = some (chatMessage sender message (storedTimestamp env timestamp s))
    ∧ (appendMessageToLocalFeed env K sender message timestamp s).2.feedLength f
        = s.feedLength f + 1
    ∧ ((appendMessageToLocalFeed env K sender message timestamp s).2.feedEntries f).take
        (s.feedLength f) = s.feedEntries f := by
  obtain ⟨h1, h2⟩ := appendMessageToLocalFeed_ok env K sender message timestamp s f hf
    (hs.localFeed_lt hf) hstore
  refine ⟨h1, ?_, ?_, ?_⟩
  · rw [h2]; simp [State.feedLength]
  · simp [State.feedLength, h2]
  · rw [h2]; simp [State.feedLength]

theorem appendMessageToLocalFeed_stores_at_length_witness :
    Reachable joinedAb ∧ joinedAb.localRoomFeeds.get "ab" = some 0
    ∧ demoEnv.appendError 0 = none
    ∧ (appendMessageToLocalFeed demoEnv "ab" (.str "a") (.str "hi") (.num 5) joinedAb).1
        = .ok .undefined
    ∧ ((appendMessageToLocalFeed demoEnv "ab" (.str "a") (.str "hi") (.num 5)
          joinedAb).2.feedEntries 0)[joinedAb.feedLength 0]?
        = some (chatMessage (.str "a") (.str "hi") (storedTimestamp demoEnv (.num 5) joinedAb)) :=
  ⟨Reachable.next _ Reachable.init, rfl, rfl,
    (appendMessageToLocalFeed_stores_at_length demoEnv "ab" (.str "a") (.str "hi") (.num 5)
      joinedAb 0 (Reachable.next _ Reachable.init) rfl rfl).1,
    (appendMessageToLocalFeed_stores_at_length demoEnv "ab" (.str "a") (.str "hi") (.num 5)
      joinedAb 0 (Reachable.next _ Reachable.init) rfl rfl).2.1⟩

/-- C3, as stated, fails: on the empty local feed of a joined room the
entry is stored at index 0, and the call returns `undefined`, not 0. -/
theorem appendMessageToLocalFeed_returns_no_index :
    joinedAb.localRoomFeeds.get "ab" = some 0 ∧ joinedAb.feedLength 0 = 0
    ∧ (appendMessageToLocalFeed demoEnv "ab" (.str "a") (.str "hi") (.num 5) joinedAb).1
        = .ok .undefined
    ∧ (appendMessageToLocalFeed demoEnv "ab" (.str "a") (.str "hi") (.num 5) joinedAb).1
        ≠ .ok (.num 0) := by
  refine ⟨rfl, rfl, rfl, ?_⟩
  intro h
  have e : (appendMessageToLocalFeed demoEnv "ab" (.str "a") (.str "hi") (.num 5) joinedAb).1
      = .ok .undefined := rfl
  rw [e] at h
  cases h

/-! ## The history replay of a receive request -/

theorem streamWrites_append (a b : List Event) :
    streamWrites (a ++ b) = streamWrites a ++ streamWrites b := by
  induction a with
  | nil => rfl
  | cons e rest ih => cases e <;> simp [streamWrites, ih]

theorem streamWrites_map (st : StreamId) (g : JVal → String) (l : List JVal) :
    streamWrites (l.map (fun m => Event.streamWrite st (g m))) = l.map (fun m => (st, g m)) := by
  induction l with
  | nil => rfl
  | cons e rest ih => simp [streamWrites, ih]

theorem range_filterMap_getElem? {α β : Type} (l : List α) (g : α → β) (n : Nat)
    (hn : n ≤ l.length) :
    (List.range n).filterMap (fun i => (l[i]?).map g) = (l.take n).map g := by
  induction n with
  | zero => simp
  | succ n ih =>
    have hlt : n < l.length := hn
    rw [List.range_succ, List.filterMap_append, ih (Nat.le_of_lt hlt), List.take_succ,
      List.map_append]
    simp [List.getElem?_eq_getElem hlt]

theorem replayFeed_eq (env : Env) (stream : StreamId) (s : State) (fid : FeedId) :
    replayFeed env stream s fid
      = (s.feedEntries fid).map (fun m => Event.streamWrite stream (dataFrame env m)) := by
  unfold replayFeed State.feedLength
  rw [range_filterMap_getElem? _ _ _ (Nat.le_refl _), List.take_length]

/-- Keys that are no array index are enumerated in creation order. -/
theorem JSObj.ownEntries_of_no_index {α : Type} (o : JSObj α)
    (h : ∀ e ∈ o, arrayIndex e.1 = none) : o.ownEntries = o := by
  have h1 : JSObj.indexed o = [] := by
    unfold JSObj.indexed
    rw [List.filterMap_eq_nil_iff]
    intro e he
    simp [h e he]
  have h2 : o.filter (fun e => (arrayIndex e.1).isNone) = o := by
    rw [List.filter_eq_self]
    intro e he
    simp [h e he]
  unfold JSObj.ownEntries
  rw [h1, h2]
  rfl

/-- A key of more than ten characters, as the 64 of a hex feed key, is no
array index. -/
theorem arrayIndex_of_long (k : String) (h : 10 < k.length) : arrayIndex k = none := by
  unfold arrayIndex
  have hl : k.length = k.data.length := rfl
  rw [hl] at h
  split
  · rfl
  · rename_i c hc
    rw [hc] at h
    simp at h
  · rename_i c rest _ hc
    rw [hc] at h
    simp only [List.length_cons] at h
    split
    · rfl
    · rw [if_pos (by omega)]

theorem flatMap_map_streamWrite (env : Env) (stream : StreamId) (s : State) (o : JSObj FeedId) :
    o.flatMap (fun e => replayFeed env stream s e.2)
      = (o.flatMap (fun e => s.feedEntries e.2)).map
          (fun m => Event.streamWrite stream (dataFrame env m)) := by
  simp only [replayFeed_eq]
  induction o with
  | nil => rfl
  | cons e rest ih => simp [List.flatMap_cons, ih]

theorem replayAll_eq (env : Env) (stream : StreamId) (K : RoomKey) (s : State)
    (hord : K ∉ objectPrototypeNames) :
    replayAll env stream K s
      = (s.localEntries K ++ (s.remoteFeeds K).ownEntries.flatMap (fun e => s.feedEntries e.2)).map
          (fun m => Event.streamWrite stream (dataFrame env m)) := by
  unfold replayAll State.localEntries State.remoteFeeds
  rw [List.map_append]
  congr 1
  · cases s.localRoomFeeds.get K with
    | none => rfl
    | some f => exact replayFeed_eq env stream s f
  · cases s.remoteRoomFeeds.get K with
    | none => simp [hord, JSObj.ownEntries, JSObj.indexed]
    | some o => exact flatMap_map_streamWrite env stream s o.ownEntries

theorem localReplayThrows_of_ordinary {K : RoomKey} (hord : K ∉ objectPrototypeNames)
    (s : State) : localReplayThrows K s = false := by
  unfold localReplayThrows JSObj.read
  cases s.localRoomFeeds.get K <;> simp [hord]

theorem pushThrows_of_ordinary {K : RoomKey} (hord : K ∉ objectPrototypeNames)
    (s : State) : pushThrows K s = false := by
  unfold pushThrows JSObj.read
  cases s.roomSseClients.get K <;> simp [hord]

/-- The receive action for a room key that is no inherited name: it does
not throw. -/
theorem receiveAction_of_ordinary (env : Env) (K : RoomKey) (s : State)
    (hord : K ∉ objectPrototypeNames) :
    receiveAction env K s
      = (.ok (),
          { s with
            nextStream := s.nextStream + 1, messageStream := some s.nextStream,
            timers := s.timers ++ [s.nextStream],
            roomSseClients := s.roomSseClients.set K (s.sseClients K ++ [s.nextStream]),
            trace := s.trace ++ (replayAll env s.nextStream K
                { s with nextStream := s.nextStream + 1, messageStream := some s.nextStream }
              ++ [Event.setInterval s.nextStream,
                  Event.callback
                    { statusCode := 200,
                      headers := [("Content-Type", "text/event-stream"),
                        ("Cache-Control", "no-cache"), ("Connection", "keep-alive")],
                      data := .stream s.nextStream }]) }) := by
  unfold receiveAction
  simp only [localReplayThrows_of_ordinary hord, pushThrows_of_ordinary hord,
    Bool.false_eq_true, if_false]
  simp [State.emit, State.sseClients]

/-- The history replay writes frames to the new stream and does nothing
else. -/
theorem replayAll_frames (env : Env) (stream : StreamId) (K : RoomKey) (s : State) :
    ∃ l : List JVal,
      replayAll env stream K s = l.map (fun m => Event.streamWrite stream (dataFrame env m)) := by
  unfold replayAll
  refine ⟨(match s.localRoomFeeds.get K with
      | some f => s.feedEntries f
      | none => [])
    ++ (match s.remoteRoomFeeds.get K with
      | some room => room.ownEntries.flatMap (fun e => s.feedEntries e.2)
      | none =>
        if K ∈ objectPrototypeNames then
          (s.builtinFeeds K).ownEntries.flatMap (fun e => s.feedEntries e.2)
        else []), ?_⟩
  rw [List.map_append]
  congr 1
  · cases s.localRoomFeeds.get K with
    | none => rfl
    | some f => exact replayFeed_eq env stream s f
  · cases s.remoteRoomFeeds.get K with
    | none =>
      simp only []
      split
      · exact flatMap_map_streamWrite env stream s _
      · rfl
    | some o => exact flatMap_map_streamWrite env stream s o.ownEntries

theorem responses_frames (st : StreamId) (g : JVal → String) (l : List JVal) :
    responses (l.map (fun m => Event.streamWrite st (g m))) = [] := by
  induction l with
  | nil => rfl
  | cons e rest ih => simpa [responses] using ih

theorem handleChatRequest_receive (env : Env) (K : String) (hK : K ≠ "") (s : State)
    (hord : K ∉ objectPrototypeNames) :
    handleChatRequest env (receiveRequest K) s = receiveAction env K s := by
  unfold handleChatRequest handleChatBody
  simp [receiveRequest, roomKeyMissing, hK, receiveAction_of_ordinary env K s hord]

/-- The frames a receive request writes, whatever the feed keys, for a room
key that is no inherited name: the local entries, then the entries of the
room's remote feeds in `for ... in` order. -/
theorem receive_streamWrites (env : Env) (K : String) (hK : K ≠ "") (s : State)
    (hord : K ∉ objectPrototypeNames) :
    streamWrites (eventsSince s (handleChatRequest env (receiveRequest K) s).2)
      = (s.localEntries K
          ++ (s.remoteFeeds K).ownEntries.flatMap (fun e => s.feedEntries e.2)).map
          (fun m => (s.nextStream, dataFrame env m)) := by
  rw [handleChatRequest_receive env K hK s hord, receiveAction_of_ordinary env K s hord]
  simp only [eventsSince, List.drop_left, streamWrites_append, replayAll_eq _ _ _ _ hord]
  rw [streamWrites_map]
  change _ = (s.localEntries K
    ++ (s.remoteFeeds K).ownEntries.flatMap (fun e => s.feedEntries e.2)).map _
  change (List.map _ (s.localEntries K
    ++ (s.remoteFeeds K).ownEntries.flatMap (fun e => s.feedEntries e.2))) ++ _ = _
  simp [streamWrites]

/-- C4, as the code has it. The history replay of a receive request for room
`K`, `K` being no name inherited from `Object.prototype`: the frames
written to streams are, on the new stream and in this order, the data frame
of every entry of K's local feed (if it has one) by ascending index, then,
remote feed after remote feed in the order of `for ... in` over the room's
mapping, the data frame of every entry of that feed by ascending index.
That order takes the keys that are array indices first, by ascending
number, then the other keys in the order in which they were put into the
mapping; where no key of the room is an array index (no hex feed key of
64 digits is) it is the insertion order. -/
theorem receive_replay_order (env : Env) (K : String) (hK : K ≠ "") (s : State)
    (hord : K ∉ objectPrototypeNames) :
    streamWrites (eventsSince s (handleChatRequest env (receiveRequest K) s).2)
      = (s.localEntries K
          ++ (s.remoteFeeds K).ownEntries.flatMap (fun e => s.feedEntries e.2)).map
          (fun m => (s.nextStream, dataFrame env m))
    ∧ (s.remoteFeeds K).ownEntries
        = (((s.remoteFeeds K).indexed).insertionSort (fun a b => a.1 ≤ b.1)).map (fun p => p.2)
          ++ (s.remoteFeeds K).filter (fun e => (arrayIndex e.1).isNone)
    ∧ ((∀ e ∈ s.remoteFeeds K, arrayIndex e.1 = none) →
        streamWrites (eventsSince s (handleChatRequest env (receiveRequest K) s).2)
          = (s.localEntries K ++ (s.remoteFeeds K).flatMap (fun e => s.feedEntries e.2)).map
              (fun m => (s.nextStream, dataFrame env m))) := by
  refine ⟨receive_streamWrites env K hK s hord, rfl, fun hkeys => ?_⟩
  rw [receive_streamWrites env K hK s hord, JSObj.ownEntries_of_no_index _ hkeys]

theorem receive_replay_order_witness :
    "ab" ≠ "" ∧ "ab" ∉ objectPrototypeNames
    ∧ streamWrites (eventsSince remotes2010
          (handleChatRequest demoEnv (receiveRequest "ab") remotes2010).2)
      = (remotes2010.localEntries "ab"
          ++ (remotes2010.remoteFeeds "ab").ownEntries.flatMap
              (fun e => remotes2010.feedEntries e.2)).map
          (fun m => (remotes2010.nextStream, dataFrame demoEnv m)) :=
  ⟨(by decide), (by decide),
    (receive_replay_order demoEnv "ab" (by decide) remotes2010 (by decide)).1⟩

/-- C4, as stated, fails: room `ab` got the remote feed `20` (entry `one`)
before the remote feed `10` (entry `two`), and a receive replays the entry
of `10` before that of `20`, not in the order of registration. -/
theorem receive_replay_not_insertion_order :
    remotes2010.remoteFeeds "ab" = [("20", 1), ("10", 2)]
    ∧ remotes2010.feedEntries 1 = [chatMessage (.str "x") (.str "one") (.num 1)]
    ∧ remotes2010.feedEntries 2 = [chatMessage (.str "y") (.str "two") (.num 2)]
    ∧ streamWrites (eventsSince remotes2010
          (handleChatRequest demoEnv (receiveRequest "ab") remotes2010).2)
      = [(0, dataFrame demoEnv (chatMessage (.str "y") (.str "two") (.num 2))),
         (0, dataFrame demoEnv (chatMessage (.str "x") (.str "one") (.num 1)))]
    ∧ streamWrites (eventsSince remotes2010
          (handleChatRequest demoEnv (receiveRequest "ab") remotes2010).2)
      ≠ (remotes2010.localEntries "ab"
          ++ (remotes2010.remoteFeeds "ab").flatMap (fun e => remotes2010.feedEntries e.2)).map
          (fun m => (remotes2010.nextStream, dataFrame demoEnv m)) := by
  refine ⟨by decide, rfl, rfl, by decide, by decide⟩

/-! ## A send is replayed by a later receive -/

@[simp] theorem feeds_writePeers (env : Env) (data : String) (ps : List Peer) (s : State) :
    (writePeers env data ps s).2.feeds = s.feeds := by
  rw [writePeers_eq]; rfl

@[simp] theorem feeds_sendMessageToPeers (env : Env) (data : String) (s : State) :
    (sendMessageToPeers env data s).2.feeds = s.feeds := by
  simp [sendMessageToPeers]

theorem handleChatBody_send (env : Env) (K : String) (hK : K ≠ "") (u : Option (List Chunk))
    (s : State) : handleChatBody env (sendRequest K u) s = sendAction env K u s := by
  unfold handleChatBody
  simp [sendRequest, roomKeyMissing, hK]

@[simp] theorem feedEntries_emit (s : State) (a : List Event) (f : FeedId) :
    (s.emit a).feedEntries f = s.feedEntries f := rfl

theorem appendMessageToLocalFeed_rejected (env : Env) (K : RoomKey)
    (sender message timestamp : JVal) (s : State) (f : FeedId) (m : String)
    (hf : s.localRoomFeeds.get K = some f) (hx : env.appendError f = some m) :
    (appendMessageToLocalFeed env K sender message timestamp s).1 = .error m := by
  unfold appendMessageToLocalFeed
  rw [JSObj.read_of_get hf]
  simp only [awaitAppend, feedAppend, hx]
  split <;> rfl

/-- What a send that does not throw has done to the room's local feed: the
entry of the body's sender and message is at its end. -/
theorem sendAction_ok (env : Env) (K : RoomKey) (u : Option (List Chunk)) (s : State)
    (body sender message : JVal) (f : FeedId)
    (hbody : getJSONBody env u = .ok body) (hsender : body.getProp "sender" = some sender)
    (hmessage : body.getProp "message" = some message)
    (hf : s.localRoomFeeds.get K = some f) (hlt : f < s.feeds.length)
    (hok : (sendAction env K u s).1 = .ok ()) :
    (sendAction env K u s).2.feedEntries f
      = s.feedEntries f ++ [chatMessage sender message (sendTimestamp env s)] := by
  have hprint : (sender.unprintable || message.unprintable) = false := by
    cases hp : (sender.unprintable || message.unprintable) with
    | false => rfl
    | true =>
      exfalso
      unfold sendAction at hok
      simp only [hbody, hsender, hmessage, hp, if_true] at hok
      cases hok
  have hstore : env.appendError f = none := by
    cases hx : env.appendError f with
    | none => rfl
    | some m =>
      exfalso
      unfold sendAction at hok
      simp only [hbody, hsender, hmessage, hprint, Bool.false_eq_true, if_false] at hok
      rw [appendMessageToLocalFeed_rejected env K sender message _ (dateNow env s).2 f m hf hx]
        at hok
      cases hok
  obtain ⟨h1, h2⟩ := appendMessageToLocalFeed_ok env K sender message (.num (dateNow env s).1)
    (dateNow env s).2 f hf hlt hstore
  unfold sendAction
  simp only [hbody, hsender, hmessage, hprint, Bool.false_eq_true, if_false, h1]
  split
  · rw [feedEntries_congr (feeds_sendMessageToPeers _ _ _)]
    exact h2
  · rw [feedEntries_emit, feedEntries_congr (feeds_sendMessageToPeers _ _ _)]
    exact h2

/-- C5. On a reachable state in which room `K` has a local feed, a send
with body `{sender, message}` that does not throw (it is answered 200),
followed by a receive for `K`: the replay written to the new stream
contains the data frame of the entry `{sender, message, timestamp}` of
that send. And the send stores its entry at the index equal to the
feed's length before it, the earlier entries keeping their place, so that
a second send that does not throw stores its entry one index higher:
after both, the feed is the old feed, then the first entry, then the
second. -/
theorem send_then_receive (env env2 env3 : Env) (K : String) (hK : K ≠ "")
    (u u2 : Option (List Chunk)) (s : State) (body sender message body2 sender2 message2 : JVal)
    (f : FeedId) (hs : Reachable s) (hf : s.localRoomFeeds.get K = some f)
    (hbody : getJSONBody env u = .ok body) (hsender : body.getProp "sender" = some sender)
    (hmessage : body.getProp "message" = some message)
    (hok : (handleChatBody env (sendRequest K u) s).1 = .ok ())
    (hbody2 : getJSONBody env2 u2 = .ok body2) (hsender2 : body2.getProp "sender" = some sender2)
    (hmessage2 : body2.getProp "message" = some message2)
    (hok2 : (handleChatBody env2 (sendRequest K u2)
      (handleChatRequest env (sendRequest K u) s).2).1 = .ok ()) :
    ((handleChatRequest env (sendRequest K u) s).2.nextStream,
        dataFrame env3 (chatMessage sender message (sendTimestamp env s)))
      ∈ streamWrites (eventsSince (handleChatRequest env (sendRequest K u) s).2
          (handleChatRequest env3 (receiveRequest K) (handleChatRequest env (sendRequest K u) s).2).2)
    ∧ ((handleChatRequest env (sendRequest K u) s).2.feedEntries f)[s.feedLength f]?
        = some (chatMessage sender message (sendTimestamp env s))
    ∧ (handleChatRequest env2 (sendRequest K u2) (handleChatRequest env (sendRequest K u) s).2).2.feedEntries f
        = s.feedEntries f ++ [chatMessage sender message (sendTimestamp env s),
            chatMessage sender2 message2
              (sendTimestamp env2 (handleChatRequest env (sendRequest K u) s).2)] := by
  have hreq : ∀ (e : Env) (v : Option (List Chunk)) (t : State),
      (handleChatBody e (sendRequest K v) t).1 = .ok () →
      (handleChatRequest e (sendRequest K v) t).2 = (sendAction e K v t).2 := by
    intro e v t h
    unfold handleChatRequest
    rw [h, handleChatBody_send e K hK]
  have hreach : Reachable (handleChatRequest env (sendRequest K u) s).2 :=
    Reachable.next (.request env (sendRequest K u)) hs
  have hrooms : (handleChatRequest env (sendRequest K u) s).2.rooms = s.rooms := by
    rw [hreq env u s hok]; simp
  have hf1 : (handleChatRequest env (sendRequest K u) s).2.localRoomFeeds.get K = some f := by
    simp only [State.rooms, Prod.mk.injEq] at hrooms
    rw [hrooms.1]; exact hf
  have e1 : (handleChatRequest env (sendRequest K u) s).2.feedEntries f
      = s.feedEntries f ++ [chatMessage sender message (sendTimestamp env s)] := by
    rw [hreq env u s hok]
    exact sendAction_ok env K u s body sender message f hbody hsender hmessage hf
      (hs.localFeed_lt hf) (by rw [← handleChatBody_send env K hK]; exact hok)
  have e2 : (handleChatRequest env2 (sendRequest K u2)
        (handleChatRequest env (sendRequest K u) s).2).2.feedEntries f
      = (handleChatRequest env (sendRequest K u) s).2.feedEntries f
        ++ [chatMessage sender2 message2
              (sendTimestamp env2 (handleChatRequest env (sendRequest K u) s).2)] := by
    rw [hreq env2 u2 _ hok2]
    exact sendAction_ok env2 K u2 _ body2 sender2 message2 f hbody2 hsender2 hmessage2 hf1
      (hreach.localFeed_lt hf1) (by rw [← handleChatBody_send env2 K hK]; exact hok2)
  refine ⟨?_, ?_, ?_⟩
  · rw [receive_streamWrites env3 K hK _ (hreach.localFeed_ordinary hf1)]
    apply List.mem_map.2
    refine ⟨chatMessage sender message (sendTimestamp env s), ?_, rfl⟩
    apply List.mem_append_left
    unfold State.localEntries
    rw [hf1]
    simp only []
    rw [e1]
    simp
  · rw [e1]; simp [State.feedLength]
  · rw [e2, e1]; simp

theorem send_then_receive_witness :
    "ab" ≠ "" ∧ Reachable joinedAb ∧ joinedAb.localRoomFeeds.get "ab" = some 0
    ∧ getJSONBody demoEnv hiUpload = .ok (.obj [("sender", .str "a"), ("message", .str "hi")])
    ∧ (handleChatBody demoEnv (sendRequest "ab" hiUpload) joinedAb).1 = .ok ()
    ∧ (handleChatBody demoEnv (sendRequest "ab" hiUpload)
        (handleChatRequest demoEnv (sendRequest "ab" hiUpload) joinedAb).2).1 = .ok ()
    ∧ ((handleChatRequest demoEnv (sendRequest "ab" hiUpload) joinedAb).2.nextStream,
        dataFrame demoEnv (chatMessage (.str "a") (.str "hi") (sendTimestamp demoEnv joinedAb)))
      ∈ streamWrites (eventsSince (handleChatRequest demoEnv (sendRequest "ab" hiUpload) joinedAb).2
          (handleChatRequest demoEnv (receiveRequest "ab")
            (handleChatRequest demoEnv (sendRequest "ab" hiUpload) joinedAb).2).2) :=
  ⟨(by decide), Reachable.next _ Reachable.init, rfl, rfl, rfl, rfl,
    (send_then_receive demoEnv demoEnv demoEnv "ab" (by decide) hiUpload hiUpload joinedAb
      (.obj [("sender", .str "a"), ("message", .str "hi")]) (.str "a") (.str "hi")
      (.obj [("sender", .str "a"), ("message", .str "hi")]) (.str "a") (.str "hi") 0
      (Reachable.next _ Reachable.init) rfl rfl rfl rfl rfl rfl rfl rfl rfl).1⟩

/-! ## Appends are pushed to the streams of the room -/

@[simp] theorem sse_emit (s : State) (a : List Event) : (s.emit a).sse = s.sse := rfl

@[simp] theorem sse_tick (s : State) : s.tick.sse = s.sse := rfl

@[simp] theorem sse_dateNow (env : Env) (s : State) : (dateNow env s).2.sse = s.sse := rfl

@[simp] theorem sse_updateFeed (s : State) (fid : FeedId) (f : Feed → Feed) :
    (s.updateFeed fid f).sse = s.sse := rfl

@[simp] theorem sse_writePeers (env : Env) (data : String) (ps : List Peer) (s : State) :
    (writePeers env data ps s).2.sse = s.sse := by
  rw [writePeers_eq]; rfl

@[simp] theorem sse_sendMessageToPeers (env : Env) (data : String) (s : State) :
    (sendMessageToPeers env data s).2.sse = s.sse := by
  simp [sendMessageToPeers]

@[simp] theorem sse_broadcastPeerCount (s : State) : (broadcastPeerCount s).sse = s.sse := rfl

@[simp] theorem sse_appendListener (env : Env) (fid : FeedId) (r : RoomKey) (i : Nat)
    (s : State) : (appendListener env fid r i s).sse = s.sse := by
  unfold appendListener
  split <;> rfl

@[simp] theorem sse_registerBuiltinFeed (c : ConnId) (n p : String) (f : FeedId) (s : State) :
    (registerBuiltinFeed c n p f s).sse = s.sse := rfl

@[simp] theorem sse_resumeListener (env : Env) (i : Nat) (s : State) :
    (resumeListener env i s).sse = s.sse := by
  unfold resumeListener
  split
  · rw [sse_appendListener]; rfl
  · rfl

@[simp] theorem sse_emitAppend (fid : FeedId) (rs : List RoomKey) (s : State) :
    (emitAppend fid rs s).sse = s.sse := rfl

@[simp] theorem sse_feedAppend (env : Env) (fid : FeedId) (v : JVal) (s : State) :
    (feedAppend env fid v s).2.sse = s.sse := by
  unfold feedAppend
  split <;> simp

@[simp] theorem sse_appendMessageToLocalFeed (env : Env) (k : RoomKey) (a b c : JVal)
    (s : State) : (appendMessageToLocalFeed env k a b c s).2.sse = s.sse := by
  unfold appendMessageToLocalFeed
  split
  · rfl
  · split <;> simp [awaitAppend]
  · split <;> simp

@[simp] theorem sse_storeGetByKey (key : FeedKey) (s : State) :
    (storeGetByKey key s).2.sse = s.sse := by
  unfold storeGetByKey
  split <;> rfl

@[simp] theorem sse_ensureRemoteRoom (k : RoomKey) (s : State) :
    (ensureRemoteRoom k s).sse = s.sse := by
  unfold ensureRemoteRoom
  split <;> rfl

@[simp] theorem sse_registerRemoteFeed (c : ConnId) (k : RoomKey) (fk : String) (f : FeedId)
    (s : State) : (registerRemoteFeed c k fk f s).sse = s.sse := rfl

@[simp] theorem sse_onHello (env : Env) (conn : ConnId) (rk fk : JVal) (s : State) :
    (onHello env conn rk fk s).2.sse = s.sse := by
  unfold onHello onHelloBuiltin loadRemoteFeed
  repeat' split
  all_goals simp

@[simp] theorem sse_onChatMessage (env : Env) (sid : String) (fields : List (String × JVal))
    (s : State) : (onChatMessage env sid fields s).2.sse = s.sse := by
  unfold onChatMessage
  simp only []
  repeat' split
  all_goals simp

@[simp] theorem sse_onMessage (env : Env) (conn : ConnId) (sid : String) (msg : JVal)
    (s : State) : (onMessage env conn sid msg s).2.sse = s.sse := by
  unfold onMessage
  split
  · split
    · simp
    · split <;> simp
  · rfl

@[simp] theorem sse_onData (env : Env) (conn : ConnId) (sid : String) (raw : String)
    (s : State) : (onData env conn sid raw s).2.sse = s.sse := by
  unfold onData
  split <;> simp

@[simp] theorem sse_onConnection (conn : ConnId) (pk : Option Bytes) (s : State) :
    (onConnection conn pk s).sse = s.sse := rfl

@[simp] theorem sse_onClose (conn : ConnId) (s : State) : (onClose conn s).sse = s.sse := rfl

@[simp] theorem sse_onKeepAlive (st : StreamId) (s : State) :
    (onKeepAlive st s).sse = s.sse := rfl

@[simp] theorem sse_sendAction (env : Env) (k : RoomKey) (u : Option (List Chunk)) (s : State) :
    (sendAction env k u s).2.sse = s.sse := by
  unfold sendAction
  simp only []
  repeat' split
  all_goals simp

@[simp] theorem sse_generateChatRoom (env : Env) (s : State) :
    (generateChatRoom env s).2.sse = s.sse := rfl

@[simp] theorem sse_storeGetFresh (env : Env) (s : State) :
    (storeGetFresh env s).2.sse = s.sse := rfl

@[simp] theorem sse_registerLocalFeed (k : RoomKey) (f : FeedId) (s : State) :
    (registerLocalFeed k f s).sse = s.sse := by
  unfold registerLocalFeed
  simp only []
  split <;> rfl

@[simp] theorem sse_joinChatRoom (env : Env) (k : RoomKey) (s : State) :
    (joinChatRoom env k s).2.sse = s.sse := by
  rcases joinChatRoom_cases env k s with ⟨_, h⟩ | ⟨_, h⟩
  · rw [h]; simp
  · rw [h]
    unfold joinChatRoomResume
    split
    · simp
    · simp [broadcastHello]

theorem streamsOk_of_sse {s s' : State} (h : s'.sse = s.sse) (hs : StreamsOk s) :
    StreamsOk s' := by
  simp only [State.sse, Prod.mk.injEq] at h
  intro k l hl
  rw [h.1] at hl
  rw [h.2]
  exact hs k l hl

theorem receiveAction_sse (env : Env) (K : RoomKey) (s : State) :
    ((receiveAction env K s).2.roomSseClients = s.roomSseClients
      ∨ (receiveAction env K s).2.roomSseClients
          = s.roomSseClients.set K (s.sseClients K ++ [s.nextStream]))
    ∧ (receiveAction env K s).2.nextStream = s.nextStream + 1 := by
  unfold receiveAction
  simp only []
  split
  · exact ⟨Or.inl rfl, rfl⟩
  · split
    · exact ⟨Or.inl rfl, rfl⟩
    · exact ⟨Or.inr rfl, rfl⟩

theorem streamsOk_receiveAction (env : Env) (K : RoomKey) (s : State) (hs : StreamsOk s) :
    StreamsOk (receiveAction env K s).2 := by
  intro k l hl
  obtain ⟨h1, h2⟩ := receiveAction_sse env K s
  rw [h2]
  rcases h1 with h1 | h1
  · rw [h1] at hl
    exact ⟨(hs k l hl).1, fun st hst => Nat.lt_succ_of_lt ((hs k l hl).2 st hst)⟩
  rw [h1] at hl
  have hold : (s.sseClients K).Nodup ∧ ∀ st ∈ s.sseClients K, st < s.nextStream := by
    unfold State.sseClients
    cases hg : s.roomSseClients.get K with
    | none => simp
    | some l0 => simpa using hs K l0 hg
  by_cases hk : k = K
  · subst hk
    rw [JSObj.get_set_self] at hl
    cases hl
    refine ⟨?_, ?_⟩
    · rw [List.nodup_append]
      refine ⟨hold.1, List.nodup_singleton _, ?_⟩
      intro a ha hb
      rw [List.mem_singleton] at hb
      subst hb
      exact Nat.lt_irrefl _ (hold.2 _ ha)
    · intro st hst
      rw [List.mem_append, List.mem_singleton] at hst
      rcases hst with h | h
      · exact Nat.lt_succ_of_lt (hold.2 st h)
      · rw [h]; exact Nat.lt_succ_self _
  · rw [JSObj.get_set_ne _ _ hk] at hl
    exact ⟨(hs k l hl).1, fun st hst => Nat.lt_succ_of_lt ((hs k l hl).2 st hst)⟩

theorem streamsOk_onStreamClose (K : RoomKey) (stream : StreamId) (s : State)
    (hs : StreamsOk s) : StreamsOk (onStreamClose K stream s) := by
  intro k l hl
  have h1 : (onStreamClose K stream s).roomSseClients
      = s.roomSseClients.set K ((s.sseClients K).filter (fun t => t != stream)) := rfl
  have h2 : (onStreamClose K stream s).nextStream = s.nextStream := rfl
  rw [h1] at hl
  rw [h2]
  have hold : (s.sseClients K).Nodup ∧ ∀ st ∈ s.sseClients K, st < s.nextStream := by
    unfold State.sseClients
    cases hg : s.roomSseClients.get K with
    | none => simp
    | some l0 => simpa using hs K l0 hg
  by_cases hk : k = K
  · subst hk
    rw [JSObj.get_set_self] at hl
    cases hl
    exact ⟨hold.1.filter _, fun st hst => hold.2 st (List.mem_of_mem_filter hst)⟩
  · rw [JSObj.get_set_ne _ _ hk] at hl
    exact hs k l hl

theorem streamsOk_handleChatRequest (env : Env) (req : Request) (s : State)
    (hs : StreamsOk s) : StreamsOk (handleChatRequest env req s).2 := by
  have hb : StreamsOk (handleChatBody env req s).2 := by
    unfold handleChatBody
    split
    · exact streamsOk_of_sse (by simp) hs
    · split
      · split
        · exact hs
        · split <;> exact streamsOk_of_sse (by simp) hs
      · split
        · split
          · exact hs
          · exact streamsOk_of_sse (by simp) hs
        · split
          · split
            · exact hs
            · exact streamsOk_receiveAction env _ s hs
          · exact streamsOk_of_sse (by simp) hs
  unfold handleChatRequest
  split
  · exact hb
  · exact streamsOk_of_sse (sse_emit _ _) hb

theorem streamsOk_step (a : Action) (s : State) (hs : StreamsOk s) : StreamsOk (step a s) := by
  cases a with
  | request env req => exact streamsOk_handleChatRequest env req s hs
  | connection conn pk => exact streamsOk_of_sse (sse_onConnection _ _ _) hs
  | data env conn sid raw => exact streamsOk_of_sse (sse_onData _ _ _ _ _) hs
  | close conn => exact streamsOk_of_sse (sse_onClose _ _) hs
  | streamClose k st => exact streamsOk_onStreamClose k st s hs
  | keepAlive st => exact streamsOk_of_sse (sse_onKeepAlive _ _) hs
  | replicated f es =>
    unfold step
    simp only []
    split
    · exact streamsOk_of_sse (sse_updateFeed _ _ _) hs
    · exact hs
  | listener env i => exact streamsOk_of_sse (sse_resumeListener _ _ _) hs

theorem Reachable.streamsOk {s : State} (h : Reachable s) : StreamsOk s := by
  induction h with
  | init => intro k l hk; simp [State.init, JSObj.get] at hk
  | next a _ ih => exact streamsOk_step a _ ih

/-- In a reachable state no stream is registered twice under a room. -/
theorem Reachable.sseClients_nodup {s : State} (h : Reachable s) (k : RoomKey) :
    (s.sseClients k).Nodup := by
  unfold State.sseClients
  cases hg : s.roomSseClients.get k with
  | none => simp
  | some l => simpa using (h.streamsOk k l hg).1

theorem countP_streamWrites (l : List StreamId) (frame : String) (st : StreamId) :
    (l.map (fun x => Event.streamWrite x frame)).countP (Event.isWriteTo st) = l.count st := by
  induction l with
  | nil => rfl
  | cons x rest ih =>
    rw [List.map_cons, List.countP_cons, ih, List.count_cons]
    by_cases h : x = st
    · subst h; simp [Event.isWriteTo]
    · have h' : ¬ st = x := fun e => h e.symm
      simp [Event.isWriteTo, h, h']

theorem feedAppend_pending (env : Env) (R : RoomKey) (f : FeedId) (v : JVal) (s : State)
    (hlt : f < s.feeds.length) (hl : s.feedListeners f = [R])
    (hstore : env.appendError f = none) :
    (feedAppend env f v s).2.pending
      = s.pending ++ [{ feed := f, roomKey := R, idx := s.feedLength f }] := by
  unfold feedAppend
  rw [hstore, hl]
  have he : (s.updateFeed f (fun x => { x with entries := x.entries ++ [v] })).feedEntries f
      = s.feedEntries f ++ [v] := feedEntries_updateFeed_self s f (fun es => es ++ [v]) hlt
  simp only [emitAppend, State.feedLength, he]
  simp [State.updateFeed]

/-- The calls a run of the append listener records from its
`await feed.get(idx)` on: the writes of the frame of the entry at `idx` to
the streams of the room. -/
theorem appendListener_events (env : Env) (R : RoomKey) (f : FeedId) (idx : Nat) (v : JVal)
    (t : State) (hv : (t.feedEntries f)[idx]? = some v) :
    eventsSince t (appendListener env f R idx t)
      = (t.sseClients R).map (fun st => Event.streamWrite st (dataFrame env v)) := by
  unfold appendListener
  rw [hv]
  exact eventsSince_emit _ _

/-- The calls the resumption of a suspended run of the append listener
records. -/
theorem resumeListener_events (env : Env) (i : Nat) (p : Push) (v : JVal) (t : State)
    (hp : t.pending[i]? = some p) (hv : (t.feedEntries p.feed)[p.idx]? = some v) :
    eventsSince t (resumeListener env i t)
      = (t.sseClients p.roomKey).map (fun st => Event.streamWrite st (dataFrame env v)) := by
  unfold resumeListener
  rw [hp]
  exact appendListener_events env p.roomKey p.feed p.idx v
    { t with pending := t.pending.eraseIdx i } hv

/-- C6. On a reachable state, an append to the local feed of room `R` that
the store accepts puts the entry at the end of the feed and starts one run
of the listener of `R`, suspended at its `feed.get` of the index of the new
entry.  What that run writes when it goes on, at once or in whatever later
reachable state: exactly the frame `data: <JSON of the new entry>` followed
by a blank line, one to each stream then registered in
`roomSseClients[R]`; each such stream gets one frame, a stream not
registered under `R` gets none. -/
theorem append_pushes_to_room_streams (env : Env) (R : RoomKey) (f : FeedId) (v : JVal)
    (s : State) (hs : Reachable s) (hf : s.localRoomFeeds.get R = some f)
    (hstore : env.appendError f = none) :
    (feedAppend env f v s).2.pending
      = s.pending ++ [{ feed := f, roomKey := R, idx := s.feedLength f }]
    ∧ ((feedAppend env f v s).2.feedEntries f)[s.feedLength f]? = some v
    ∧ ((feedAppend env f v s).2.feedEntries f).getLast? = some v
    ∧ eventsSince s (appendListener env f R (s.feedLength f) (feedAppend env f v s).2)
        = (s.sseClients R).map
            (fun st => Event.streamWrite st ("data: " ++ env.stringify v ++ "\n\n"))
    ∧ (∀ st, st ∈ s.sseClients R →
        (eventsSince s (appendListener env f R (s.feedLength f)
          (feedAppend env f v s).2)).countP (Event.isWriteTo st) = 1)
    ∧ (∀ st, st ∉ s.sseClients R →
        (eventsSince s (appendListener env f R (s.feedLength f)
          (feedAppend env f v s).2)).countP (Event.isWriteTo st) = 0)
    ∧ ∀ (env2 : Env) (t : State) (i : Nat), Reachable t →
        t.pending[i]? = some { feed := f, roomKey := R, idx := s.feedLength f } →
        (t.feedEntries f)[s.feedLength f]? = some v →
        eventsSince t (step (.listener env2 i) t)
          = (t.sseClients R).map
              (fun st => Event.streamWrite st ("data: " ++ env2.stringify v ++ "\n\n"))
        ∧ (∀ st, st ∈ t.sseClients R →
            (eventsSince t (step (.listener env2 i) t)).countP (Event.isWriteTo st) = 1)
        ∧ (∀ st, st ∉ t.sseClients R →
            (eventsSince t (step (.listener env2 i) t)).countP (Event.isWriteTo st) = 0) := by
  have hp := feedAppend_pending env R f v s (hs.localFeed_lt hf) (hs.localFeed_listeners hf) hstore
  have he := (feedAppend_ok env f v s hstore (hs.localFeed_lt hf)).2
  have hv : ((feedAppend env f v s).2.feedEntries f)[s.feedLength f]? = some v := by
    rw [he]; simp [State.feedLength]
  have hnow : eventsSince s (appendListener env f R (s.feedLength f) (feedAppend env f v s).2)
      = (s.sseClients R).map
          (fun st => Event.streamWrite st ("data: " ++ env.stringify v ++ "\n\n")) := by
    have ht : (feedAppend env f v s).2.trace = s.trace := by
      unfold feedAppend; rw [hstore]; rfl
    have hc : (feedAppend env f v s).2.roomSseClients = s.roomSseClients := by
      unfold feedAppend; rw [hstore]; rfl
    have h1 := appendListener_events env R f (s.feedLength f) v _ hv
    simp only [eventsSince, ht, State.sseClients, hc] at h1
    exact h1
  refine ⟨hp, hv, by rw [he]; simp, hnow, ?_, ?_, ?_⟩
  · intro st hst
    rw [hnow, countP_streamWrites]
    exact List.count_eq_one_of_mem (hs.sseClients_nodup R) hst
  · intro st hst
    rw [hnow, countP_streamWrites]
    exact List.count_eq_zero_of_not_mem hst
  · intro env2 t i ht hpi hvi
    have h1 : eventsSince t (step (.listener env2 i) t)
        = (t.sseClients R).map
            (fun st => Event.streamWrite st ("data: " ++ env2.stringify v ++ "\n\n")) :=
      resumeListener_events env2 i _ v t hpi hvi
    refine ⟨h1, ?_, ?_⟩
    · intro st hst
      rw [h1, countP_streamWrites]
      exact List.count_eq_one_of_mem (ht.sseClients_nodup R) hst
    · intro st hst
      rw [h1, countP_streamWrites]
      exact List.count_eq_zero_of_not_mem hst

theorem Reachable.run {s : State} (h : Reachable s) (as : List Action) :
    Reachable (run as s) := by
  induction as generalizing s with
  | nil => exact h
  | cons a rest ih => exact ih (Reachable.next a h)

theorem reachable_joinedAb : Reachable joinedAb :=
  Reachable.next _ Reachable.init

theorem append_pushes_to_room_streams_witness :
    Reachable twoStreams ∧ twoStreams.localRoomFeeds.get "ab" = some 0
    ∧ demoEnv.appendError 0 = none
    ∧ eventsSince twoStreams (appendListener demoEnv 0 "ab" (twoStreams.feedLength 0)
        (feedAppend demoEnv 0 (.str "x") twoStreams).2)
      = (twoStreams.sseClients "ab").map
          (fun st => Event.streamWrite st ("data: " ++ demoEnv.stringify (.str "x") ++ "\n\n")) :=
  ⟨reachable_joinedAb.run _, rfl, rfl,
    (append_pushes_to_room_streams demoEnv "ab" 0 (.str "x") twoStreams
      (reachable_joinedAb.run _) rfl rfl).2.2.2.1⟩

/-! ## A hello is registered once -/

@[simp] theorem remote_emit (s : State) (a : List Event) : (s.emit a).remote = s.remote := rfl

@[simp] theorem remote_tick (s : State) : s.tick.remote = s.remote := rfl

@[simp] theorem remote_dateNow (env : Env) (s : State) : (dateNow env s).2.remote = s.remote := rfl

@[simp] theorem remote_updateFeed (s : State) (fid : FeedId) (f : Feed → Feed) :
    (s.updateFeed fid f).remote = s.remote := rfl

@[simp] theorem remote_writePeers (env : Env) (data : String) (ps : List Peer) (s : State) :
    (writePeers env data ps s).2.remote = s.remote := by
  rw [writePeers_eq]; rfl

@[simp] theorem remote_sendMessageToPeers (env : Env) (data : String) (s : State) :
    (sendMessageToPeers env data s).2.remote = s.remote := by
  simp [sendMessageToPeers]

@[simp] theorem remote_broadcastPeerCount (s : State) : (broadcastPeerCount s).remote = s.remote := rfl

@[simp] theorem remote_appendListener (env : Env) (fid : FeedId) (r : RoomKey) (i : Nat)
    (s : State) : (appendListener env fid r i s).remote = s.remote := by
  unfold appendListener
  split <;> rfl

@[simp] theorem remote_registerBuiltinFeed (c : ConnId) (n p : String) (f : FeedId) (s : State) :
    (registerBuiltinFeed c n p f s).remote = s.remote := rfl

@[simp] theorem remote_resumeListener (env : Env) (i : Nat) (s : State) :
    (resumeListener env i s).remote = s.remote := by
  unfold resumeListener
  split
  · rw [remote_appendListener]; rfl
  · rfl

@[simp] theorem remote_emitAppend (fid : FeedId) (rs : List RoomKey) (s : State) :
    (emitAppend fid rs s).remote = s.remote := rfl

@[simp] theorem remote_feedAppend (env : Env) (fid : FeedId) (v : JVal) (s : State) :
    (feedAppend env fid v s).2.remote = s.remote := by
  unfold feedAppend
  split <;> simp

@[simp] theorem remote_appendMessageToLocalFeed (env : Env) (k : RoomKey) (a b c : JVal)
    (s : State) : (appendMessageToLocalFeed env k a b c s).2.remote = s.remote := by
  unfold appendMessageToLocalFeed
  split
  · rfl
  · split <;> simp [awaitAppend]
  · split <;> simp

@[simp] theorem remote_storeGetByKey (key : FeedKey) (s : State) :
    (storeGetByKey key s).2.remote = s.remote := by
  unfold storeGetByKey
  split <;> rfl

@[simp] theorem remote_onChatMessage (env : Env) (sid : String) (fields : List (String × JVal))
    (s : State) : (onChatMessage env sid fields s).2.remote = s.remote := by
  unfold onChatMessage
  simp only []
  repeat' split
  all_goals simp

@[simp] theorem remote_onConnection (conn : ConnId) (pk : Option Bytes) (s : State) :
    (onConnection conn pk s).remote = s.remote := rfl

@[simp] theorem remote_onClose (conn : ConnId) (s : State) : (onClose conn s).remote = s.remote := rfl

@[simp] theorem remote_onStreamClose (k : RoomKey) (st : StreamId) (s : State) :
    (onStreamClose k st s).remote = s.remote := rfl

@[simp] theorem remote_onKeepAlive (st : StreamId) (s : State) :
    (onKeepAlive st s).remote = s.remote := rfl

@[simp] theorem remote_receiveAction (env : Env) (k : RoomKey) (s : State) :
    (receiveAction env k s).2.remote = s.remote := by
  unfold receiveAction
  simp only []
  repeat' split
  all_goals rfl

@[simp] theorem remote_sendAction (env : Env) (k : RoomKey) (u : Option (List Chunk)) (s : State) :
    (sendAction env k u s).2.remote = s.remote := by
  unfold sendAction
  simp only []
  repeat' split
  all_goals simp

@[simp] theorem remote_generateChatRoom (env : Env) (s : State) :
    (generateChatRoom env s).2.remote = s.remote := rfl

@[simp] theorem remote_storeGetFresh (env : Env) (s : State) :
    (storeGetFresh env s).2.remote = s.remote := rfl

@[simp] theorem remote_registerLocalFeed (k : RoomKey) (f : FeedId) (s : State) :
    (registerLocalFeed k f s).remote = s.remote := by
  unfold registerLocalFeed
  simp only []
  split <;> rfl

theorem JSObj.keys_set {α : Type} (o : JSObj α) (k : String) (v : α) :
    (o.set k v).map Prod.fst
      = if k ∈ o.map Prod.fst then o.map Prod.fst else o.map Prod.fst ++ [k] := by
  induction o with
  | nil => simp [JSObj.set]
  | cons e rest ih =>
    obtain ⟨k', v'⟩ := e
    by_cases h : k' = k
    · subst h
      simp [JSObj.set]
    · have h' : ¬ k = k' := fun e => h e.symm
      simp only [JSObj.set, h, if_false, List.map_cons, ih, List.mem_cons, h', false_or]
      split <;> simp

theorem JSObj.nodup_keys_set {α : Type} (o : JSObj α) (k : String) (v : α)
    (h : (o.map Prod.fst).Nodup) : ((o.set k v).map Prod.fst).Nodup := by
  rw [JSObj.keys_set]
  split
  · exact h
  · rename_i hk
    rw [List.nodup_append]
    refine ⟨h, List.nodup_singleton _, ?_⟩
    intro a ha hb
    rw [List.mem_singleton] at hb
    subst hb
    exact hk ha

theorem remoteKeysOk_of_remote {s s' : State} (h : s'.remote = s.remote) (hs : RemoteKeysOk s) :
    RemoteKeysOk s' := by
  intro k o ho
  have h' : s'.remoteRoomFeeds = s.remoteRoomFeeds := h
  rw [h'] at ho
  exact hs k o ho

theorem remoteKeysOk_ensureRemoteRoom (K : RoomKey) (s : State) (hs : RemoteKeysOk s) :
    RemoteKeysOk (ensureRemoteRoom K s) := by
  unfold ensureRemoteRoom
  split
  · exact hs
  · intro k o ho
    simp only [] at ho
    by_cases hk : k = K
    · subst hk
      rw [JSObj.get_set_self] at ho
      cases ho
      exact List.nodup_nil
    · rw [JSObj.get_set_ne _ _ hk] at ho
      exact hs k o ho

theorem remoteFeeds_nodup {s : State} (hs : RemoteKeysOk s) (K : RoomKey) :
    ((s.remoteFeeds K).map Prod.fst).Nodup := by
  unfold State.remoteFeeds
  cases hg : s.remoteRoomFeeds.get K with
  | none => exact List.nodup_nil
  | some o => exact hs K o hg

theorem remoteKeysOk_registerRemoteFeed (c : ConnId) (K : RoomKey) (fk : String) (f : FeedId)
    (s : State) (hs : RemoteKeysOk s) : RemoteKeysOk (registerRemoteFeed c K fk f s) := by
  intro k o ho
  have h1 : (registerRemoteFeed c K fk f s).remoteRoomFeeds
      = s.remoteRoomFeeds.set K ((s.remoteFeeds K).set fk f) := rfl
  rw [h1] at ho
  by_cases hk : k = K
  · subst hk
    rw [JSObj.get_set_self] at ho
    cases ho
    exact JSObj.nodup_keys_set _ _ _ (remoteFeeds_nodup hs k)
  · rw [JSObj.get_set_ne _ _ hk] at ho
    exact hs k o ho

theorem remoteKeysOk_onHello (env : Env) (conn : ConnId) (rk fk : JVal) (s : State)
    (hs : RemoteKeysOk s) : RemoteKeysOk (onHello env conn rk fk s).2 := by
  apply onHello_induct (fun t => RemoteKeysOk t) _ _ _ _ _ _ _ _ _ hs
  · intro k t ht; exact remoteKeysOk_ensureRemoteRoom k t ht
  · intro key t ht; exact remoteKeysOk_of_remote (remote_storeGetByKey _ _) ht
  · intro k p f t ht; exact remoteKeysOk_registerRemoteFeed _ _ _ _ _ ht
  · intro n p f t ht; exact remoteKeysOk_of_remote (remote_registerBuiltinFeed _ _ _ _ _) ht

theorem remoteKeysOk_onMessage (env : Env) (conn : ConnId) (sid : String) (msg : JVal)
    (s : State) (hs : RemoteKeysOk s) : RemoteKeysOk (onMessage env conn sid msg s).2 := by
  unfold onMessage
  split
  · split
    · exact remoteKeysOk_onHello _ _ _ _ _ hs
    · split
      · exact remoteKeysOk_of_remote (by simp) hs
      · exact hs
  · exact hs

theorem remoteKeysOk_onData (env : Env) (conn : ConnId) (sid : String) (raw : String)
    (s : State) (hs : RemoteKeysOk s) : RemoteKeysOk (onData env conn sid raw s).2 := by
  unfold onData
  split
  · exact remoteKeysOk_onMessage _ _ _ _ _ hs
  · exact remoteKeysOk_onMessage _ _ _ _ _ (remoteKeysOk_of_remote (remote_dateNow env s) hs)

theorem remoteKeysOk_joinChatRoom (env : Env) (k : RoomKey) (s : State)
    (hs : RemoteKeysOk s) : RemoteKeysOk (joinChatRoom env k s).2 := by
  have h0 := remoteKeysOk_ensureRemoteRoom k s hs
  rcases joinChatRoom_cases env k s with ⟨_, h⟩ | ⟨_, h⟩
  · rw [h]; exact h0
  · rw [h]
    unfold joinChatRoomResume
    split
    · exact remoteKeysOk_of_remote (remote_storeGetFresh _ _) h0
    · exact remoteKeysOk_of_remote (by simp [broadcastHello]) h0

theorem remoteKeysOk_handleChatRequest (env : Env) (req : Request) (s : State)
    (hs : RemoteKeysOk s) : RemoteKeysOk (handleChatRequest env req s).2 := by
  have hb : RemoteKeysOk (handleChatBody env req s).2 := by
    unfold handleChatBody
    split
    · exact remoteKeysOk_of_remote (by simp) hs
    · split
      · split
        · exact hs
        · split
          · exact remoteKeysOk_joinChatRoom env _ s hs
          · exact remoteKeysOk_of_remote (remote_emit _ _) (remoteKeysOk_joinChatRoom env _ s hs)
      · split
        · split
          · exact hs
          · exact remoteKeysOk_of_remote (by simp) hs
        · split
          · split
            · exact hs
            · exact remoteKeysOk_of_remote (by simp) hs
          · exact remoteKeysOk_of_remote (by simp) hs
  unfold handleChatRequest
  split
  · exact hb
  · exact remoteKeysOk_of_remote (remote_emit _ _) hb

theorem remoteKeysOk_step (a : Action) (s : State) (hs : RemoteKeysOk s) :
    RemoteKeysOk (step a s) := by
  cases a with
  | request env req => exact remoteKeysOk_handleChatRequest env req s hs
  | connection conn pk => exact remoteKeysOk_of_remote (remote_onConnection _ _ _) hs
  | data env conn sid raw => exact remoteKeysOk_onData _ _ _ _ _ hs
  | close conn => exact remoteKeysOk_of_remote (remote_onClose _ _) hs
  | streamClose k st => exact remoteKeysOk_of_remote (remote_onStreamClose _ _ _) hs
  | keepAlive st => exact remoteKeysOk_of_remote (remote_onKeepAlive _ _) hs
  | replicated f es =>
    unfold step
    simp only []
    split
    · exact remoteKeysOk_of_remote (remote_updateFeed _ _ _) hs
    · exact hs
  | listener env i => exact remoteKeysOk_of_remote (remote_resumeListener _ _ _) hs

theorem Reachable.remoteKeysOk {s : State} (h : Reachable s) : RemoteKeysOk s := by
  induction h with
  | init => intro k o hk; simp [State.init, JSObj.get] at hk
  | next a _ ih => exact remoteKeysOk_step a _ ih

theorem onMessage_hello (env : Env) (conn : ConnId) (sid : String) (msg rk fk : JVal)
    (s : State) (h : IsHello msg rk fk) :
    onMessage env conn sid msg s = onHello env conn rk fk s := by
  obtain ⟨h1, h2, h3, h4, h5⟩ := h
  unfold onMessage
  simp [h1, h2, h3, h4, h5, isHelloType]

/-- A hello for a pair that is registered returns at once and changes
nothing. -/
theorem onHello_of_registered (env : Env) (conn : ConnId) (rk fk : JVal) (s : State)
    (f : FeedId) (hrk : rk.unprintable = false) (hfk : fk.unprintable = false)
    (h : (s.remoteFeeds (env.key rk)).get (env.key fk) = some f) :
    onHello env conn rk fk s = (.ok (), s) := by
  have hr : ∃ o, s.remoteRoomFeeds.get (env.key rk) = some o := by
    unfold State.remoteFeeds at h
    cases hg : s.remoteRoomFeeds.get (env.key rk) with
    | none => rw [hg] at h; simp [JSObj.get] at h
    | some o => exact ⟨o, rfl⟩
  obtain ⟨o, ho⟩ := hr
  have ho' : o.get (env.key fk) = some f := by
    simpa [State.remoteFeeds, ho] using h
  unfold onHello
  simp [hrk, hfk, ensureRemoteRoom_of_get ho, JSObj.read_of_get ho, JSObj.has_of_get ho']

/-- A hello that is processed without an error leaves its pair registered. -/
theorem onHello_ok_registered (env : Env) (conn : ConnId) (rk fk : JVal) (s : State)
    (hrk : rk.unprintable = false) (hfk : fk.unprintable = false)
    (hr : env.key rk ∉ objectPrototypeNames) (hf : env.key fk ∉ objectPrototypeNames)
    (h : (onHello env conn rk fk s).1 = .ok ()) :
    ∃ f, ((onHello env conn rk fk s).2.remoteFeeds (env.key rk)).get (env.key fk) = some f := by
  rw [onHello_of_ordinary env conn rk fk s hrk hfk hr hf] at h ⊢
  split
  · rename_i f hf
    exact ⟨f, hf⟩
  · split
    · rename_i h1 _ _ h2
      rw [h1, h2] at h
      cases h
    · split
      · rename_i h1 _ _ h2 _ _ h3
        rw [h1, h2] at h
        simp only [h3] at h
        cases h
      · rename_i key _ _ _
        refine ⟨(storeGetByKey key (ensureRemoteRoom (env.key rk) s)).1, ?_⟩
        simp only [State.remoteFeeds, registerRemoteFeed, JSObj.get_set_self, Option.getD_some]

/-- On a reachable state, two `data` events carrying the same hello message
for `(roomKey, feedKey)`, on any connections, in one runtime (numbers have
one text): afterwards the room's mapping
has at most one entry for `feedKey`; and for keys that convert to strings
and are no names inherited from `Object.prototype`, when the first is
processed to the end (the feed is registered), the mapping has exactly one
entry for `feedKey` and the second returns at once, the state after it,
trace included, being the state before it: no feed is opened, no
`replicate` is called. -/
theorem hello_twice (env1 env2 : Env) (c1 c2 : ConnId) (sid1 sid2 raw : String)
    (msg roomKey feedKey : JVal) (s : State) (hs : Reachable s)
    (hp1 : env1.parse raw = .ok msg) (hp2 : env2.parse raw = .ok msg)
    (hnum : env2.numberText = env1.numberText)
    (hmsg : IsHello msg roomKey feedKey) :
    (((onData env2 c2 sid2 raw (onData env1 c1 sid1 raw s).2).2.remoteFeeds (env1.key roomKey)).map
        Prod.fst).count (env1.key feedKey) ≤ 1
    ∧ (roomKey.unprintable = false → feedKey.unprintable = false →
        env1.key roomKey ∉ objectPrototypeNames → env1.key feedKey ∉ objectPrototypeNames →
        (onData env1 c1 sid1 raw s).1 = .ok () →
        (((onData env1 c1 sid1 raw s).2.remoteFeeds (env1.key roomKey)).map Prod.fst).count
            (env1.key feedKey) = 1
        ∧ onData env2 c2 sid2 raw (onData env1 c1 sid1 raw s).2
            = (.ok (), (onData env1 c1 sid1 raw s).2)) := by
  have hr1 : Reachable (onData env1 c1 sid1 raw s).2 := Reachable.next (.data env1 c1 sid1 raw) hs
  have hr2 : Reachable (onData env2 c2 sid2 raw (onData env1 c1 sid1 raw s).2).2 :=
    Reachable.next (.data env2 c2 sid2 raw) hr1
  have hd : ∀ (e : Env) (c : ConnId) (sid : String) (t : State), e.parse raw = .ok msg →
      onData e c sid raw t = onHello e c roomKey feedKey t := by
    intro e c sid t hp
    unfold onData
    rw [hp]
    exact onMessage_hello e c sid msg roomKey feedKey t hmsg
  refine ⟨List.nodup_iff_count_le_one.1 (remoteFeeds_nodup hr2.remoteKeysOk _) _, ?_⟩
  intro hrk hfk hor hof hok
  rw [hd env1 c1 sid1 s hp1] at hok
  obtain ⟨f, hf⟩ := onHello_ok_registered env1 c1 roomKey feedKey s hrk hfk hor hof hok
  rw [← hd env1 c1 sid1 s hp1] at hf
  refine ⟨?_, ?_⟩
  · apply List.count_eq_one_of_mem (remoteFeeds_nodup hr1.remoteKeysOk _)
    exact List.mem_map.2 ⟨((env1.key feedKey), f), JSObj.mem_of_get _ _ _ hf, rfl⟩
  · rw [hd env2 c2 sid2 _ hp2]
    have hk : ∀ v : JVal, env1.key v = env2.key v := fun v => by
      show v.toKey env1.numberText = v.toKey env2.numberText
      rw [hnum]
    rw [hk roomKey, hk feedKey] at hf
    exact onHello_of_registered env2 c2 roomKey feedKey _ f hrk hfk hf

/-! ## The peer list and the peer-count broadcast -/

@[simp] theorem peerList_emit (s : State) (a : List Event) : (s.emit a).peerList = s.peerList := rfl

@[simp] theorem peerList_tick (s : State) : s.tick.peerList = s.peerList := rfl

@[simp] theorem peerList_dateNow (env : Env) (s : State) : (dateNow env s).2.peerList = s.peerList := rfl

@[simp] theorem peerList_updateFeed (s : State) (fid : FeedId) (f : Feed → Feed) :
    (s.updateFeed fid f).peerList = s.peerList := rfl

@[simp] theorem peerList_writePeers (env : Env) (data : String) (ps : List Peer) (s : State) :
    (writePeers env data ps s).2.peerList = s.peerList := by
  rw [writePeers_eq]; rfl

@[simp] theorem peerList_sendMessageToPeers (env : Env) (data : String) (s : State) :
    (sendMessageToPeers env data s).2.peerList = s.peerList := by
  simp [sendMessageToPeers]

@[simp] theorem peerList_broadcastPeerCount (s : State) : (broadcastPeerCount s).peerList = s.peerList := rfl

@[simp] theorem peerList_appendListener (env : Env) (fid : FeedId) (r : RoomKey) (i : Nat)
    (s : State) : (appendListener env fid r i s).peerList = s.peerList := by
  unfold appendListener
  split <;> rfl

@[simp] theorem peerList_registerBuiltinFeed (c : ConnId) (n p : String) (f : FeedId) (s : State) :
    (registerBuiltinFeed c n p f s).peerList = s.peerList := rfl

@[simp] theorem peerList_resumeListener (env : Env) (i : Nat) (s : State) :
    (resumeListener env i s).peerList = s.peerList := by
  unfold resumeListener
  split
  · rw [peerList_appendListener]; rfl
  · rfl

@[simp] theorem peerList_emitAppend (fid : FeedId) (rs : List RoomKey) (s : State) :
    (emitAppend fid rs s).peerList = s.peerList := rfl

@[simp] theorem peerList_feedAppend (env : Env) (fid : FeedId) (v : JVal) (s : State) :
    (feedAppend env fid v s).2.peerList = s.peerList := by
  unfold feedAppend
  split <;> simp

@[simp] theorem peerList_appendMessageToLocalFeed (env : Env) (k : RoomKey) (a b c : JVal)
    (s : State) : (appendMessageToLocalFeed env k a b c s).2.peerList = s.peerList := by
  unfold appendMessageToLocalFeed
  split
  · rfl
  · split <;> simp [awaitAppend]
  · split <;> simp

@[simp] theorem peerList_storeGetByKey (key : FeedKey) (s : State) :
    (storeGetByKey key s).2.peerList = s.peerList := by
  unfold storeGetByKey
  split <;> rfl

@[simp] theorem peerList_ensureRemoteRoom (k : RoomKey) (s : State) :
    (ensureRemoteRoom k s).peerList = s.peerList := by
  unfold ensureRemoteRoom
  split <;> rfl

@[simp] theorem peerList_registerRemoteFeed (c : ConnId) (k : RoomKey) (fk : String) (f : FeedId)
    (s : State) : (registerRemoteFeed c k fk f s).peerList = s.peerList := rfl

@[simp] theorem peerList_onHello (env : Env) (conn : ConnId) (rk fk : JVal) (s : State) :
    (onHello env conn rk fk s).2.peerList = s.peerList := by
  unfold onHello onHelloBuiltin loadRemoteFeed
  repeat' split
  all_goals simp

@[simp] theorem peerList_onChatMessage (env : Env) (sid : String) (fields : List (String × JVal))
    (s : State) : (onChatMessage env sid fields s).2.peerList = s.peerList := by
  unfold onChatMessage
  simp only []
  repeat' split
  all_goals simp

@[simp] theorem peerList_onMessage (env : Env) (conn : ConnId) (sid : String) (msg : JVal)
    (s : State) : (onMessage env conn sid msg s).2.peerList = s.peerList := by
  unfold onMessage
  split
  · split
    · simp
    · split <;> simp
  · rfl

@[simp] theorem peerList_onData (env : Env) (conn : ConnId) (sid : String) (raw : String)
    (s : State) : (onData env conn sid raw s).2.peerList = s.peerList := by
  unfold onData
  split <;> simp

@[simp] theorem peerList_onStreamClose (k : RoomKey) (st : StreamId) (s : State) :
    (onStreamClose k st s).peerList = s.peerList := rfl

@[simp] theorem peerList_onKeepAlive (st : StreamId) (s : State) :
    (onKeepAlive st s).peerList = s.peerList := rfl

@[simp] theorem peerList_receiveAction (env : Env) (k : RoomKey) (s : State) :
    (receiveAction env k s).2.peerList = s.peerList := by
  unfold receiveAction
  simp only []
  repeat' split
  all_goals rfl

@[simp] theorem peerList_sendAction (env : Env) (k : RoomKey) (u : Option (List Chunk)) (s : State) :
    (sendAction env k u s).2.peerList = s.peerList := by
  unfold sendAction
  simp only []
  repeat' split
  all_goals simp

@[simp] theorem peerList_generateChatRoom (env : Env) (s : State) :
    (generateChatRoom env s).2.peerList = s.peerList := rfl

@[simp] theorem peerList_storeGetFresh (env : Env) (s : State) :
    (storeGetFresh env s).2.peerList = s.peerList := rfl

@[simp] theorem peerList_registerLocalFeed (k : RoomKey) (f : FeedId) (s : State) :
    (registerLocalFeed k f s).peerList = s.peerList := by
  unfold registerLocalFeed
  simp only []
  split <;> rfl

@[simp] theorem peerList_joinChatRoom (env : Env) (k : RoomKey) (s : State) :
    (joinChatRoom env k s).2.peerList = s.peerList := by
  rcases joinChatRoom_cases env k s with ⟨_, h⟩ | ⟨_, h⟩
  · rw [h]; simp
  · rw [h]
    unfold joinChatRoomResume
    split
    · simp
    · simp [broadcastHello]

theorem peerList_handleChatRequest (env : Env) (req : Request) (s : State) :
    (handleChatRequest env req s).2.peerList = s.peerList := by
  have hb : (handleChatBody env req s).2.peerList = s.peerList := by
    unfold handleChatBody
    split
    · simp
    · split
      · split
        · rfl
        · split <;> simp
      · split
        · split
          · rfl
          · simp
        · split
          · split
            · rfl
            · simp
          · simp
  unfold handleChatRequest
  split
  · exact hb
  · simpa using hb

theorem JSObj.mem_ownEntries {α : Type} (o : JSObj α) (e : String × α) :
    e ∈ o.ownEntries ↔ e ∈ o := by
  unfold JSObj.ownEntries
  rw [List.mem_append, List.mem_map, List.mem_filter]
  constructor
  · rintro (⟨p, hp, rfl⟩ | ⟨h, _⟩)
    · rw [(List.perm_insertionSort _ _).mem_iff] at hp
      unfold JSObj.indexed at hp
      rw [List.mem_filterMap] at hp
      obtain ⟨x, hx, hxp⟩ := hp
      cases hi : arrayIndex x.1 with
      | none => rw [hi] at hxp; cases hxp
      | some i =>
        rw [hi] at hxp
        simp only [Option.map_some', Option.some.injEq] at hxp
        rw [← hxp]
        exact hx
    · exact h
  · intro h
    cases hi : arrayIndex e.1 with
    | none => exact Or.inr ⟨h, by simp [hi]⟩
    | some i =>
      refine Or.inl ⟨(i, e), ?_, rfl⟩
      rw [(List.perm_insertionSort _ _).mem_iff]
      unfold JSObj.indexed
      rw [List.mem_filterMap]
      exact ⟨e, h, by simp [hi]⟩

/-- A stream registered under a room is among all streams. -/
theorem mem_allStreams {s : State} {k : RoomKey} {l : List StreamId} {st : StreamId}
    (hk : s.roomSseClients.get k = some l) (hst : st ∈ l) : st ∈ s.allStreams := by
  unfold State.allStreams
  rw [List.mem_flatMap]
  exact ⟨(k, l), (JSObj.mem_ownEntries _ _).2 (JSObj.mem_of_get _ _ _ hk), hst⟩

theorem length_filter_ne (ps : List Peer) (c : ConnId)
    (hnd : (ps.map (fun p => p.connection)).Nodup) (hc : c ∈ ps.map (fun p => p.connection)) :
    (ps.filter (fun p => p.connection != c)).length + 1 = ps.length := by
  induction ps with
  | nil => simp at hc
  | cons p rest ih =>
    rw [List.map_cons, List.nodup_cons] at hnd
    rw [List.map_cons, List.mem_cons] at hc
    by_cases hp : p.connection = c
    · have hnot : c ∉ rest.map (fun p => p.connection) := hp ▸ hnd.1
      have hall : rest.filter (fun p => p.connection != c) = rest := by
        rw [List.filter_eq_self]
        intro q hq
        have : q.connection ≠ c := fun e => hnot (List.mem_map.2 ⟨q, hq, e⟩)
        simpa using this
      simp [List.filter_cons, hp, hall]
    · have hc' : c ∈ rest.map (fun p => p.connection) := by
        rcases hc with h | h
        · exact absurd h.symm hp
        · exact h
      simp [List.filter_cons, hp, ih hnd.2 hc']

theorem nodup_filter_conns (ps : List Peer) (c : ConnId)
    (hnd : (ps.map (fun p => p.connection)).Nodup) :
    ((ps.filter (fun p => p.connection != c)).map (fun p => p.connection)).Nodup := by
  induction ps with
  | nil => exact List.nodup_nil
  | cons p rest ih =>
    rw [List.map_cons, List.nodup_cons] at hnd
    rw [List.filter_cons]
    split
    · rw [List.map_cons, List.nodup_cons]
      refine ⟨?_, ih hnd.2⟩
      intro hmem
      apply hnd.1
      rw [List.mem_map] at hmem ⊢
      obtain ⟨q, hq, he⟩ := hmem
      exact ⟨q, List.mem_of_mem_filter hq, he⟩
    · exact ih hnd.2

/-- Along a sequence of events whose connection and close events are as
`PeerEventsOk` says, the peer list gains one peer per connection event and
loses one per close event. -/
theorem peers_length_run (as : List Action) (s : State) (hnd : s.peerConns.Nodup)
    (hv : PeerEventsOk as s) :
    (run as s).peers.length + closes as = s.peers.length + connects as := by
  induction as generalizing s with
  | nil => rfl
  | cons a rest ih =>
    have hother : ∀ t : State, t.peerList = s.peerList → PeerEventsOk rest t →
        (run rest t).peers.length + closes rest = s.peers.length + connects rest := by
      intro t ht hvt
      have ht' : t.peers = s.peers := ht
      have := ih t (by unfold State.peerConns; rw [ht']; exact hnd) hvt
      rw [ht'] at this
      exact this
    cases a with
    | connection c pk =>
      obtain ⟨hc, hrest⟩ := hv
      have hp : (step (.connection c pk) s).peers
          = s.peers ++ [{ connection := c, shortID := shortIdOf pk }] := rfl
      have := ih (step (.connection c pk) s) (by
        unfold State.peerConns
        rw [hp, List.map_append, List.nodup_append]
        refine ⟨hnd, List.nodup_singleton _, ?_⟩
        intro x hx hx'
        rw [List.map_singleton, List.mem_singleton] at hx'
        subst hx'
        exact hc hx) hrest
      rw [hp, List.length_append] at this
      simp only [run, List.foldl_cons, connects, closes] at this ⊢
      simp only [List.length_singleton] at this
      omega
    | close c =>
      obtain ⟨hc, hrest⟩ := hv
      have hp : (step (.close c) s).peers = s.peers.filter (fun p => p.connection != c) := rfl
      have := ih (step (.close c) s) (by
        unfold State.peerConns
        rw [hp]
        exact nodup_filter_conns _ _ hnd) hrest
      rw [hp] at this
      have hl := length_filter_ne s.peers c hnd hc
      simp only [run, List.foldl_cons, connects, closes] at this ⊢
      omega
    | request env req =>
      exact hother _ (peerList_handleChatRequest env req s) hv
    | data env conn sid raw =>
      exact hother _ (peerList_onData env conn sid raw s) hv
    | streamClose k st =>
      exact hother _ (peerList_onStreamClose k st s) hv
    | keepAlive st =>
      exact hother _ (peerList_onKeepAlive st s) hv
    | replicated f es =>
      refine hother _ ?_ hv
      unfold step
      simp only []
      split
      · rfl
      · rfl
    | listener env i =>
      exact hother _ (peerList_resumeListener env i s) hv

theorem streamWrites_replicates (l : List (String × FeedId)) (c : ConnId) :
    streamWrites (l.map (fun e => Event.replicate e.2 c)) = [] := by
  induction l with
  | nil => rfl
  | cons e rest ih => simpa [streamWrites] using ih

theorem streamWrites_replicateAll (c : ConnId) (s : State) :
    streamWrites (replicateAll c s) = [] := by
  unfold replicateAll
  rw [streamWrites_append, streamWrites_replicates]
  generalize s.remoteRoomFeeds.ownEntries = rooms
  induction rooms with
  | nil => rfl
  | cons r rest ih =>
    rw [List.flatMap_cons, streamWrites_append, streamWrites_replicates, ih]
    rfl

theorem streamWrites_frames (l : List StreamId) (frame : String) :
    streamWrites (l.map (fun st => Event.streamWrite st frame)) = l.map (fun st => (st, frame)) := by
  induction l with
  | nil => rfl
  | cons e rest ih => simp [streamWrites, ih]

/-- C8. From module load, along any sequence of events in which every
connection event brings a new connection object and every close event is
for a connection in the peer list at that moment (N connection events, M
close events, whatever else in between): afterwards the peer list has
length N - M. And every peer-count broadcast, in whatever state, writes
the frame `event: peersCount`, `data: <peers.length>`, blank line, once for
each stream registered under each room; the connection handler and the
close handler broadcast the length the list has after their change. -/
theorem peersCount_broadcast (as : List Action) (hv : PeerEventsOk as State.init) :
    (run as State.init).peers.length = connects as - closes as
    ∧ (∀ s : State, eventsSince s (broadcastPeerCount s)
        = s.allStreams.map (fun st => Event.streamWrite st
            ("event: peersCount\ndata: " ++ toString s.peers.length ++ "\n\n")))
    ∧ (∀ (s : State) (k : RoomKey) (l : List StreamId) (st : StreamId),
        s.roomSseClients.get k = some l → st ∈ l →
        Event.streamWrite st ("event: peersCount\ndata: " ++ toString s.peers.length ++ "\n\n")
          ∈ eventsSince s (broadcastPeerCount s))
    ∧ (∀ (c : ConnId) (pk : Option Bytes) (s : State),
        (onConnection c pk s).peers.length = s.peers.length + 1
        ∧ streamWrites (eventsSince s (onConnection c pk s))
          = s.allStreams.map (fun st => (st, peersCountFrame (onConnection c pk s).peers.length)))
    ∧ (∀ (c : ConnId) (s : State),
        streamWrites (eventsSince s (onClose c s))
          = s.allStreams.map (fun st => (st, peersCountFrame (onClose c s).peers.length))) := by
  have hb : ∀ s : State, eventsSince s (broadcastPeerCount s)
      = s.allStreams.map (fun st => Event.streamWrite st
          ("event: peersCount\ndata: " ++ toString s.peers.length ++ "\n\n")) := by
    intro s
    simp [broadcastPeerCount, eventsSince, State.allStreams, peersCountFrame]
  refine ⟨?_, hb, ?_, ?_, ?_⟩
  · have h := peers_length_run as State.init List.nodup_nil hv
    have h0 : State.init.peers.length = 0 := rfl
    omega
  · intro s k l st hk hst
    rw [hb]
    exact List.mem_map.2 ⟨st, mem_allStreams hk hst, rfl⟩
  · intro c pk s
    refine ⟨by simp [onConnection, broadcastPeerCount], ?_⟩
    have ht : eventsSince s (onConnection c pk s)
        = s.allStreams.map (fun st => Event.streamWrite st
            (peersCountFrame (onConnection c pk s).peers.length)) ++ replicateAll c s := by
      simp [onConnection, broadcastPeerCount, eventsSince, State.allStreams]
    rw [ht, streamWrites_append, streamWrites_replicateAll, streamWrites_frames]
    simp
  · intro c s
    have ht : eventsSince s (onClose c s)
        = s.allStreams.map (fun st => Event.streamWrite st
            (peersCountFrame (onClose c s).peers.length)) := by
      simp [onClose, broadcastPeerCount, eventsSince, State.allStreams]
    rw [ht, streamWrites_frames]

theorem peersCount_broadcast_witness :
    PeerEventsOk [.connection 1 none, .request demoEnv (receiveRequest "ab"),
        .connection 2 none, .close 1] State.init
    ∧ (run [.connection 1 none, .request demoEnv (receiveRequest "ab"),
        .connection 2 none, .close 1] State.init).peers.length
      = connects [.connection 1 none, .request demoEnv (receiveRequest "ab"),
          .connection 2 none, .close 1]
        - closes [.connection 1 none, .request demoEnv (receiveRequest "ab"),
          .connection 2 none, .close 1] :=
  ⟨⟨(by decide), (by decide), (by decide), trivial⟩,
    (peersCount_broadcast [.connection 1 none, .request demoEnv (receiveRequest "ab"),
        .connection 2 none, .close 1] ⟨(by decide), (by decide), (by decide), trivial⟩).1⟩

/-! ## The answers of the chat router -/

theorem responses_append (a b : List Event) : responses (a ++ b) = responses a ++ responses b := by
  induction a with
  | nil => rfl
  | cons e rest ih => cases e <;> simp [responses, ih]

theorem responses_of_none (a : List Event) (h : ∀ e ∈ a, ∀ r, e ≠ Event.callback r) :
    responses a = [] := by
  induction a with
  | nil => rfl
  | cons e rest ih =>
    have hr := ih (fun x hx => h x (List.mem_cons_of_mem _ hx))
    cases e with
    | callback r => exact absurd rfl (h _ (List.mem_cons_self _ _) r)
    | _ => simpa [responses] using hr

theorem answered_emit (s : State) (a : List Event) :
    (s.emit a).answered = s.answered ++ responses a := by
  simp [State.answered, responses_append]

theorem answered_emit_none (s : State) (a : List Event)
    (h : ∀ e ∈ a, ∀ r, e ≠ Event.callback r) : (s.emit a).answered = s.answered := by
  rw [answered_emit, responses_of_none a h, List.append_nil]

@[simp] theorem answered_dateNow (env : Env) (s : State) :
    (dateNow env s).2.answered = s.answered := rfl

@[simp] theorem answered_updateFeed (s : State) (fid : FeedId) (f : Feed → Feed) :
    (s.updateFeed fid f).answered = s.answered := rfl

@[simp] theorem answered_writePeers (env : Env) (data : String) (ps : List Peer) (s : State) :
    (writePeers env data ps s).2.answered = s.answered := by
  rw [writePeers_eq]
  apply answered_emit_none
  intro e he r
  rw [List.mem_map] at he
  obtain ⟨p, _, rfl⟩ := he
  exact fun h => Event.noConfusion h

@[simp] theorem answered_sendMessageToPeers (env : Env) (data : String) (s : State) :
    (sendMessageToPeers env data s).2.answered = s.answered := by
  simp [sendMessageToPeers]

@[simp] theorem answered_appendListener (env : Env) (fid : FeedId) (r : RoomKey) (i : Nat)
    (s : State) : (appendListener env fid r i s).answered = s.answered := by
  unfold appendListener
  split
  · apply answered_emit_none
    intro e he r
    rw [List.mem_map] at he
    obtain ⟨p, _, rfl⟩ := he
    exact fun h => Event.noConfusion h
  · rfl

@[simp] theorem answered_registerBuiltinFeed (c : ConnId) (n p : String) (f : FeedId)
    (s : State) : (registerBuiltinFeed c n p f s).answered = s.answered := by
  simp [registerBuiltinFeed, State.answered, responses_append, responses]

@[simp] theorem answered_resumeListener (env : Env) (i : Nat) (s : State) :
    (resumeListener env i s).answered = s.answered := by
  unfold resumeListener
  split
  · rw [answered_appendListener]; rfl
  · rfl

@[simp] theorem answered_emitAppend (fid : FeedId) (rs : List RoomKey) (s : State) :
    (emitAppend fid rs s).answered = s.answered := rfl

@[simp] theorem answered_feedAppend (env : Env) (fid : FeedId) (v : JVal) (s : State) :
    (feedAppend env fid v s).2.answered = s.answered := by
  unfold feedAppend
  split <;> simp

@[simp] theorem answered_appendMessageToLocalFeed (env : Env) (k : RoomKey) (a b c : JVal)
    (s : State) : (appendMessageToLocalFeed env k a b c s).2.answered = s.answered := by
  unfold appendMessageToLocalFeed
  split
  · rfl
  · split <;> simp [awaitAppend]
  · split <;> simp

@[simp] theorem answered_ensureRemoteRoom (k : RoomKey) (s : State) :
    (ensureRemoteRoom k s).answered = s.answered := by
  unfold ensureRemoteRoom
  split <;> rfl

@[simp] theorem answered_storeGetFresh (env : Env) (s : State) :
    (storeGetFresh env s).2.answered = s.answered := by
  simp [storeGetFresh, State.answered, responses_append, responses]

@[simp] theorem answered_registerLocalFeed (k : RoomKey) (f : FeedId) (s : State) :
    (registerLocalFeed k f s).answered = s.answered := by
  unfold registerLocalFeed
  simp only []
  split
  · rfl
  · simp [State.answered, State.updateFeed, responses_append, responses]

@[simp] theorem answered_joinChatRoom (env : Env) (k : RoomKey) (s : State) :
    (joinChatRoom env k s).2.answered = s.answered := by
  rcases joinChatRoom_cases env k s with ⟨_, h⟩ | ⟨_, h⟩
  · rw [h]; simp
  · rw [h]
    unfold joinChatRoomResume
    split
    · simp
    · simp [broadcastHello]

/-- A send that throws has not called the callback. -/
theorem answered_sendAction_error (env : Env) (k : RoomKey) (u : Option (List Chunk))
    (s : State) (m : String) (h : (sendAction env k u s).1 = .error m) :
    (sendAction env k u s).2.answered = s.answered := by
  unfold sendAction at h ⊢
  cases hb : getJSONBody env u with
  | error m' => rfl
  | ok body =>
    simp only [hb] at h ⊢
    cases hs : body.getProp "sender" with
    | none => rfl
    | some sender =>
      cases hm : body.getProp "message" with
      | none => rfl
      | some message =>
        simp only [hs, hm] at h ⊢
        cases hp : (sender.unprintable || message.unprintable) with
        | true => simp only [hp, if_true]
        | false =>
          simp only [hp, Bool.false_eq_true, if_false] at h ⊢
          cases ha : (appendMessageToLocalFeed env k sender message (.num (dateNow env s).1)
              (dateNow env s).2).1 with
          | error m' => simp only [ha]; simp
          | ok v =>
            simp only [ha] at h ⊢
            split at h
            · rename_i h3
              simp only [h3]
              simp
            · cases h

/-- A receive that throws has not called the callback. -/
theorem answered_receiveAction_error (env : Env) (k : RoomKey) (s : State) (m : String)
    (h : (receiveAction env k s).1 = .error m) :
    (receiveAction env k s).2.answered = s.answered := by
  obtain ⟨l, hl⟩ := replayAll_frames env s.nextStream k
    { s with nextStream := s.nextStream + 1, messageStream := some s.nextStream }
  unfold receiveAction at h ⊢
  simp only [] at h ⊢
  split
  · rfl
  · rename_i h1
    rw [if_neg h1] at h
    split
    · simp only [State.answered, State.emit, hl, responses_append, responses_frames]
      simp [responses]
    · rename_i h2
      rw [if_neg h2] at h
      cases h

/-- C10. Whenever the handling of a chat request throws an error with
message `M`, `handleChatRequest` itself returns normally, and the callback
is invoked once, as its last call, with status 500, `Content-Type:
text/plain` and the body `Error in chat request: ` followed by `M`. -/
theorem handleChatRequest_catch (env : Env) (req : Request) (s : State) (M : String)
    (hthrow : (handleChatBody env req s).1 = .error M) :
    (handleChatRequest env req s).1 = .ok ()
    ∧ (handleChatRequest env req s).2.trace
        = (handleChatBody env req s).2.trace
          ++ [Event.callback { statusCode := 500, headers := [("Content-Type", "text/plain")],
                               data := .text ("Error in chat request: " ++ M) }]
    ∧ (handleChatRequest env req s).2.answered
        = s.answered ++ [{ statusCode := 500, headers := [("Content-Type", "text/plain")],
                           data := .text ("Error in chat request: " ++ M) }] := by
  have hans : (handleChatBody env req s).2.answered = s.answered := by
    unfold handleChatBody at hthrow ⊢
    split
    · rename_i h1
      rw [if_pos h1] at hthrow
      cases hthrow
    · rename_i h1
      rw [if_neg h1] at hthrow
      split
      · rename_i h2
        rw [if_pos h2] at hthrow
        split
        · rfl
        · split
          · simp
          · rename_i h3 _ _ h4
            rw [if_neg h3] at hthrow
            simp only [h4] at hthrow
            cases hthrow
      · rename_i h2
        rw [if_neg h2] at hthrow
        split
        · rename_i h3
          rw [if_pos h3] at hthrow
          split
          · rfl
          · rename_i h4
            rw [if_neg h4] at hthrow
            exact answered_sendAction_error env _ _ s M hthrow
        · rename_i h3
          rw [if_neg h3] at hthrow
          split
          · rename_i h4
            rw [if_pos h4] at hthrow
            split
            · rfl
            · rename_i h5
              rw [if_neg h5] at hthrow
              exact answered_receiveAction_error env _ s M hthrow
          · rename_i h4
            rw [if_neg h4] at hthrow
            cases hthrow
  unfold handleChatRequest
  rw [hthrow]
  refine ⟨rfl, rfl, ?_⟩
  simp only []
  rw [answered_emit, hans]
  rfl

theorem handleChatRequest_catch_witness :
    (handleChatBody demoEnv (sendRequest "zz" hiUpload) joinedAb).1
      = .error "Local feed not initialized for room zz"
    ∧ (handleChatRequest demoEnv (sendRequest "zz" hiUpload) joinedAb).1 = .ok ()
    ∧ (handleChatRequest demoEnv (sendRequest "zz" hiUpload) joinedAb).2.answered
        = joinedAb.answered
          ++ [{ statusCode := 500, headers := [("Content-Type", "text/plain")],
                data := .text "Error in chat request: Local feed not initialized for room zz" }] :=
  ⟨rfl, (handleChatRequest_catch demoEnv (sendRequest "zz" hiUpload) joinedAb _ rfl).1,
    (handleChatRequest_catch demoEnv (sendRequest "zz" hiUpload) joinedAb _ rfl).2.2⟩

/-- C9. A chat request whose (method, action) is none of (POST,
create-key), (POST, join), (POST, send), (GET, receive), whatever its
roomKey and upload data: `handleChatRequest` returns normally, its one
call is the callback with status 400, `Content-Type: text/plain` and body
`Invalid chat action`, and the registry and the feeds are as before. -/
theorem handleChatRequest_invalid_action (env : Env) (req : Request) (s : State)
    (h : (req.method, req.action) ∉ chatRoutes) :
    handleChatRequest env req s
      = (.ok (), s.emit [Event.callback
          { statusCode := 400, headers := [("Content-Type", "text/plain")],
            data := .text "Invalid chat action" }])
    ∧ (handleChatRequest env req s).2.registry = s.registry
    ∧ (handleChatRequest env req s).2.feeds = s.feeds := by
  simp only [chatRoutes, List.mem_cons, Prod.mk.injEq, List.mem_singleton, not_or,
    List.not_mem_nil, or_false] at h
  obtain ⟨h1, h2, h3, h4⟩ := h
  have hb : handleChatBody env req s
      = (.ok (), s.emit [Event.callback (textResponse 400 "Invalid chat action")]) := by
    unfold handleChatBody
    rw [if_neg h1, if_neg h2, if_neg h3, if_neg h4]
  have hr : handleChatRequest env req s
      = (.ok (), s.emit [Event.callback (textResponse 400 "Invalid chat action")]) := by
    unfold handleChatRequest
    rw [hb]
  rw [hr]
  exact ⟨rfl, rfl, rfl⟩

theorem handleChatRequest_invalid_action_witness :
    (("GET", some "join") : String × Option String) ∉ chatRoutes
    ∧ handleChatRequest demoEnv
        { method := "GET", protocol := "hyper:", hostname := "chat", pathname := "/",
          action := some "join", roomKey := some "ab", uploadData := none } joinedAb
      = (.ok (), joinedAb.emit [Event.callback
          { statusCode := 400, headers := [("Content-Type", "text/plain")],
            data := .text "Invalid chat action" }]) :=
  ⟨(by decide),
    (handleChatRequest_invalid_action demoEnv
      { method := "GET", protocol := "hyper:", hostname := "chat", pathname := "/",
        action := some "join", roomKey := some "ab", uploadData := none } joinedAb
      (by decide)).1⟩

/-! ## A request without a roomKey -/

/-- C11, as the code has it. A join, send or receive request whose
`roomKey` query parameter is absent or empty: the roomKey check throws
`Missing roomKey in <action> request`, the `catch` turns it into the one
response of the request, with status 500, `Content-Type: text/plain` and
body `Error in chat request: Missing roomKey in <action> request`; nothing
else is recorded and the state is otherwise as before. -/
theorem handleChatRequest_missing_roomKey (env : Env) (req : Request) (s : State)
    (action : String) (haction : req.action = some action)
    (hroute : (req.method, action) ∈ roomRoutes) (hmissing : roomKeyMissing req.roomKey = true) :
    handleChatRequest env req s
      = (.ok (), s.emit [Event.callback
          { statusCode := 500, headers := [("Content-Type", "text/plain")],
            data := .text ("Error in chat request: "
              ++ ("Missing roomKey in " ++ action ++ " request")) }])
    ∧ statusCodes (eventsSince s (handleChatRequest env req s).2) = [500] := by
  have hb : handleChatBody env req s
      = (.error ("Missing roomKey in " ++ action ++ " request"), s) := by
    simp only [roomRoutes, List.mem_cons, Prod.mk.injEq, List.mem_singleton,
      List.not_mem_nil, or_false] at hroute
    unfold handleChatBody
    rcases hroute with ⟨hm, ha⟩ | ⟨hm, ha⟩ | ⟨hm, ha⟩
    · subst ha
      simp [hm, haction, hmissing]
    · subst ha
      simp [hm, haction, hmissing]
    · subst ha
      simp [hm, haction, hmissing]
  have hr : handleChatRequest env req s
      = (.ok (), s.emit [Event.callback (textResponse 500
          ("Error in chat request: " ++ ("Missing roomKey in " ++ action ++ " request")))]) := by
    unfold handleChatRequest
    rw [hb]
  rw [hr]
  refine ⟨?_, ?_⟩
  · rfl
  · simp [eventsSince, statusCodes, responses, textResponse]

theorem handleChatRequest_missing_roomKey_witness :
    joinNoRoomKey.action = some "join" ∧ (joinNoRoomKey.method, "join") ∈ roomRoutes
    ∧ roomKeyMissing joinNoRoomKey.roomKey = true
    ∧ statusCodes (eventsSince joinedAb (handleChatRequest demoEnv joinNoRoomKey joinedAb).2)
        = [500] :=
  ⟨rfl, (by decide), rfl,
    (handleChatRequest_missing_roomKey demoEnv joinNoRoomKey joinedAb "join" rfl (by decide)
      rfl).2⟩

/-- C11, as stated, fails: a join request without a roomKey is answered
with status 500, not 400. -/
theorem missing_roomKey_not_400 :
    statusCodes (eventsSince State.init (handleChatRequest demoEnv joinNoRoomKey State.init).2)
      = [500]
    ∧ statusCodes (eventsSince State.init (handleChatRequest demoEnv joinNoRoomKey State.init).2)
      ≠ [400] := by
  decide

/-! ## What a send does -/

theorem writtenPeers_of_noWriteFails (env : Env) (ps : List Peer) (h : NoWriteFails env ps) :
    writtenPeers env ps = livePeers env ps := by
  induction ps with
  | nil => rfl
  | cons p rest ih =>
    have hrest : NoWriteFails env rest := fun q hq => h q (List.mem_cons_of_mem _ hq)
    unfold writtenPeers livePeers
    by_cases hd : env.destroyed p.connection = true
    · simp only [hd, if_true, List.filter_cons, Bool.not_true]
      exact ih hrest
    · have hd' : env.destroyed p.connection = false := by simpa using hd
      have hw := h p (List.mem_cons_self _ _) hd'
      simp only [hd', hw, List.filter_cons, Bool.not_false, if_true]
      rw [ih hrest]
      rfl

theorem writePeers_fst_ok (env : Env) (data : String) (ps : List Peer) (s : State)
    (h : NoWriteFails env ps) : (writePeers env data ps s).1 = .ok () := by
  induction ps generalizing s with
  | nil => rfl
  | cons p rest ih =>
    have hrest : NoWriteFails env rest := fun q hq => h q (List.mem_cons_of_mem _ hq)
    unfold writePeers
    by_cases hd : env.destroyed p.connection = true
    · simp only [hd, if_true]
      exact ih _ hrest
    · have hd' : env.destroyed p.connection = false := by simpa using hd
      have hw := h p (List.mem_cons_self _ _) hd'
      simp only [hd', hw]
      exact ih _ hrest

theorem writePeers_fst_error (env : Env) (data : String) (ps : List Peer) (s : State)
    (h : ∃ p ∈ ps, env.destroyed p.connection = false ∧ ∃ m, env.writeError p.connection = some m) :
    ∃ m, (writePeers env data ps s).1 = .error m := by
  induction ps generalizing s with
  | nil =>
    obtain ⟨p, hp, _⟩ := h
    cases hp
  | cons p rest ih =>
    unfold writePeers
    by_cases hd : env.destroyed p.connection = true
    · simp only [hd, if_true]
      apply ih
      obtain ⟨q, hq, hq1, hq2⟩ := h
      rcases List.mem_cons.1 hq with e | e
      · subst e; rw [hd] at hq1; cases hq1
      · exact ⟨q, e, hq1, hq2⟩
    · have hd' : env.destroyed p.connection = false := by simpa using hd
      cases hw : env.writeError p.connection with
      | some m => exact ⟨m, by simp [hd']⟩
      | none =>
        simp only [hd']
        apply ih
        obtain ⟨q, hq, hq1, m, hq2⟩ := h
        rcases List.mem_cons.1 hq with e | e
        · subst e; rw [hw] at hq2; cases hq2
        · exact ⟨q, e, hq1, m, hq2⟩

/-- The state an accepted append to the local feed of a room leaves: the
entry at the end of the feed, and the run of the room's listener started. -/
theorem feedAppend_state (env : Env) (R : RoomKey) (f : FeedId) (v : JVal) (s : State)
    (hl : s.feedListeners f = [R]) (hstore : env.appendError f = none) :
    (feedAppend env f v s).2
      = emitAppend f [R] (s.updateFeed f (fun x => { x with entries := x.entries ++ [v] })) := by
  unfold feedAppend
  rw [hstore, hl]

/-- The state `appendMessageToLocalFeed` leaves on a room with a local
feed, the store accepting the append. -/
theorem appendMessageToLocalFeed_state (env : Env) (K : RoomKey)
    (sender message timestamp : JVal) (s : State) (f : FeedId)
    (hf : s.localRoomFeeds.get K = some f)
    (hl : s.feedListeners f = [K]) (hstore : env.appendError f = none) :
    (appendMessageToLocalFeed env K sender message timestamp s).2
      = emitAppend f [K] ((if timestamp.truthy then s else s.tick).updateFeed f
          (fun x => { x with entries := x.entries
            ++ [chatMessage sender message (storedTimestamp env timestamp s)] })) := by
  unfold appendMessageToLocalFeed storedTimestamp
  rw [JSObj.read_of_get hf]
  simp only [awaitAppend]
  split
  · exact feedAppend_state env K f _ s hl hstore
  · exact feedAppend_state env K f _ (dateNow env s).2 hl hstore

/-- A send on a room with a local feed, the store accepting the append and
no write to a peer throwing: what it returns and the state it leaves. -/
theorem sendAction_success (env : Env) (K : RoomKey) (u : Option (List Chunk)) (s : State)
    (body sender message : JVal) (f : FeedId)
    (hbody : getJSONBody env u = .ok body) (hsender : body.getProp "sender" = some sender)
    (hmessage : body.getProp "message" = some message)
    (hprint : (sender.unprintable || message.unprintable) = false)
    (hf : s.localRoomFeeds.get K = some f) (hlt : f < s.feeds.length)
    (hl : s.feedListeners f = [K]) (hstore : env.appendError f = none)
    (hw : NoWriteFails env s.peers) :
    (sendAction env K u s).1 = .ok ()
    ∧ (sendAction env K u s).2.trace = s.trace ++ sendEvents env K sender message s
    ∧ (sendAction env K u s).2.feeds
        = s.feeds.modify (fun x => { x with entries := x.entries
            ++ [sentEntry env sender message s] }) f := by
  have hA := appendMessageToLocalFeed_state env K sender message (.num (dateNow env s).1)
    (dateNow env s).2 f hf hl hstore
  have hA1 := (appendMessageToLocalFeed_ok env K sender message (.num (dateNow env s).1)
    (dateNow env s).2 f hf hlt hstore).1
  have hclock : (dateNow env (appendMessageToLocalFeed env K sender message
      (.num (dateNow env s).1) (dateNow env s).2).2).1
      = env.now (if env.now s.clock = 0 then s.clock + 2 else s.clock + 1) := by
    rw [hA]
    by_cases h0 : env.now s.clock = 0
    · simp [dateNow, State.tick, emitAppend, State.updateFeed, JVal.truthy, h0]
    · simp [dateNow, State.tick, emitAppend, State.updateFeed, JVal.truthy, h0]
  have hpeers : (dateNow env (appendMessageToLocalFeed env K sender message
      (.num (dateNow env s).1) (dateNow env s).2).2).2.peers = s.peers := by
    rw [hA]
    split <;> rfl
  have hw' : NoWriteFails env (dateNow env (appendMessageToLocalFeed env K sender message
      (.num (dateNow env s).1) (dateNow env s).2).2).2.peers := by
    rw [hpeers]; exact hw
  have hsent1 : ∀ data, (sendMessageToPeers env data (dateNow env (appendMessageToLocalFeed env K
      sender message (.num (dateNow env s).1) (dateNow env s).2).2).2).1 = .ok () := by
    intro data
    exact writePeers_fst_ok env data _ _ hw'
  unfold sendAction
  simp only [hbody, hsender, hmessage, hprint, Bool.false_eq_true, if_false, hA1, hsent1]
  refine ⟨trivial, ?_, ?_⟩
  · simp only [sendMessageToPeers, writePeers_eq, hpeers, writtenPeers_of_noWriteFails env _ hw,
      hclock, State.trace_emit]
    rw [hA]
    simp only [sendEvents, sentEntry, sendTimestamp, peerTimestamp, messageSent, jsonResponse]
    split <;> simp [dateNow, State.tick, emitAppend, State.updateFeed]
  · simp only [sendMessageToPeers, writePeers_eq, State.feeds_emit]
    rw [hA]
    simp only [sentEntry, sendTimestamp]
    split <;> simp [dateNow, State.tick, emitAppend, State.updateFeed]

/-! ## The send action, answered 200 -/

theorem handleChatRequest_of_ok (env : Env) (req : Request) (s : State)
    (h : (handleChatBody env req s).1 = .ok ()) :
    handleChatRequest env req s = (.ok (), (handleChatBody env req s).2) := by
  unfold handleChatRequest
  rw [h]

theorem handleChatRequest_of_error (env : Env) (req : Request) (s : State) (m : String)
    (h : (handleChatBody env req s).1 = .error m) :
    handleChatRequest env req s
      = (.ok (), (handleChatBody env req s).2.emit
          [Event.callback (textResponse 500 ("Error in chat request: " ++ m))]) := by
  unfold handleChatRequest
  rw [h]

theorem feedEntries_of_modify_ne {s t : State} {g : Feed → Feed} {f f' : FeedId} (h : f ≠ f')
    (ht : t.feeds = s.feeds.modify g f) : t.feedEntries f' = s.feedEntries f' := by
  simp only [State.feedEntries, ht, List.getElem?_modify_ne _ _ h]

/-- On a reachable state in which room `K` has a local feed, a send request
with a body `{sender, message}` whose two values convert to strings, the
store accepting the append and no write to a peer throwing: the request
returns normally; the entry `{sender, message, timestamp}` is appended to
K's local feed, once, and no other feed changes; the calls the handler
records are, in this order, one write of the JSON of `{sender, message,
timestamp, roomKey: K}` to each peer of the peer list whose connection is
not destroyed (none to the others), then the callback with
`200 application/json {"message":"Message sent"}`.  The timestamp of the
frame for the peers is the value of a second `Date.now()`. -/
theorem send_appends_and_broadcasts (env : Env) (K : String) (hK : K ≠ "")
    (u : Option (List Chunk)) (s : State) (body sender message : JVal) (f : FeedId)
    (hs : Reachable s) (hf : s.localRoomFeeds.get K = some f)
    (hbody : getJSONBody env u = .ok body) (hsender : body.getProp "sender" = some sender)
    (hmessage : body.getProp "message" = some message)
    (hprint : (sender.unprintable || message.unprintable) = false)
    (hstore : env.appendError f = none) (hw : NoWriteFails env s.peers) :
    (handleChatRequest env (sendRequest K u) s).1 = .ok ()
    ∧ (handleChatRequest env (sendRequest K u) s).2.feedEntries f
        = s.feedEntries f ++ [chatMessage sender message (sendTimestamp env s)]
    ∧ (∀ f', f' ≠ f →
        (handleChatRequest env (sendRequest K u) s).2.feedEntries f' = s.feedEntries f')
    ∧ eventsSince s (handleChatRequest env (sendRequest K u) s).2
        = (s.peers.filter (fun p => !env.destroyed p.connection)).map
              (fun p => Event.peerWrite p.connection (env.stringify
                (.obj [("sender", sender), ("message", message),
                  ("timestamp", peerTimestamp env s), ("roomKey", .str K)])))
          ++ [Event.callback
                { statusCode := 200, headers := [("Content-Type", "application/json")],
                  data := .text (env.stringify (.obj [("message", .str "Message sent")])) }] := by
  obtain ⟨h1, h2, h3⟩ := sendAction_success env K u s body sender message f hbody hsender
    hmessage hprint hf (hs.localFeed_lt hf) (hs.localFeed_listeners hf) hstore hw
  have hb : handleChatBody env (sendRequest K u) s = sendAction env K u s :=
    handleChatBody_send env K hK u s
  have hr : handleChatRequest env (sendRequest K u) s = (.ok (), (sendAction env K u s).2) := by
    rw [handleChatRequest_of_ok env _ s (by rw [hb]; exact h1), hb]
  rw [hr]
  refine ⟨rfl, ?_, ?_, ?_⟩
  · simp only [State.feedEntries, h3, List.getElem?_modify_eq]
    rw [List.getElem?_eq_getElem (hs.localFeed_lt hf)]
    rfl
  · intro f' hne
    exact feedEntries_of_modify_ne (Ne.symm hne) h3
  · simp only [eventsSince, h2, List.drop_left]
    rfl

theorem lookupField_of_absent (k : String) (fields : List (String × JVal))
    (h : k ∉ fields.map Prod.fst) : JVal.lookupField k fields = .undefined := by
  induction fields with
  | nil => rfl
  | cons e rest ih =>
    obtain ⟨k', v⟩ := e
    simp only [List.map_cons, List.mem_cons, not_or] at h
    simp only [JVal.lookupField, if_neg (Ne.symm h.1)]
    exact ih h.2

theorem responses_streamWrites {α : Type} (l : List α) (g : α → StreamId) (h : α → String) :
    responses (l.map (fun x => Event.streamWrite (g x) (h x))) = [] := by
  induction l with
  | nil => rfl
  | cons e rest ih => simpa [responses] using ih

theorem responses_peerWrites {α : Type} (l : List α) (g : α → ConnId) (h : α → String) :
    responses (l.map (fun x => Event.peerWrite (g x) (h x))) = [] := by
  induction l with
  | nil => rfl
  | cons e rest ih => simpa [responses] using ih

theorem responses_sendEvents (env : Env) (K : RoomKey) (sender message : JVal) (s : State) :
    responses (sendEvents env K sender message s) = [messageSent env] := by
  unfold sendEvents
  have h2 := responses_peerWrites (livePeers env s.peers) (fun p => p.connection)
    (fun _ => env.stringify (peerMessage sender message (peerTimestamp env s) K))
  simp only [] at h2
  rw [responses_append, h2]
  rfl

/-- C12, as the code has it. On a reachable state in which room `K` has a
local feed, a send request whose JSON body is an object without the
`sender` field or without the `message` field, the field it has converting
to a string, the store accepting the append and no write to a peer
throwing: the body is not validated; the absent field is read as
`undefined`, the entry `{sender, message, timestamp}` with it is appended
to K's local feed, and the one answer is
`200 application/json {"message":"Message sent"}`. -/
theorem send_without_field (env : Env) (K : String) (hK : K ≠ "")
    (u : Option (List Chunk)) (s : State) (fields : List (String × JVal)) (f : FeedId)
    (hs : Reachable s) (hf : s.localRoomFeeds.get K = some f)
    (hbody : getJSONBody env u = .ok (.obj fields))
    (hlacks : "sender" ∉ fields.map Prod.fst ∨ "message" ∉ fields.map Prod.fst)
    (hprint : (JVal.lookupField "sender" fields).unprintable = false
      ∧ (JVal.lookupField "message" fields).unprintable = false)
    (hstore : env.appendError f = none) (hw : NoWriteFails env s.peers) :
    (JVal.lookupField "sender" fields = .undefined
      ∨ JVal.lookupField "message" fields = .undefined)
    ∧ (handleChatRequest env (sendRequest K u) s).2.feedEntries f
        = s.feedEntries f ++ [chatMessage (JVal.lookupField "sender" fields)
            (JVal.lookupField "message" fields) (sendTimestamp env s)]
    ∧ (handleChatRequest env (sendRequest K u) s).2.answered
        = s.answered
          ++ [{ statusCode := 200, headers := [("Content-Type", "application/json")],
                data := .text (env.stringify (.obj [("message", .str "Message sent")])) }] := by
  obtain ⟨h1, h2, h3⟩ := sendAction_success env K u s (.obj fields)
    (JVal.lookupField "sender" fields) (JVal.lookupField "message" fields) f hbody rfl rfl
    (by rw [hprint.1, hprint.2]; rfl) hf
    (hs.localFeed_lt hf) (hs.localFeed_listeners hf) hstore hw
  have hb : handleChatBody env (sendRequest K u) s = sendAction env K u s :=
    handleChatBody_send env K hK u s
  have hr : handleChatRequest env (sendRequest K u) s = (.ok (), (sendAction env K u s).2) := by
    rw [handleChatRequest_of_ok env _ s (by rw [hb]; exact h1), hb]
  rw [hr]
  refine ⟨?_, ?_, ?_⟩
  · rcases hlacks with h | h
    · exact Or.inl (lookupField_of_absent _ _ h)
    · exact Or.inr (lookupField_of_absent _ _ h)
  · simp only [State.feedEntries, h3, List.getElem?_modify_eq]
    rw [List.getElem?_eq_getElem (hs.localFeed_lt hf)]
    rfl
  · simp only [State.answered, h2, responses_append, responses_sendEvents]
    rfl

theorem send_without_field_witness :
    "ab" ≠ "" ∧ Reachable joinedAb ∧ joinedAb.localRoomFeeds.get "ab" = some 0
    ∧ getJSONBody demoEnv noSenderUpload = .ok (.obj [("message", .str "hi")])
    ∧ "sender" ∉ [("message", JVal.str "hi")].map Prod.fst
    ∧ (JVal.lookupField "message" [("message", .str "hi")]).unprintable = false
    ∧ (handleChatRequest demoEnv (sendRequest "ab" noSenderUpload) joinedAb).2.feedEntries 0
        = joinedAb.feedEntries 0 ++ [chatMessage (JVal.lookupField "sender" [("message", .str "hi")])
            (JVal.lookupField "message" [("message", .str "hi")]) (sendTimestamp demoEnv joinedAb)] :=
  ⟨(by decide), reachable_joinedAb, rfl, rfl, (by decide), rfl,
    (send_without_field demoEnv "ab" (by decide) noSenderUpload joinedAb [("message", .str "hi")] 0
      reachable_joinedAb rfl rfl (Or.inl (by decide)) ⟨rfl, rfl⟩ rfl
      (fun _ hp _ => nomatch hp)).2.1⟩

/-- C12, as stated, fails: a send to the joined room `ab` with the body
`{"message":"hi"}`, which has no `sender`, is answered 200, not 400, and
the local feed has one entry more. -/
theorem send_without_sender_is_accepted :
    statusCodes (eventsSince joinedAb
      (handleChatRequest demoEnv (sendRequest "ab" noSenderUpload) joinedAb).2) = [200]
    ∧ statusCodes (eventsSince joinedAb
      (handleChatRequest demoEnv (sendRequest "ab" noSenderUpload) joinedAb).2) ≠ [400]
    ∧ joinedAb.feedLength 0 = 0
    ∧ (handleChatRequest demoEnv (sendRequest "ab" noSenderUpload) joinedAb).2.feedLength 0 = 1 := by
  decide

/-! ## The send action, answered with an error -/

/-- What a send to a room without a local feed does, in each case: it
throws with nothing recorded and no feed changed.  When the body is read
and its sender and message convert to strings, the error is that of the
guard of `appendMessageToLocalFeed`, unless the room key is a name
inherited from `Object.prototype`: then the guard is passed and the error
is that of the call of `feed.append`. -/
theorem sendAction_not_joined (env : Env) (K : RoomKey) (u : Option (List Chunk)) (s : State)
    (hnone : s.localRoomFeeds.get K = none) :
    ∃ m, (sendAction env K u s).1 = .error m
      ∧ (sendAction env K u s).2.trace = s.trace ∧ (sendAction env K u s).2.feeds = s.feeds
      ∧ (∀ body sender message, getJSONBody env u = .ok body →
          body.getProp "sender" = some sender → body.getProp "message" = some message →
          (sender.unprintable || message.unprintable) = false →
          (K ∉ objectPrototypeNames → m = "Local feed not initialized for room " ++ K)
          ∧ (K ∈ objectPrototypeNames → m = "feed.append is not a function")) := by
  unfold sendAction
  cases hb : getJSONBody env u with
  | error m' =>
    refine ⟨m', rfl, rfl, rfl, ?_⟩
    intro body sender message h
    cases h
  | ok body =>
    simp only []
    cases hs : body.getProp "sender" with
    | none =>
      refine ⟨_, rfl, rfl, rfl, ?_⟩
      intro body' sender message h h1 _
      cases h
      rw [hs] at h1
      cases h1
    | some sender =>
      cases hm : body.getProp "message" with
      | none =>
        refine ⟨_, rfl, rfl, rfl, ?_⟩
        intro body' sender' message h _ h2
        cases h
        rw [hm] at h2
        cases h2
      | some message =>
        simp only []
        cases hp : (sender.unprintable || message.unprintable) with
        | true =>
          rw [if_pos rfl]
          refine ⟨_, rfl, rfl, rfl, ?_⟩
          intro body' sender' message' h h1 h2 h3
          cases h
          rw [hs] at h1
          rw [hm] at h2
          cases h1
          cases h2
          rw [hp] at h3
          cases h3
        | false =>
          rw [if_neg Bool.false_ne_true]
          have hnone' : (dateNow env s).2.localRoomFeeds.get K = none := hnone
          by_cases hk : K ∈ objectPrototypeNames
          · have ha : (appendMessageToLocalFeed env K sender message (.num (dateNow env s).1)
                (dateNow env s).2).1 = .error "feed.append is not a function" := by
              unfold appendMessageToLocalFeed
              rw [JSObj.read_of_inherited hnone' hk]
              simp only []
              split <;> rfl
            have ht : (appendMessageToLocalFeed env K sender message (.num (dateNow env s).1)
                (dateNow env s).2).2.trace = s.trace := by
              unfold appendMessageToLocalFeed
              rw [JSObj.read_of_inherited hnone' hk]
              simp only []
              split <;> rfl
            have hfeeds : (appendMessageToLocalFeed env K sender message (.num (dateNow env s).1)
                (dateNow env s).2).2.feeds = s.feeds := by
              unfold appendMessageToLocalFeed
              rw [JSObj.read_of_inherited hnone' hk]
              simp only []
              split <;> rfl
            simp only [ha]
            refine ⟨_, rfl, ht, hfeeds, ?_⟩
            intro _ _ _ _ _ _ _
            exact ⟨fun h => absurd hk h, fun _ => rfl⟩
          · have ha : appendMessageToLocalFeed env K sender message (.num (dateNow env s).1)
                (dateNow env s).2
                = (.error ("Local feed not initialized for room " ++ K), s.tick) := by
              unfold appendMessageToLocalFeed
              rw [JSObj.read_of_absent hnone' hk]
              rfl
            simp only [ha]
            refine ⟨_, rfl, rfl, rfl, ?_⟩
            intro _ _ _ _ _ _ _
            exact ⟨fun _ => rfl, fun h => absurd h hk⟩

/-- A send request for a room `K` that has no local feed: the one call
recorded is the callback with status 500 and `Content-Type: text/plain`; no
feed is changed and nothing is written to a peer (or to a stream); and
when the body is readable JSON whose `sender` and `message` convert to
strings, and `K` is no name inherited from `Object.prototype`, the body of
the answer is `Error in chat request: Local feed not initialized for room
K`. -/
theorem send_not_joined (env : Env) (K : String) (hK : K ≠ "") (u : Option (List Chunk))
    (s : State) (hnone : s.localRoomFeeds.get K = none) :
    (∃ m, eventsSince s (handleChatRequest env (sendRequest K u) s).2
        = [Event.callback { statusCode := 500, headers := [("Content-Type", "text/plain")],
                            data := .text ("Error in chat request: " ++ m) }])
    ∧ (handleChatRequest env (sendRequest K u) s).2.feeds = s.feeds
    ∧ (eventsSince s (handleChatRequest env (sendRequest K u) s).2).countP Event.isPeerWrite = 0
    ∧ (∀ body sender message, getJSONBody env u = .ok body →
        body.getProp "sender" = some sender → body.getProp "message" = some message →
        (sender.unprintable || message.unprintable) = false → K ∉ objectPrototypeNames →
        eventsSince s (handleChatRequest env (sendRequest K u) s).2
          = [Event.callback { statusCode := 500, headers := [("Content-Type", "text/plain")],
                              data := .text ("Error in chat request: "
                                ++ ("Local feed not initialized for room " ++ K)) }]) := by
  obtain ⟨m, h1, h2, h2', h3⟩ := sendAction_not_joined env K u s hnone
  have hb : handleChatBody env (sendRequest K u) s = sendAction env K u s :=
    handleChatBody_send env K hK u s
  have hr := handleChatRequest_of_error env (sendRequest K u) s m (by rw [hb]; exact h1)
  rw [hb] at hr
  have hev : eventsSince s (handleChatRequest env (sendRequest K u) s).2
      = [Event.callback (textResponse 500 ("Error in chat request: " ++ m))] := by
    rw [hr]
    simp [eventsSince, h2]
  refine ⟨⟨m, hev⟩, ?_, ?_, ?_⟩
  · rw [hr]
    exact h2'
  · rw [hev]; rfl
  · intro body sender message hbody hs hm hp hk
    rw [hev, (h3 body sender message hbody hs hm hp).1 hk]
    rfl

/-- A send whose append is accepted and whose broadcast meets a write that
throws: it throws, and the entry is in the feed. -/
theorem sendAction_write_throws (env : Env) (K : RoomKey) (u : Option (List Chunk)) (s : State)
    (body sender message : JVal) (f : FeedId)
    (hbody : getJSONBody env u = .ok body) (hsender : body.getProp "sender" = some sender)
    (hmessage : body.getProp "message" = some message)
    (hprint : (sender.unprintable || message.unprintable) = false)
    (hf : s.localRoomFeeds.get K = some f) (hlt : f < s.feeds.length)
    (hstore : env.appendError f = none)
    (hfail : ∃ p ∈ s.peers, env.destroyed p.connection = false
      ∧ ∃ m, env.writeError p.connection = some m) :
    (∃ m, (sendAction env K u s).1 = .error m)
    ∧ (sendAction env K u s).2.feedEntries f
        = s.feedEntries f ++ [chatMessage sender message (sendTimestamp env s)] := by
  obtain ⟨h1, h2⟩ := appendMessageToLocalFeed_ok env K sender message (.num (dateNow env s).1)
    (dateNow env s).2 f hf hlt hstore
  have hpeers : (dateNow env (appendMessageToLocalFeed env K sender message
      (.num (dateNow env s).1) (dateNow env s).2).2).2.peerList = s.peerList := by
    simp
  have hfail' : ∃ p ∈ (dateNow env (appendMessageToLocalFeed env K sender message
      (.num (dateNow env s).1) (dateNow env s).2).2).2.peers,
      env.destroyed p.connection = false ∧ ∃ m, env.writeError p.connection = some m := by
    have e : (dateNow env (appendMessageToLocalFeed env K sender message
      (.num (dateNow env s).1) (dateNow env s).2).2).2.peers = s.peers := hpeers
    rw [e]; exact hfail
  obtain ⟨m, hm⟩ := writePeers_fst_error env
    (env.stringify (peerMessage sender message (.num (dateNow env (appendMessageToLocalFeed env K
      sender message (.num (dateNow env s).1) (dateNow env s).2).2).1) K)) _
    (dateNow env (appendMessageToLocalFeed env K sender message
      (.num (dateNow env s).1) (dateNow env s).2).2).2 hfail'
  unfold sendAction
  simp only [hbody, hsender, hmessage, hprint, Bool.false_eq_true, if_false, h1,
    sendMessageToPeers, hm]
  refine ⟨⟨m, rfl⟩, ?_⟩
  rw [feedEntries_congr (feeds_writePeers _ _ _ _)]
  exact h2

/-- C15. On a reachable state in which room `K` has a local feed, a send
request with body `{sender, message}` whose append to the local feed
succeeds (the sender and the message convert to strings, so that the send
gets as far as the append, and the store accepts it) and in whose
broadcast a write to a peer that is not destroyed throws: the request is
answered with the error (status 500, the one answer), and the entry stays
in K's local feed, whose length is one more than before. -/
theorem send_write_throws_keeps_entry (env : Env) (K : String) (hK : K ≠ "")
    (u : Option (List Chunk)) (s : State) (body sender message : JVal) (f : FeedId)
    (hs : Reachable s) (hf : s.localRoomFeeds.get K = some f)
    (hbody : getJSONBody env u = .ok body) (hsender : body.getProp "sender" = some sender)
    (hmessage : body.getProp "message" = some message)
    (hprint : (sender.unprintable || message.unprintable) = false)
    (hstore : env.appendError f = none)
    (hfail : ∃ p ∈ s.peers, env.destroyed p.connection = false
      ∧ ∃ m, env.writeError p.connection = some m) :
    (∃ m, (handleChatRequest env (sendRequest K u) s).2.answered
        = s.answered ++ [{ statusCode := 500, headers := [("Content-Type", "text/plain")],
                           data := .text ("Error in chat request: " ++ m) }])
    ∧ (handleChatRequest env (sendRequest K u) s).2.feedLength f = s.feedLength f + 1
    ∧ (handleChatRequest env (sendRequest K u) s).2.feedEntries f
        = s.feedEntries f ++ [chatMessage sender message (sendTimestamp env s)] := by
  obtain ⟨⟨m, h1⟩, h2⟩ := sendAction_write_throws env K u s body sender message f hbody hsender
    hmessage hprint hf (hs.localFeed_lt hf) hstore hfail
  have hb : handleChatBody env (sendRequest K u) s = sendAction env K u s :=
    handleChatBody_send env K hK u s
  have hr := handleChatRequest_of_error env (sendRequest K u) s m (by rw [hb]; exact h1)
  rw [hb] at hr
  have he : (handleChatRequest env (sendRequest K u) s).2.feedEntries f
      = s.feedEntries f ++ [chatMessage sender message (sendTimestamp env s)] := by
    rw [hr]
    exact h2
  refine ⟨⟨m, ?_⟩, ?_, he⟩
  · rw [hr]
    simp only []
    rw [answered_emit, answered_sendAction_error env K u s m h1]
    rfl
  · simp [State.feedLength, he]

theorem send_write_throws_keeps_entry_witness :
    "ab" ≠ "" ∧ Reachable roomWithPeers ∧ roomWithPeers.localRoomFeeds.get "ab" = some 0
    ∧ ((JVal.str "a").unprintable || (JVal.str "hi").unprintable) = false
    ∧ demoEnvThrow.appendError 0 = none
    ∧ (∃ p ∈ roomWithPeers.peers, demoEnvThrow.destroyed p.connection = false
        ∧ ∃ m, demoEnvThrow.writeError p.connection = some m)
    ∧ (handleChatRequest demoEnvThrow (sendRequest "ab" hiUpload) roomWithPeers).2.feedLength 0
        = roomWithPeers.feedLength 0 + 1 :=
  ⟨(by decide), Reachable.init.run _, rfl, rfl, rfl,
    ⟨{ connection := 9, shortID := "peer" }, List.Mem.tail _ (List.Mem.head _), rfl,
      "write after end", rfl⟩,
    (send_write_throws_keeps_entry demoEnvThrow "ab" (by decide) hiUpload roomWithPeers
      (.obj [("sender", .str "a"), ("message", .str "hi")]) (.str "a") (.str "hi") 0
      (Reachable.init.run _) rfl rfl rfl rfl rfl rfl
      ⟨{ connection := 9, shortID := "peer" }, List.Mem.tail _ (List.Mem.head _), rfl,
      "write after end", rfl⟩).2.1⟩

/-! ## Frames that are not hello messages -/

/-- C16 fails on the code: the frames `null`, `5` and `"hi"` are valid
JSON, so the `catch` around `JSON.parse` is not entered; on `null` reading
`msg.type` throws, on the number and the string the write `msg.sender =
shortID` throws (strict mode), and the data handler raises instead of
treating the frame as a chat message.  A frame that is not JSON does not
raise. -/
theorem onData_raises_on_non_object :
    (onData demoEnv 7 "peer" "null" joinedAb).1
      = .error "Cannot read properties of null (reading 'type')"
    ∧ (onData demoEnv 7 "peer" "5" joinedAb).1
      = .error "Cannot create property 'sender' on number '5'"
    ∧ (onData demoEnv 7 "peer" "\"hi\"" joinedAb).1
      = .error "Cannot create property 'sender' on string 'hi'"
    ∧ (onData demoEnv 7 "peer" "not json" joinedAb).1 = .ok () := by
  exact ⟨rfl, rfl, rfl, rfl⟩

theorem lookupField_assignField_self (k : String) (x : JVal) (fields : List (String × JVal)) :
    JVal.lookupField k (JVal.assignField k x fields) = x := by
  induction fields with
  | nil => simp [JVal.assignField, JVal.lookupField]
  | cons e rest ih =>
    obtain ⟨k', v⟩ := e
    by_cases h : k' = k
    · simp [JVal.assignField, JVal.lookupField, h]
    · simp [JVal.assignField, JVal.lookupField, h, ih]

theorem lookupField_assignField_ne {k k' : String} (x : JVal) (fields : List (String × JVal))
    (h : k' ≠ k) :
    JVal.lookupField k' (JVal.assignField k x fields) = JVal.lookupField k' fields := by
  induction fields with
  | nil => simp [JVal.assignField, JVal.lookupField, Ne.symm h]
  | cons e rest ih =>
    obtain ⟨k1, v⟩ := e
    by_cases h1 : k1 = k
    · subst h1
      simp [JVal.assignField, JVal.lookupField, Ne.symm h]
    · by_cases h2 : k1 = k'
      · subst h2
        simp [JVal.assignField, JVal.lookupField, h1]
      · simp [JVal.assignField, JVal.lookupField, h1, h2, ih]

/-- The chat branch of the data handler, with the reads of the rewritten
message resolved: the sender is the short id, the message and the roomKey
are the payload's, the timestamp is the payload's when truthy. -/
theorem onChatMessage_eq (env : Env) (sid : String) (fields : List (String × JVal)) (s : State) :
    onChatMessage env sid fields s
      = if (JVal.lookupField "roomKey" fields).truthy
            && (JVal.lookupField "roomKey" fields).unprintable then
          (.error convertError, if (JVal.lookupField "timestamp" fields).truthy then s else s.tick)
        else
          (.ok (),
            if (JVal.lookupField "roomKey" fields).truthy
                && s.localRoomFeeds.has (env.key (JVal.lookupField "roomKey" fields)) then
              (appendMessageToLocalFeed env (env.key (JVal.lookupField "roomKey" fields)) (.str sid)
                (JVal.lookupField "message" fields)
                (if (JVal.lookupField "timestamp" fields).truthy
                  then JVal.lookupField "timestamp" fields else .num (env.now s.clock))
                (if (JVal.lookupField "timestamp" fields).truthy then s else s.tick)).2
            else if (JVal.lookupField "timestamp" fields).truthy then s else s.tick) := by
  unfold onChatMessage
  have e1 : ∀ (x : JVal) (fs : List (String × JVal)),
      JVal.lookupField "timestamp" (JVal.assignField "sender" x fs)
        = JVal.lookupField "timestamp" fs :=
    fun x fs => lookupField_assignField_ne x fs (by decide)
  have e2 : ∀ (x : JVal) (fs : List (String × JVal)),
      JVal.lookupField "roomKey" (JVal.assignField "sender" x fs)
        = JVal.lookupField "roomKey" fs :=
    fun x fs => lookupField_assignField_ne x fs (by decide)
  have e3 : ∀ (x : JVal) (fs : List (String × JVal)),
      JVal.lookupField "message" (JVal.assignField "sender" x fs)
        = JVal.lookupField "message" fs :=
    fun x fs => lookupField_assignField_ne x fs (by decide)
  have e4 : ∀ (x : JVal) (fs : List (String × JVal)),
      JVal.lookupField "roomKey" (JVal.assignField "timestamp" x fs)
        = JVal.lookupField "roomKey" fs :=
    fun x fs => lookupField_assignField_ne x fs (by decide)
  have e5 : ∀ (x : JVal) (fs : List (String × JVal)),
      JVal.lookupField "message" (JVal.assignField "timestamp" x fs)
        = JVal.lookupField "message" fs :=
    fun x fs => lookupField_assignField_ne x fs (by decide)
  have e6 : ∀ (x : JVal) (fs : List (String × JVal)),
      JVal.lookupField "sender" (JVal.assignField "timestamp" x fs)
        = JVal.lookupField "sender" fs :=
    fun x fs => lookupField_assignField_ne x fs (by decide)
  have hl : (dateNow env s).2.localRoomFeeds = s.localRoomFeeds := rfl
  by_cases hu : ((JVal.lookupField "roomKey" fields).truthy
      && (JVal.lookupField "roomKey" fields).unprintable) = true
  · by_cases hts : (JVal.lookupField "timestamp" fields).truthy = true
    · simp only [e1, e2, e3, hts, if_true, lookupField_assignField_self, hu]
    · simp only [e1, e2, e3, e4, e5, e6, hts, lookupField_assignField_self, hl, hu, if_true,
        Bool.false_eq_true, if_false]
      rfl
  · by_cases hc : ((JVal.lookupField "roomKey" fields).truthy
        && s.localRoomFeeds.has (env.key (JVal.lookupField "roomKey" fields))) = true
    · by_cases hts : (JVal.lookupField "timestamp" fields).truthy = true
      · simp only [e1, e2, e3, hts, if_true, lookupField_assignField_self, hc, hu,
          Bool.false_eq_true, if_false]
      · simp only [e1, e2, e3, e4, e5, e6, hts, lookupField_assignField_self, hl, hc, hu,
          if_true, Bool.false_eq_true, if_false]
        rfl
    · by_cases hts : (JVal.lookupField "timestamp" fields).truthy = true
      · simp only [e1, e2, e3, hts, if_true, lookupField_assignField_self, hc, hu,
          Bool.false_eq_true, if_false]
      · simp only [e1, e2, e3, e4, e5, e6, hts, lookupField_assignField_self, hl, hc, hu,
          if_true, Bool.false_eq_true, if_false]
        rfl

theorem onData_of_chat_object (env : Env) (conn : ConnId) (sid raw : String)
    (fields : List (String × JVal)) (s : State) (hparse : env.parse raw = .ok (.obj fields))
    (hshape : LacksHelloShape fields) :
    onData env conn sid raw s = onChatMessage env sid fields s := by
  unfold onData
  rw [hparse]
  unfold onMessage
  simp only [JVal.getProp, JVal.namedFields]
  unfold LacksHelloShape at hshape
  rw [if_neg]
  simpa [Bool.and_eq_true, and_assoc] using hshape

theorem appendMessageToLocalFeed_other (env : Env) (K : RoomKey) (a b c : JVal) (s : State)
    (f f' : FeedId) (hf : s.localRoomFeeds.get K = some f) (h : f ≠ f') :
    (appendMessageToLocalFeed env K a b c s).2.feedEntries f' = s.feedEntries f' := by
  unfold appendMessageToLocalFeed
  rw [JSObj.read_of_get hf]
  simp only [awaitAppend]
  split
  · exact feedAppend_other env _ s h
  · exact feedAppend_other env _ (dateNow env s).2 h

theorem appendMessageToLocalFeed_feeds_of_none (env : Env) (K : RoomKey) (a b c : JVal)
    (s : State) (h : s.localRoomFeeds.get K = none) :
    (appendMessageToLocalFeed env K a b c s).2.feeds = s.feeds := by
  unfold appendMessageToLocalFeed
  by_cases hk : K ∈ objectPrototypeNames
  · rw [JSObj.read_of_inherited h hk]
    simp only []
    split <;> rfl
  · rw [JSObj.read_of_absent h hk]

/-- C17, as the code has it. On a reachable state, a `data` event whose
frame parses to a JSON object without the hello shape: when the payload's
`roomKey` converts to a property key, the handler returns normally. When
the `roomKey` is truthy and converts, and a local feed exists under its
key, the store accepting the append, the entry `{sender, message,
timestamp}` is appended to that feed and no other feed changes: its sender
is the short id of the delivering peer whatever the payload says, its
message is the payload's, its timestamp is the payload's when that is
truthy and the current time otherwise (an absent timestamp, and a present
0, empty string, null or false alike). When the payload has no `roomKey`,
or no local feed exists under the key of its `roomKey`, no feed changes. -/
theorem chat_frame_appends (env : Env) (conn : ConnId) (sid raw : String)
    (fields : List (String × JVal)) (s : State) (hs : Reachable s)
    (hparse : env.parse raw = .ok (.obj fields)) (hshape : LacksHelloShape fields) :
    ((JVal.lookupField "roomKey" fields).unprintable = false →
        (onData env conn sid raw s).1 = .ok ())
    ∧ (∀ f, (JVal.lookupField "roomKey" fields).truthy = true →
        (JVal.lookupField "roomKey" fields).unprintable = false →
        s.localRoomFeeds.get (env.key (JVal.lookupField "roomKey" fields)) = some f →
        env.appendError f = none →
        (onData env conn sid raw s).2.feedEntries f
            = s.feedEntries f ++ [chatMessage (.str sid) (JVal.lookupField "message" fields)
                (receivedTimestamp env (JVal.lookupField "timestamp" fields) s)]
        ∧ ∀ f', f' ≠ f → (onData env conn sid raw s).2.feedEntries f' = s.feedEntries f')
    ∧ ((JVal.lookupField "roomKey" fields = .undefined
          ∨ s.localRoomFeeds.get (env.key (JVal.lookupField "roomKey" fields)) = none) →
        (onData env conn sid raw s).2.feeds = s.feeds)
    ∧ ((JVal.lookupField "timestamp" fields).truthy = true →
        receivedTimestamp env (JVal.lookupField "timestamp" fields) s
          = JVal.lookupField "timestamp" fields)
    ∧ ((JVal.lookupField "timestamp" fields).truthy = false → env.now s.clock ≠ 0 →
        receivedTimestamp env (JVal.lookupField "timestamp" fields) s
          = .num (env.now s.clock)) := by
  rw [onData_of_chat_object env conn sid raw fields s hparse hshape, onChatMessage_eq]
  refine ⟨?_, ?_, ?_, ?_, ?_⟩
  · intro hp
    simp [hp]
  · intro f hrk hp hf hstore
    have hc : ((JVal.lookupField "roomKey" fields).truthy
        && s.localRoomFeeds.has (env.key (JVal.lookupField "roomKey" fields))) = true := by
      simp [hrk, JSObj.has_of_get hf]
    simp only [hp, Bool.and_false, Bool.false_eq_true, if_false, hc, if_true]
    by_cases hts : (JVal.lookupField "timestamp" fields).truthy = true
    · simp only [hts, if_true, receivedTimestamp]
      obtain ⟨_, h2⟩ := appendMessageToLocalFeed_ok env _ (.str sid)
        (JVal.lookupField "message" fields) (JVal.lookupField "timestamp" fields) s f hf
        (hs.localFeed_lt hf) hstore
      refine ⟨?_, fun f' hne => appendMessageToLocalFeed_other env _ _ _ _ s f f' hf (Ne.symm hne)⟩
      rw [h2]
      simp [storedTimestamp, hts]
    · simp only [hts, receivedTimestamp, Bool.false_eq_true, if_false]
      have hf' : s.tick.localRoomFeeds.get (env.key (JVal.lookupField "roomKey" fields)) = some f := hf
      obtain ⟨_, h2⟩ := appendMessageToLocalFeed_ok env _ (.str sid)
        (JVal.lookupField "message" fields) (.num (env.now s.clock)) s.tick f hf'
        (hs.localFeed_lt hf) hstore
      refine ⟨?_, fun f' hne =>
        appendMessageToLocalFeed_other env _ _ _ _ s.tick f f' hf' (Ne.symm hne)⟩
      rw [h2]
      rfl
  · intro hno
    have hstay : (if (JVal.lookupField "timestamp" fields).truthy = true then s else s.tick).feeds
        = s.feeds := by
      split <;> rfl
    split
    · exact hstay
    · simp only []
      split
      · rename_i hc
        have hg : s.localRoomFeeds.get (env.key (JVal.lookupField "roomKey" fields)) = none := by
          rcases hno with h | h
          · rw [h] at hc
            simp [JVal.truthy] at hc
          · exact h
        have hg' : (if (JVal.lookupField "timestamp" fields).truthy = true then s
            else s.tick).localRoomFeeds.get (env.key (JVal.lookupField "roomKey" fields)) = none := by
          split <;> exact hg
        rw [appendMessageToLocalFeed_feeds_of_none _ _ _ _ _ _ hg']
        exact hstay
      · exact hstay
  · intro hts
    simp [receivedTimestamp, hts]
  · intro hts hnow
    unfold receivedTimestamp storedTimestamp
    rw [hts]
    have h1 : (JVal.num (env.now s.clock : Int)).truthy = true := by
      simpa [JVal.truthy] using hnow
    simp [h1]

theorem chat_frame_appends_witness :
    Reachable joinedAb
    ∧ demoEnv.parse chatFrame
        = .ok (.obj [("sender", .str "mallory"), ("message", .str "yo"), ("roomKey", .str "ab"),
            ("timestamp", .num 5)])
    ∧ LacksHelloShape [("sender", .str "mallory"), ("message", .str "yo"), ("roomKey", .str "ab"),
        ("timestamp", .num 5)]
    ∧ (onData demoEnv 7 "peer" chatFrame joinedAb).1 = .ok ()
    ∧ (onData demoEnv 7 "peer" chatFrame joinedAb).2.feedEntries 0
        = joinedAb.feedEntries 0 ++ [chatMessage (.str "peer") (.str "yo") (.num 5)] :=
  ⟨reachable_joinedAb, rfl, (fun h => Bool.noConfusion h.1),
    (chat_frame_appends demoEnv 7 "peer" chatFrame _ joinedAb reachable_joinedAb rfl
      (fun h => Bool.noConfusion h.1)).1 rfl,
    ((chat_frame_appends demoEnv 7 "peer" chatFrame _ joinedAb reachable_joinedAb rfl
      (fun h => Bool.noConfusion h.1)).2.1 0 rfl rfl rfl rfl).1⟩

/-- C17, as stated, fails. A chat frame for the joined room `ab` whose
payload has the timestamp 0: the timestamp is present, and the entry
appended carries the current time, not 0. -/
theorem chat_frame_timestamp_zero :
    demoEnv.parse "\x7b\"message\":\"yo\",\"roomKey\":\"ab\",\"timestamp\":0\x7d"
      = .ok (.obj [("message", .str "yo"), ("roomKey", .str "ab"), ("timestamp", .num 0)])
    ∧ joinedAb.localRoomFeeds.get "ab" = some 0
    ∧ (onData demoEnv 7 "peer"
        "\x7b\"message\":\"yo\",\"roomKey\":\"ab\",\"timestamp\":0\x7d" joinedAb).2.feedEntries 0
      = [chatMessage (.str "peer") (.str "yo") (.num 1700000000000)]
    ∧ (onData demoEnv 7 "peer"
        "\x7b\"message\":\"yo\",\"roomKey\":\"ab\",\"timestamp\":0\x7d" joinedAb).2.feedEntries 0
      ≠ [chatMessage (.str "peer") (.str "yo") (.num 0)] := by
  refine ⟨rfl, rfl, rfl, ?_⟩
  intro h
  have e : (onData demoEnv 7 "peer"
      "\x7b\"message\":\"yo\",\"roomKey\":\"ab\",\"timestamp\":0\x7d" joinedAb).2.feedEntries 0
      = [chatMessage (.str "peer") (.str "yo") (.num 1700000000000)] := rfl
  rw [e] at h
  simp [chatMessage] at h

/-- A chat frame whose roomKey is the number 0, room `0` being joined: the
message carries a roomKey under whose key a local feed exists, the test
`msg.roomKey && ...` is falsy, and nothing is appended. -/
theorem chat_frame_roomKey_zero :
    demoEnv.parse "\x7b\"message\":\"yo\",\"roomKey\":0\x7d"
      = .ok (.obj [("message", .str "yo"), ("roomKey", .num 0)])
    ∧ joinedZero.localRoomFeeds.get (demoEnv.key (JVal.num 0)) = some 0
    ∧ joinedZero.feedLength 0 = 0
    ∧ (onData demoEnv 7 "peer" "\x7b\"message\":\"yo\",\"roomKey\":0\x7d"
        joinedZero).2.feedLength 0 = 0 :=
  ⟨rfl, rfl, rfl, rfl⟩

/-! ## Replication on connections and the hello gossip -/

theorem JSObj.ownEntries_perm {α : Type} (o : JSObj α) : o.ownEntries.Perm o := by
  unfold JSObj.ownEntries
  have h1 : ((JSObj.indexed o).insertionSort (fun a b => a.1 ≤ b.1)).map (fun p => p.2)
      = ((JSObj.indexed o).insertionSort (fun a b => a.1 ≤ b.1)).map Prod.snd := rfl
  have h2 : ((JSObj.indexed o).map Prod.snd) = o.filter (fun e => (arrayIndex e.1).isSome) := by
    unfold JSObj.indexed
    induction o with
    | nil => rfl
    | cons e rest ih =>
      cases hi : arrayIndex e.1 with
      | none => simp [List.filterMap_cons, List.filter_cons, hi, ih]
      | some i => simp [List.filterMap_cons, List.filter_cons, hi, ih]
  have h3 : o.filter (fun e => (arrayIndex e.1).isNone)
      = o.filter (fun e => !(arrayIndex e.1).isSome) := by
    congr 1
    funext e
    cases arrayIndex e.1 <;> rfl
  rw [h3]
  refine List.Perm.trans ?_ (List.filter_append_perm (fun e => (arrayIndex e.1).isSome) o)
  refine List.Perm.append ?_ (List.Perm.refl _)
  rw [← h2]
  exact (List.perm_insertionSort _ _).map _

theorem filter_isReplicate_streamWrites (l : List StreamId) (frame : String) :
    (l.map (fun st => Event.streamWrite st frame)).filter Event.isReplicate = [] := by
  induction l with
  | nil => rfl
  | cons e rest ih => simp [List.filter_cons, Event.isReplicate, ih]

theorem filter_isReplicate_replicates (l : List (String × FeedId)) (c : ConnId) :
    (l.map (fun e => Event.replicate e.2 c)).filter Event.isReplicate
      = l.map (fun e => Event.replicate e.2 c) := by
  induction l with
  | nil => rfl
  | cons e rest ih => simp [List.filter_cons, Event.isReplicate, ih]

theorem filter_isReplicate_replicateAll (c : ConnId) (s : State) :
    (replicateAll c s).filter Event.isReplicate = replicateAll c s := by
  unfold replicateAll
  rw [List.filter_append, filter_isReplicate_replicates]
  congr 1
  generalize s.remoteRoomFeeds.ownEntries = rooms
  induction rooms with
  | nil => rfl
  | cons r rest ih =>
    rw [List.flatMap_cons, List.filter_append, filter_isReplicate_replicates, ih]

/-- C19. A `connection` event: one peer record for the connection is added
at the end of the peer list; the `replicate` calls of the handler are all
on the new connection, one for the feed of each entry of
`localRoomFeeds`, then one for the feed of each entry of each room's
mapping in `remoteRoomFeeds`: up to order, one call per registered local
feed and one per registered remote feed of every room. -/
theorem connection_replicates_all (conn : ConnId) (pk : Option Bytes) (s : State) :
    (onConnection conn pk s).peers
      = s.peers ++ [{ connection := conn, shortID := shortIdOf pk }]
    ∧ replicateCalls (eventsSince s (onConnection conn pk s))
      = s.localRoomFeeds.ownEntries.map (fun e => Event.replicate e.2 conn)
        ++ s.remoteRoomFeeds.ownEntries.flatMap
            (fun room => room.2.ownEntries.map (fun e => Event.replicate e.2 conn))
    ∧ (replicateCalls (eventsSince s (onConnection conn pk s))).Perm
        (s.localRoomFeeds.map (fun e => Event.replicate e.2 conn)
          ++ s.remoteRoomFeeds.flatMap (fun room => room.2.map (fun e => Event.replicate e.2 conn)))
    ∧ (onConnection conn pk s).localRoomFeeds = s.localRoomFeeds
    ∧ (onConnection conn pk s).remoteRoomFeeds = s.remoteRoomFeeds := by
  have ht : eventsSince s (onConnection conn pk s)
      = s.allStreams.map (fun st => Event.streamWrite st
          (peersCountFrame (onConnection conn pk s).peers.length)) ++ replicateAll conn s := by
    simp [onConnection, broadcastPeerCount, eventsSince, State.allStreams]
  have hc : replicateCalls (eventsSince s (onConnection conn pk s)) = replicateAll conn s := by
    unfold replicateCalls
    rw [ht, List.filter_append, filter_isReplicate_streamWrites, filter_isReplicate_replicateAll]
    rfl
  refine ⟨rfl, hc, ?_, rfl, rfl⟩
  rw [hc]
  unfold replicateAll
  refine List.Perm.append ((JSObj.ownEntries_perm _).map _) ?_
  refine List.Perm.trans (List.Perm.flatMap_right _ (JSObj.ownEntries_perm _)) ?_
  exact List.Perm.flatMap_left _ (fun room _ => (JSObj.ownEntries_perm _).map _)

theorem findFeed_key (key : FeedKey) (feeds : List Feed) (n i : Nat)
    (h : findFeed key feeds n = some i) : n ≤ i ∧ ∃ f, feeds[i - n]? = some f ∧ f.key = key := by
  induction feeds generalizing n with
  | nil => simp [findFeed] at h
  | cons f rest ih =>
    unfold findFeed at h
    by_cases hk : f.key = key
    · rw [if_pos hk] at h
      cases h
      exact ⟨Nat.le_refl _, f, by simp, hk⟩
    · rw [if_neg hk] at h
      obtain ⟨h1, g, h2, h3⟩ := ih (n + 1) h
      refine ⟨by omega, g, ?_, h3⟩
      have : i - n = (i - (n + 1)) + 1 := by omega
      rw [this, List.getElem?_cons_succ]
      exact h2

/-- The feed `sdk.corestore.get({ key })` gives has that key, and the
entries of every feed are as before. -/
theorem storeGetByKey_spec (key : FeedKey) (s : State) :
    (storeGetByKey key s).2.feedKey (storeGetByKey key s).1 = key
    ∧ (∀ f, (storeGetByKey key s).2.feedEntries f = s.feedEntries f)
    ∧ (storeGetByKey key s).2.trace
        = s.trace ++ [Event.storeGet (some key) (storeGetByKey key s).1]
    ∧ (storeGetByKey key s).2.remoteRoomFeeds = s.remoteRoomFeeds
    ∧ (storeGetByKey key s).2.localRoomFeeds = s.localRoomFeeds := by
  unfold storeGetByKey
  cases h : findFeed key s.feeds 0 with
  | some i =>
    obtain ⟨_, f, h1, h2⟩ := findFeed_key key s.feeds 0 i h
    refine ⟨?_, fun _ => rfl, rfl, rfl, rfl⟩
    simp only [State.feedKey, State.feeds_emit]
    rw [Nat.sub_zero] at h1
    rw [h1]
    exact h2
  | none =>
    refine ⟨?_, ?_, rfl, rfl, rfl⟩
    · simp [State.feedKey]
    · intro f
      simp only [State.feedEntries]
      by_cases hf : f < s.feeds.length
      · rw [List.getElem?_append_left hf]
      · have hge : s.feeds.length ≤ f := Nat.le_of_not_lt hf
        rw [List.getElem?_eq_none hge]
        rcases Nat.eq_or_lt_of_le hge with e | e
        · rw [← e]; simp
        · rw [List.getElem?_eq_none (by simp; omega)]

theorem ensureRemoteRoom_spec (k : RoomKey) (s : State) :
    (ensureRemoteRoom k s).remoteFeeds k = s.remoteFeeds k
    ∧ (ensureRemoteRoom k s).feeds = s.feeds ∧ (ensureRemoteRoom k s).trace = s.trace
    ∧ (ensureRemoteRoom k s).localRoomFeeds = s.localRoomFeeds := by
  unfold ensureRemoteRoom
  split
  · exact ⟨rfl, rfl, rfl, rfl⟩
  · rename_i h
    have hg := (JSObj.has_eq_false (by simpa using h)).1
    refine ⟨?_, rfl, rfl, rfl⟩
    simp [State.remoteFeeds, JSObj.get_set_self, hg]

/-- A `data` event on connection `c` carrying a hello for a pair
`(roomKey, feedKey)` that is not in the registry, the two keys converting
to strings that are no names inherited from `Object.prototype`, the feed
key decoding to `key`: the handler gets the feed of that key from the
store; when the feed becomes ready it is registered under
`remoteRoomFeeds[roomKey][feedKey]` and `replicate` is called for it once,
on `c`, these being the only calls after the store's; when `ready()`
rejects, the handler throws with the pair still unregistered and no
`replicate` call. In both cases the local feeds and the entries of every
feed are as before. -/
theorem hello_registers_after_ready (env : Env) (c : ConnId) (sid raw : String)
    (msg roomKey feedKey : JVal) (key : FeedKey) (s : State)
    (hparse : env.parse raw = .ok msg) (hmsg : IsHello msg roomKey feedKey)
    (hrk : roomKey.unprintable = false) (hfk : feedKey.unprintable = false)
    (hor : env.key roomKey ∉ objectPrototypeNames) (hof : env.key feedKey ∉ objectPrototypeNames)
    (hunseen : (s.remoteFeeds (env.key roomKey)).get (env.key feedKey) = none)
    (hkey : env.decodeKey feedKey = .ok key) :
    (storeGetByKey key s).2.feedKey (storeGetByKey key s).1 = key
    ∧ (env.readyError (storeGetByKey key s).1 = none →
        (onData env c sid raw s).1 = .ok ()
        ∧ ((onData env c sid raw s).2.remoteFeeds (env.key roomKey)).get (env.key feedKey)
            = some (storeGetByKey key s).1
        ∧ eventsSince s (onData env c sid raw s).2
            = [Event.storeGet (some key) (storeGetByKey key s).1,
                Event.replicate (storeGetByKey key s).1 c])
    ∧ (∀ m, env.readyError (storeGetByKey key s).1 = some m →
        (onData env c sid raw s).1 = .error m
        ∧ ((onData env c sid raw s).2.remoteFeeds (env.key roomKey)).get (env.key feedKey) = none
        ∧ eventsSince s (onData env c sid raw s).2
            = [Event.storeGet (some key) (storeGetByKey key s).1])
    ∧ (onData env c sid raw s).2.localRoomFeeds = s.localRoomFeeds
    ∧ (∀ f, (onData env c sid raw s).2.feedEntries f = s.feedEntries f) := by
  obtain ⟨e1, e2, e3, e4⟩ := ensureRemoteRoom_spec (env.key roomKey) s
  obtain ⟨k1, k2, k3, k4, k5⟩ := storeGetByKey_spec key (ensureRemoteRoom (env.key roomKey) s)
  have hfid : (storeGetByKey key (ensureRemoteRoom (env.key roomKey) s)).1 = (storeGetByKey key s).1 := by
    simp only [storeGetByKey, e2]
    split <;> rfl
  have hd : onData env c sid raw s = onHello env c roomKey feedKey s := by
    unfold onData
    rw [hparse]
    exact onMessage_hello env c sid msg roomKey feedKey s hmsg
  have hun : ((ensureRemoteRoom (env.key roomKey) s).remoteFeeds (env.key roomKey)).get (env.key feedKey)
      = none := by rw [e1]; exact hunseen
  have hrem : ((storeGetByKey key (ensureRemoteRoom (env.key roomKey) s)).2.remoteFeeds
      (env.key roomKey)).get (env.key feedKey) = none := by
    simp only [State.remoteFeeds, k4]
    exact hun
  rw [hd, onHello_of_ordinary env c roomKey feedKey s hrk hfk hor hof]
  simp only [hun, hkey, hfid]
  refine ⟨(storeGetByKey_spec key s).1, ?_, ?_, ?_, ?_⟩
  · intro hready
    simp only [hready]
    refine ⟨trivial, ?_, ?_⟩
    · simp [State.remoteFeeds, registerRemoteFeed, JSObj.get_set_self]
    · simp [eventsSince, registerRemoteFeed, k3, e3, hfid]
  · intro m hready
    simp only [hready]
    refine ⟨trivial, hrem, ?_⟩
    simp [eventsSince, k3, e3, hfid]
  · cases hr : env.readyError (storeGetByKey key s).1 with
    | none => simp only []; rw [← e4, ← k5]; rfl
    | some m => simp only []; rw [← e4, ← k5]
  · intro f
    cases hr : env.readyError (storeGetByKey key s).1 with
    | none =>
      simp only []
      rw [← feedEntries_congr e2 f, ← k2 f]
      rfl
    | some m =>
      simp only []
      rw [← feedEntries_congr e2 f, ← k2 f]

/-- On a reachable state in which `localRoomFeeds[K]` is not truthy,
`joinChatRoom(K)`, the new feed becoming ready and no write to a peer
throwing: the calls recorded are the store's `get`, the swarm join and
flush, and then one write to each peer of the peer list whose connection
is not destroyed (none to the others), each of the JSON of
`{type: "hello", roomKey: K, feedKey}`, where `feedKey` is the hex key of
the feed now registered for `K`; that key is the one the store chose for
its new feed (`freshKey`, which is not given `K`). -/
theorem join_broadcasts_hello (env : Env) (K : RoomKey) (s : State) (hs : Reachable s)
    (hK : s.localRoomFeeds.has K = false) (hready : env.readyError s.feeds.length = none)
    (hw : NoWriteFails env s.peers) :
    (joinChatRoom env K s).1 = .ok ()
    ∧ (joinChatRoom env K s).2.localRoomFeeds.get K = some s.feeds.length
    ∧ (joinChatRoom env K s).2.feedKey s.feeds.length = env.freshKey s.feeds.length
    ∧ eventsSince s (joinChatRoom env K s).2
      = [Event.storeGet none s.feeds.length, Event.swarmJoin K, Event.swarmFlush]
        ++ (s.peers.filter (fun p => !env.destroyed p.connection)).map
            (fun p => Event.peerWrite p.connection (env.stringify
              (.obj [("type", .str "hello"), ("roomKey", .str K),
                ("feedKey", .str ((joinChatRoom env K s).2.feedKey s.feeds.length))]))) := by
  have hj : K ∉ s.joinedRooms := by
    intro hmem
    obtain ⟨f, hf⟩ := hs.joinedHaveFeed K hmem
    rw [(JSObj.has_eq_false hK).1] at hf
    cases hf
  have hj' : K ∉ (storeGetFresh env (ensureRemoteRoom K s)).2.joinedRooms := by
    simpa [storeGetFresh, joinedRooms_ensureRemoteRoom] using hj
  have e := joinChatRoom_of_fresh env K s hK hready
  rw [registerLocalFeed_of_not_joined _ _ _ hj', writtenPeers_of_noWriteFails env _ hw] at e
  have h1 : (joinChatRoom env K s).1 = .ok () := by
    unfold joinChatRoom joinChatRoomBegin
    rw [localRoomFeeds_ensureRemoteRoom, hK]
    simp only [Bool.false_eq_true, if_false]
    unfold joinChatRoomResume
    have hfid : (storeGetFresh env (ensureRemoteRoom K s)).1 = s.feeds.length := by
      simp [storeGetFresh, feeds_ensureRemoteRoom]
    rw [hfid, hready]
    simp only [broadcastHello, sendMessageToPeers]
    apply writePeers_fst_ok
    have hp : (registerLocalFeed K s.feeds.length
        (storeGetFresh env (ensureRemoteRoom K s)).2).peers = s.peers := by
      rw [registerLocalFeed_of_not_joined _ _ _ hj']
      simp [storeGetFresh, peers_ensureRemoteRoom]
    rw [hp]
    exact hw
  have hkey : (joinChatRoom env K s).2.feedKey s.feeds.length = env.freshKey s.feeds.length := by
    rw [e]
    simp [State.feedKey, State.emit, storeGetFresh, feeds_ensureRemoteRoom]
  refine ⟨h1, ?_, hkey, ?_⟩
  · rw [e]
    simp [State.emit, storeGetFresh, localRoomFeeds_ensureRemoteRoom, JSObj.get_set_self]
  · rw [hkey]
    rw [e]
    simp [eventsSince, State.emit, storeGetFresh, trace_ensureRemoteRoom, feeds_ensureRemoteRoom,
      livePeers, helloMessage]

/-! ## Unparsable frames, and hellos for rooms not joined -/

/-- C29. A frame that fails JSON parsing: the handler goes on with the
synthesized message `{sender, message, timestamp}`, whose `roomKey` reads
`undefined`; it returns normally, and the state after it is the state
before it but for the count of `Date.now()` calls (one call, or two when
the first gave 0).  So the registry and the feeds are unchanged and no call
on a collaborator is recorded: no append, no store access, no `replicate`,
no write to an SSE stream or to a peer. -/
theorem unparsable_frame_changes_nothing (env : Env) (conn : ConnId) (sid raw : String)
    (s : State) (m : String) (hparse : env.parse raw = .error m) :
    onData env conn sid raw s = onMessage env conn sid (fallbackMessage env sid raw s) s.tick
    ∧ (fallbackMessage env sid raw s).getProp "roomKey" = some .undefined
    ∧ (onData env conn sid raw s).1 = .ok ()
    ∧ (onData env conn sid raw s).2
        = { s with clock := if env.now s.clock = 0 then s.clock + 2 else s.clock + 1 }
    ∧ (onData env conn sid raw s).2.registry = s.registry
    ∧ (onData env conn sid raw s).2.feeds = s.feeds
    ∧ (onData env conn sid raw s).2.trace = s.trace := by
  have h1 : onData env conn sid raw s
      = onMessage env conn sid (fallbackMessage env sid raw s) s.tick := by
    unfold onData
    rw [hparse]
    rfl
  have h2 : onMessage env conn sid (fallbackMessage env sid raw s) s.tick
      = (.ok (), { s with clock := if env.now s.clock = 0 then s.clock + 2 else s.clock + 1 }) := by
    unfold onMessage fallbackMessage chatMessage
    simp only [JVal.getProp, JVal.lookupField, JVal.namedFields, isHelloType]
    simp only [String.reduceEq, if_false, Bool.false_and, Bool.false_eq_true]
    rw [onChatMessage_eq]
    by_cases h0 : env.now s.clock = 0
    · simp [JVal.lookupField, JVal.assignField, JVal.truthy, h0, dateNow, State.tick]
    · simp [JVal.lookupField, JVal.assignField, JVal.truthy, h0, dateNow, State.tick]
  refine ⟨h1, rfl, ?_, ?_, ?_, ?_, ?_⟩
  all_goals rw [h1, h2]
  all_goals rfl

theorem unparsable_frame_changes_nothing_witness :
    demoEnv.parse "not json" = .error "Unexpected token"
    ∧ (onData demoEnv 7 "peer" "not json" roomWithPeers).1 = .ok ()
    ∧ (onData demoEnv 7 "peer" "not json" roomWithPeers).2.registry = roomWithPeers.registry
    ∧ (onData demoEnv 7 "peer" "not json" roomWithPeers).2.trace = roomWithPeers.trace :=
  ⟨rfl,
    (unparsable_frame_changes_nothing demoEnv 7 "peer" "not json" roomWithPeers _ rfl).2.2.1,
    (unparsable_frame_changes_nothing demoEnv 7 "peer" "not json" roomWithPeers _ rfl).2.2.2.2.1,
    (unparsable_frame_changes_nothing demoEnv 7 "peer" "not json" roomWithPeers _ rfl).2.2.2.2.2.2⟩

/-- A hello frame for a room this process has not joined (no local feed,
not in `joinedRooms`), announcing a feed key not yet registered for the
room, the two keys converting to strings that are no names inherited from
`Object.prototype`, the feed key decoding and the feed becoming ready: the
handler asks no membership question.  It returns normally; the room now has
its entry in `remoteRoomFeeds`, which holds what it held before (nothing,
when the room had no entry) and the announced feed under its key; the
calls recorded are the store's `get` by that key and one `replicate` of the
feed on the delivering connection; and the room still has no local feed and
is still not in `joinedRooms`. -/
theorem hello_for_unjoined_room (env : Env) (c : ConnId) (sid : String)
    (msg roomKey feedKey : JVal) (key : FeedKey) (s : State)
    (hmsg : IsHello msg roomKey feedKey)
    (hrk : roomKey.unprintable = false) (hfk : feedKey.unprintable = false)
    (hor : env.key roomKey ∉ objectPrototypeNames) (hof : env.key feedKey ∉ objectPrototypeNames)
    (hlocal : s.localRoomFeeds.get (env.key roomKey) = none)
    (hjoined : env.key roomKey ∉ s.joinedRooms)
    (hunseen : (s.remoteFeeds (env.key roomKey)).get (env.key feedKey) = none)
    (hkey : env.decodeKey feedKey = .ok key)
    (hready : env.readyError (storeGetByKey key s).1 = none) :
    (onMessage env c sid msg s).1 = .ok ()
    ∧ (onMessage env c sid msg s).2.remoteRoomFeeds.get (env.key roomKey)
        = some ((s.remoteFeeds (env.key roomKey)).set (env.key feedKey) (storeGetByKey key s).1)
    ∧ (s.remoteRoomFeeds.get (env.key roomKey) = none →
        (onMessage env c sid msg s).2.remoteRoomFeeds.get (env.key roomKey)
          = some [((env.key feedKey), (storeGetByKey key s).1)])
    ∧ (storeGetByKey key s).2.feedKey (storeGetByKey key s).1 = key
    ∧ eventsSince s (onMessage env c sid msg s).2
        = [Event.storeGet (some key) (storeGetByKey key s).1,
            Event.replicate (storeGetByKey key s).1 c]
    ∧ (onMessage env c sid msg s).2.localRoomFeeds.get (env.key roomKey) = none
    ∧ (env.key roomKey) ∉ (onMessage env c sid msg s).2.joinedRooms := by
  obtain ⟨e1, e2, e3, e4⟩ := ensureRemoteRoom_spec (env.key roomKey) s
  obtain ⟨k1, k2, k3, k4, k5⟩ := storeGetByKey_spec key (ensureRemoteRoom (env.key roomKey) s)
  have hfid : (storeGetByKey key (ensureRemoteRoom (env.key roomKey) s)).1 = (storeGetByKey key s).1 := by
    simp only [storeGetByKey, e2]
    split <;> rfl
  have hun : ((ensureRemoteRoom (env.key roomKey) s).remoteFeeds (env.key roomKey)).get (env.key feedKey)
      = none := by rw [e1]; exact hunseen
  have hj : (storeGetByKey key (ensureRemoteRoom (env.key roomKey) s)).2.joinedRooms
      = s.joinedRooms := by
    rw [← joinedRooms_ensureRemoteRoom (env.key roomKey) s]
    unfold storeGetByKey
    split <;> rfl
  have hrf : (storeGetByKey key (ensureRemoteRoom (env.key roomKey) s)).2.remoteFeeds (env.key roomKey)
      = s.remoteFeeds (env.key roomKey) := by
    simp only [State.remoteFeeds, k4]
    exact e1
  rw [onMessage_hello env c sid msg roomKey feedKey s hmsg,
    onHello_of_ordinary env c roomKey feedKey s hrk hfk hor hof]
  simp only [hun, hkey, hfid, hready]
  have hreg : (registerRemoteFeed c (env.key roomKey) (env.key feedKey) (storeGetByKey key s).1
        (storeGetByKey key (ensureRemoteRoom (env.key roomKey) s)).2).remoteRoomFeeds.get (env.key roomKey)
      = some ((s.remoteFeeds (env.key roomKey)).set (env.key feedKey) (storeGetByKey key s).1) := by
    simp only [registerRemoteFeed, JSObj.get_set_self, hrf]
  refine ⟨trivial, hreg, ?_, (storeGetByKey_spec key s).1, ?_, ?_, ?_⟩
  · intro hnone
    rw [hreg]
    simp [State.remoteFeeds, hnone, JSObj.set]
  · simp [eventsSince, registerRemoteFeed, k3, e3, hfid]
  · show (storeGetByKey key (ensureRemoteRoom (env.key roomKey) s)).2.localRoomFeeds.get (env.key roomKey)
      = none
    rw [k5, e4]
    exact hlocal
  · show (env.key roomKey) ∉ (storeGetByKey key (ensureRemoteRoom (env.key roomKey) s)).2.joinedRooms
    rw [hj]
    exact hjoined

/-! ## Room keys and upload bodies -/

theorem hexValue_hexDigit (n : Nat) (h : n < 16) : hexValue (hexDigit n) = some n := by
  interval_cases n <;> rfl

theorem hexDigit_lower (n : Nat) (h : n < 16) : hexDigit n ∈ lowerHexDigits := by
  interval_cases n <;> simp [hexDigit, lowerHexDigits]

theorem decodeHex_toHex (buf : Bytes) : decodeHex (toHex buf).data = some buf := by
  induction buf with
  | nil => rfl
  | cons b rest ih =>
    have h1 : b.val / 16 < 16 := by omega
    have h2 : b.val % 16 < 16 := Nat.mod_lt _ (by decide)
    have hd : (toHex (b :: rest)).data
        = hexDigit (b.val / 16) :: hexDigit (b.val % 16) :: (toHex rest).data := by
      simp [toHex]
    have hb : b.val / 16 * 16 + b.val % 16 = b.val := by omega
    rw [hd]
    simp only [decodeHex, hexValue_hexDigit _ h1, hexValue_hexDigit _ h2, ih]
    simp [hb]

theorem toHex_length (buf : Bytes) : (toHex buf).length = 2 * buf.length := by
  induction buf with
  | nil => rfl
  | cons b rest ih =>
    simp only [toHex, String.length, List.flatMap_cons, List.length_append, List.length_cons,
      List.length_nil] at ih ⊢
    omega

theorem toHex_lower (buf : Bytes) : ∀ c ∈ (toHex buf).data, c ∈ lowerHexDigits := by
  intro c hc
  simp only [toHex, List.mem_flatMap, List.mem_cons, List.mem_singleton, List.not_mem_nil,
    or_false] at hc
  obtain ⟨b, _, hb⟩ := hc
  rcases hb with rfl | rfl
  · exact hexDigit_lower _ (by omega)
  · exact hexDigit_lower _ (Nat.mod_lt _ (by decide))

/-- C22. The key `generateChatRoom` returns is the hex text of the 32 bytes
of its `crypto.randomBytes(32)`: a string of exactly 64 characters, each a
lowercase hexadecimal digit, whose hex decoding is exactly those 32 bytes.
The answer of a create-key request is the one response `200
application/json` with the JSON of `{roomKey}` for that key. -/
theorem generateChatRoom_key (env : Env) (req : Request) (s : State) :
    (generateChatRoom env s).1 = toHex (randomBytes32 env s.randomCalls)
    ∧ (randomBytes32 env s.randomCalls).length = 32
    ∧ (generateChatRoom env s).1.length = 64
    ∧ (∀ c ∈ (generateChatRoom env s).1.data, c ∈ lowerHexDigits)
    ∧ fromHex (generateChatRoom env s).1 = some (randomBytes32 env s.randomCalls)
    ∧ eventsSince s (handleChatRequest env (createKeyRequest req) s).2
        = [Event.callback
            { statusCode := 200, headers := [("Content-Type", "application/json")],
              data := .text (env.stringify
                (.obj [("roomKey", .str (generateChatRoom env s).1)])) }] := by
  have hlen : (randomBytes32 env s.randomCalls).length = 32 := by simp [randomBytes32]
  have hk : (generateChatRoom env s).1 = toHex (randomBytes32 env s.randomCalls) := rfl
  refine ⟨hk, hlen, ?_, ?_, ?_, ?_⟩
  · rw [hk, toHex_length, hlen]
  · rw [hk]; exact toHex_lower _
  · rw [hk]; exact decodeHex_toHex _
  · have hb : handleChatBody env (createKeyRequest req) s
        = (.ok (), (generateChatRoom env s).2.emit
            [Event.callback (jsonResponse env (.obj [("roomKey", .str (generateChatRoom env s).1)]))]) := by
      unfold handleChatBody
      rw [if_pos ⟨rfl, rfl⟩]
    rw [handleChatRequest_of_ok env _ s (by rw [hb]), hb]
    simp [eventsSince, generateChatRoom, State.emit, jsonResponse]

theorem readChunk_toChunk (env : Env) (p : UploadPart) (h : p.named = true) :
    readChunk env p.toChunk = p.resolve env := by
  cases p with
  | raw b => rfl
  | file f =>
    simp only [UploadPart.named] at h
    simp [readChunk, UploadPart.toChunk, UploadPart.resolve, h]
  | blob u =>
    simp only [UploadPart.named] at h
    simp [readChunk, UploadPart.toChunk, UploadPart.resolve, h]

theorem readChunks_toChunk (env : Env) (parts : List UploadPart) (resolved : List Bytes)
    (hnamed : ∀ p ∈ parts, p.named = true)
    (hres : parts.map (UploadPart.resolve env) = resolved.map Except.ok) :
    readChunks env (parts.map UploadPart.toChunk) = .ok resolved.flatten := by
  induction parts generalizing resolved with
  | nil =>
    cases resolved with
    | nil => rfl
    | cons b bs => simp at hres
  | cons p rest ih =>
    cases resolved with
    | nil => simp at hres
    | cons b bs =>
      simp only [List.map_cons, List.cons.injEq] at hres
      have h1 := readChunk_toChunk env p (hnamed p (List.mem_cons_self _ _))
      have h2 := ih bs (fun q hq => hnamed q (List.mem_cons_of_mem _ hq)) hres.2
      simp only [List.map_cons, readChunks, h1, hres.1, h2, List.flatten_cons]

/-- C24. Upload data that is a sequence of chunks, each raw bytes, a file
reference or a blob reference (a reference being a non-empty string), in
any order of kinds, every reference resolving: the byte stream of
`readBody` is the concatenation, in chunk order, of the chunks' bytes (the
bytes themselves, the file's contents, the session's blob data), and
`getJSONBody` gives what it gives for the same bytes delivered as one raw
chunk: the JSON parse of their text. -/
theorem readBody_concatenates (env : Env) (parts : List UploadPart) (resolved : List Bytes)
    (hnamed : ∀ p ∈ parts, p.named = true)
    (hres : parts.map (UploadPart.resolve env) = resolved.map Except.ok) :
    readBody env (some (parts.map UploadPart.toChunk)) = .ok resolved.flatten
    ∧ getJSONBody env (some (parts.map UploadPart.toChunk))
        = getJSONBody env (some [(UploadPart.raw resolved.flatten).toChunk])
    ∧ getJSONBody env (some (parts.map UploadPart.toChunk))
        = env.parse (env.decodeText resolved.flatten) := by
  have h1 : readBody env (some (parts.map UploadPart.toChunk)) = .ok resolved.flatten :=
    readChunks_toChunk env parts resolved hnamed hres
  have h2 : readBody env (some [(UploadPart.raw resolved.flatten).toChunk])
      = .ok resolved.flatten := by
    simp [readBody, readChunks, readChunk, UploadPart.toChunk]
  refine ⟨h1, ?_, ?_⟩
  · unfold getJSONBody
    rw [h1, h2]
  · unfold getJSONBody
    rw [h1]

theorem readBody_concatenates_witness :
    (∀ p ∈ threeParts, p.named = true)
    ∧ threeParts.map (UploadPart.resolve demoEnvFiles)
        = [bytesOf "\x7b\"sender\":", bytesOf "\"a\",\"message\":", bytesOf "\"hi\"\x7d"].map
            Except.ok
    ∧ readBody demoEnvFiles (some (threeParts.map UploadPart.toChunk))
        = .ok (bytesOf "\x7b\"sender\":\"a\",\"message\":\"hi\"\x7d")
    ∧ getJSONBody demoEnvFiles (some (threeParts.map UploadPart.toChunk))
        = .ok (.obj [("sender", .str "a"), ("message", .str "hi")]) :=
  ⟨(by decide), rfl,
    (readBody_concatenates demoEnvFiles threeParts
      [bytesOf "\x7b\"sender\":", bytesOf "\"a\",\"message\":", bytesOf "\"hi\"\x7d"]
      (by decide) rfl).1,
    (readBody_concatenates demoEnvFiles threeParts
      [bytesOf "\x7b\"sender\":", bytesOf "\"a\",\"message\":", bytesOf "\"hi\"\x7d"]
      (by decide) rfl).2.2⟩

/-! ## Closing a stream, and two joins interleaved -/

theorem filter_ne_eq_erase (l : List StreamId) (x : StreamId) (h : l.Nodup) :
    l.filter (fun t => t != x) = l.erase x := by
  induction l with
  | nil => rfl
  | cons a rest ih =>
    rw [List.nodup_cons] at h
    by_cases hax : a = x
    · subst hax
      rw [List.erase_cons_head, List.filter_cons_of_neg (by simp)]
      rw [List.filter_eq_self]
      intro b hb
      have : b ≠ a := fun e => h.1 (e ▸ hb)
      simpa using this
    · rw [List.erase_cons_tail (by simpa using hax), List.filter_cons_of_pos (by simpa using hax),
        ih h.2]

/-- C23. On a reachable state, the close handler of a stream registered
for room `K`: its one call is `clearInterval` of that stream's heartbeat
timer, which is no longer running while every other timer still is; the
stream list of `K` is the former list with exactly that stream erased, the
other streams in their original order; the stream list of every other
room, and the set of rooms that have a list, are unchanged. -/
theorem stream_close_removes_stream (K : RoomKey) (stream : StreamId) (s : State)
    (hs : Reachable s) (hreg : stream ∈ s.sseClients K) :
    eventsSince s (onStreamClose K stream s) = [Event.clearInterval stream]
    ∧ stream ∉ (onStreamClose K stream s).timers
    ∧ (∀ t, t ≠ stream → (t ∈ (onStreamClose K stream s).timers ↔ t ∈ s.timers))
    ∧ (onStreamClose K stream s).sseClients K = (s.sseClients K).erase stream
    ∧ stream ∉ (onStreamClose K stream s).sseClients K
    ∧ (onStreamClose K stream s).sseClients K
        = (s.sseClients K).filter (fun t => t != stream)
    ∧ (∀ K', K' ≠ K →
        (onStreamClose K stream s).roomSseClients.get K' = s.roomSseClients.get K')
    ∧ (onStreamClose K stream s).sseRooms = s.sseRooms := by
  have hnd := hs.sseClients_nodup K
  have h1 : (onStreamClose K stream s).roomSseClients
      = s.roomSseClients.set K ((s.sseClients K).filter (fun t => t != stream)) := rfl
  have h2 : (onStreamClose K stream s).timers = s.timers.filter (fun t => t != stream) := rfl
  have h3 : (onStreamClose K stream s).sseClients K
      = (s.sseClients K).filter (fun t => t != stream) := by
    simp only [State.sseClients, h1, JSObj.get_set_self, Option.getD_some]
  have hK : K ∈ s.roomSseClients.map Prod.fst := by
    by_contra hc
    rw [← JSObj.get_eq_none_iff] at hc
    simp [State.sseClients, hc] at hreg
  refine ⟨?_, ?_, ?_, ?_, ?_, h3, ?_, ?_⟩
  · simp [eventsSince, onStreamClose]
  · rw [h2]; simp
  · intro t ht
    rw [h2]; simp [ht]
  · rw [h3, filter_ne_eq_erase _ _ hnd]
  · rw [h3]; simp
  · intro K' hne
    rw [h1, JSObj.get_set_ne _ _ hne]
  · simp only [State.sseRooms, h1, JSObj.keys_set, if_pos hK]

theorem stream_close_removes_stream_witness :
    Reachable twoStreams ∧ twoStreams.sseClients "ab" = [0, 1]
    ∧ twoStreams.sseClients "cd" = [2]
    ∧ (onStreamClose "ab" 0 twoStreams).sseClients "ab" = [1]
    ∧ (onStreamClose "ab" 0 twoStreams).roomSseClients.get "cd" = some [2]
    ∧ eventsSince twoStreams (onStreamClose "ab" 0 twoStreams) = [Event.clearInterval 0] :=
  ⟨reachable_joinedAb.run _, rfl, rfl,
    (stream_close_removes_stream "ab" 0 twoStreams (reachable_joinedAb.run _)
      (by decide)).2.2.2.1,
    (stream_close_removes_stream "ab" 0 twoStreams (reachable_joinedAb.run _)
      (by decide)).2.2.2.2.2.2.1 "cd" (by decide),
    (stream_close_removes_stream "ab" 0 twoStreams (reachable_joinedAb.run _)
      (by decide)).1⟩

theorem joinChatRoomBegin_of_none (env : Env) (K : RoomKey) (s : State)
    (h : s.localRoomFeeds.has K = false) :
    joinChatRoomBegin env K s
      = (some s.feeds.length, (storeGetFresh env (ensureRemoteRoom K s)).2) := by
  unfold joinChatRoomBegin
  rw [localRoomFeeds_ensureRemoteRoom, h]
  simp only [storeGetFresh, feeds_ensureRemoteRoom, Bool.false_eq_true, if_false]

theorem joinChatRoomResume_state (env : Env) (K : RoomKey) (f : FeedId) (s : State)
    (hready : env.readyError f = none) :
    (joinChatRoomResume env K f s).2
      = (registerLocalFeed K f s).emit ((writtenPeers env (registerLocalFeed K f s).peers).map
          (fun p => Event.peerWrite p.connection
            (env.stringify (helloMessage K ((registerLocalFeed K f s).feedKey f))))) := by
  unfold joinChatRoomResume
  rw [hready]
  simp only [broadcastHello, sendMessageToPeers, writePeers_eq]

theorem feeds_registerLocalFeed (k : RoomKey) (f : FeedId) (s : State) :
    (registerLocalFeed k f s).feeds
      = s.feeds.modify (fun x => { x with listeners := x.listeners ++ [k] }) f := by
  unfold registerLocalFeed
  simp only []
  split <;> rfl

theorem trace_registerLocalFeed (k : RoomKey) (f : FeedId) (s : State) :
    (registerLocalFeed k f s).trace
      = s.trace ++ (if k ∈ s.joinedRooms then [] else [Event.swarmJoin k, Event.swarmFlush]) := by
  unfold registerLocalFeed
  simp only []
  split
  · rename_i h
    have h' : k ∈ s.joinedRooms := h
    simp [State.updateFeed, h']
  · rename_i h
    have h' : k ∉ s.joinedRooms := h
    simp [State.updateFeed, h']

theorem storeGets_peerWrites (ps : List Peer) (data : String) :
    storeGets (ps.map (fun p => Event.peerWrite p.connection data)) = [] := by
  induction ps with
  | nil => rfl
  | cons p rest ih => simp [storeGets, Event.isStoreGet]

theorem getElem?_append_two_left {α : Type} (l : List α) (a b : α) :
    (l ++ ([a] ++ [b]))[l.length]? = some a := by
  rw [List.getElem?_append_right (Nat.le_refl _)]
  simp

theorem getElem?_append_two_right {α : Type} (l : List α) (a b : α) :
    (l ++ ([a] ++ [b]))[l.length + 1]? = some b := by
  rw [List.getElem?_append_right (Nat.le_succ _)]
  simp

theorem joinChatRoomResume_trace (env : Env) (K : RoomKey) (f : FeedId) (s : State)
    (hready : env.readyError f = none) :
    ∃ es, (joinChatRoomResume env K f s).2.trace = s.trace ++ es ∧ storeGets es = [] := by
  rw [joinChatRoomResume_state env K f s hready]
  refine ⟨(if K ∈ s.joinedRooms then [] else [Event.swarmJoin K, Event.swarmFlush])
    ++ (writtenPeers env (registerLocalFeed K f s).peers).map
          (fun p => Event.peerWrite p.connection
            (env.stringify (helloMessage K ((registerLocalFeed K f s).feedKey f)))), ?_, ?_⟩
  · simp only [State.emit, trace_registerLocalFeed, List.append_assoc]
  · have hw := storeGets_peerWrites (writtenPeers env (registerLocalFeed K f s).peers)
      (env.stringify (helloMessage K ((registerLocalFeed K f s).feedKey f)))
    simp only [storeGets, List.filter_append] at hw ⊢
    rw [hw]
    split <;> rfl

theorem joinChatRoomResume_feeds (env : Env) (K : RoomKey) (f : FeedId) (s : State)
    (hready : env.readyError f = none) :
    (joinChatRoomResume env K f s).2.feeds
      = s.feeds.modify (fun x => { x with listeners := x.listeners ++ [K] }) f := by
  rw [joinChatRoomResume_state env K f s hready]
  exact feeds_registerLocalFeed K f s

theorem joinChatRoomResume_local (env : Env) (K : RoomKey) (f : FeedId) (s : State)
    (hready : env.readyError f = none) :
    (joinChatRoomResume env K f s).2.localRoomFeeds = s.localRoomFeeds.set K f := by
  rw [joinChatRoomResume_state env K f s hready]
  exact localRoomFeeds_registerLocalFeed K f s

theorem freshFeed_trace (env : Env) (K : RoomKey) (s : State) :
    (storeGetFresh env (ensureRemoteRoom K s)).2.trace
      = s.trace ++ [Event.storeGet none s.feeds.length] := by
  simp only [storeGetFresh, trace_ensureRemoteRoom, feeds_ensureRemoteRoom]

theorem freshFeed_feeds (env : Env) (K : RoomKey) (s : State) :
    (storeGetFresh env (ensureRemoteRoom K s)).2.feeds
      = s.feeds ++ [{ key := env.freshKey s.feeds.length, entries := [], listeners := [] }] := by
  simp only [storeGetFresh, feeds_ensureRemoteRoom]

/-- C27. Two `joinChatRoom(K)` calls for a room without a local feed
(`localRoomFeeds[K]` is not truthy), the second starting while the first
waits for its feed to become ready, both feeds becoming ready: nothing the
first call has done by then makes the second call's existence check fail,
so both pass it and each gets a feed of its own from the store (two `get`
calls, two distinct feeds).  When the first call resumes it stores its feed
as the local feed of `K`; when the second resumes it stores its own in its
place.  Both feeds are in the store and both carry the append listener of
`K`. -/
theorem join_race_two_feeds (env : Env) (K : RoomKey) (s : State)
    (hlocal : s.localRoomFeeds.has K = false)
    (hready1 : env.readyError s.feeds.length = none)
    (hready2 : env.readyError (s.feeds.length + 1) = none) :
    (joinChatRoomBegin env K s).1 = some s.feeds.length
    ∧ (joinRace env K s).1.localRoomFeeds.has K = false
    ∧ (joinRace env K s).1.localRoomFeeds.get K = none
    ∧ (joinChatRoomBegin env K (joinRace env K s).1).1 = some (s.feeds.length + 1)
    ∧ storeGets (eventsSince s (joinRace env K s).2.2.2)
        = [Event.storeGet none s.feeds.length, Event.storeGet none (s.feeds.length + 1)]
    ∧ (joinRace env K s).2.2.1.localRoomFeeds.get K = some s.feeds.length
    ∧ (joinRace env K s).2.2.2.localRoomFeeds.get K = some (s.feeds.length + 1)
    ∧ (joinRace env K s).2.2.2.feeds.length = s.feeds.length + 2
    ∧ (joinRace env K s).2.2.2.feedListeners s.feeds.length = [K]
    ∧ (joinRace env K s).2.2.2.feedListeners (s.feeds.length + 1) = [K] := by
  have hb1 := joinChatRoomBegin_of_none env K s hlocal
  have hl1 : (storeGetFresh env (ensureRemoteRoom K s)).2.localRoomFeeds.has K = false := by
    simp only [storeGetFresh, localRoomFeeds_ensureRemoteRoom]
    exact hlocal
  have hf1 : (storeGetFresh env (ensureRemoteRoom K s)).2.feeds.length = s.feeds.length + 1 := by
    simp [freshFeed_feeds]
  have hb2 := joinChatRoomBegin_of_none env K _ hl1
  rw [hf1] at hb2
  have hrace : joinRace env K s
      = ((storeGetFresh env (ensureRemoteRoom K s)).2,
          (storeGetFresh env (ensureRemoteRoom K (storeGetFresh env (ensureRemoteRoom K s)).2)).2,
          (joinChatRoomResume env K s.feeds.length
            (storeGetFresh env (ensureRemoteRoom K (storeGetFresh env (ensureRemoteRoom K s)).2)).2).2,
          (joinChatRoomResume env K (s.feeds.length + 1)
            (joinChatRoomResume env K s.feeds.length
              (storeGetFresh env
                (ensureRemoteRoom K (storeGetFresh env (ensureRemoteRoom K s)).2)).2).2).2) := by
    simp only [joinRace, hb1, hb2, resumeJoin]
  rw [hrace]
  simp only []
  have tA := freshFeed_trace env K s
  have fA := freshFeed_feeds env K s
  generalize (storeGetFresh env (ensureRemoteRoom K s)).2 = A at tA fA hl1 hf1 hb2
  have tB := freshFeed_trace env K A
  have fB := freshFeed_feeds env K A
  generalize (storeGetFresh env (ensureRemoteRoom K A)).2 = B at tB fB
  obtain ⟨es1, t1, g1⟩ := joinChatRoomResume_trace env K s.feeds.length B hready1
  have f1 := joinChatRoomResume_feeds env K s.feeds.length B hready1
  have l1 := joinChatRoomResume_local env K s.feeds.length B hready1
  generalize (joinChatRoomResume env K s.feeds.length B).2 = R1 at t1 f1 l1
  obtain ⟨es2, t2, g2⟩ := joinChatRoomResume_trace env K (s.feeds.length + 1) R1 hready2
  have f2 := joinChatRoomResume_feeds env K (s.feeds.length + 1) R1 hready2
  have l2 := joinChatRoomResume_local env K (s.feeds.length + 1) R1 hready2
  generalize (joinChatRoomResume env K (s.feeds.length + 1) R1).2 = R2 at t2 f2 l2
  refine ⟨by rw [hb1], hl1, (JSObj.has_eq_false hl1).1, by rw [hb2], ?_, ?_, ?_, ?_, ?_, ?_⟩
  · rw [eventsSince, t2, t1, tB, tA, hf1]
    simp only [List.append_assoc, List.drop_left]
    simp only [storeGets, List.filter_append] at g1 g2 ⊢
    rw [g1, g2]
    rfl
  · rw [l1, JSObj.get_set_self]
  · rw [l2, JSObj.get_set_self]
  · rw [f2, f1, fB, fA]
    simp
  · unfold State.feedListeners
    rw [f2, List.getElem?_modify_ne _ _ (Nat.succ_ne_self _), f1, List.getElem?_modify_eq, fB, fA,
      List.append_assoc, getElem?_append_two_left]
    rfl
  · unfold State.feedListeners
    rw [f2, List.getElem?_modify_eq, f1, List.getElem?_modify_ne _ _ (Nat.succ_ne_self _).symm,
      fB, fA, List.append_assoc, getElem?_append_two_right]
    rfl

theorem join_race_two_feeds_witness :
    State.init.localRoomFeeds.has "ab" = false
    ∧ storeGets (eventsSince State.init (joinRace demoEnv "ab" State.init).2.2.2)
        = [Event.storeGet none 0, Event.storeGet none 1]
    ∧ (joinRace demoEnv "ab" State.init).2.2.1.localRoomFeeds.get "ab" = some 0
    ∧ (joinRace demoEnv "ab" State.init).2.2.2.localRoomFeeds.get "ab" = some 1
    ∧ (joinRace demoEnv "ab" State.init).2.2.2.feedListeners 0 = ["ab"]
    ∧ (joinRace demoEnv "ab" State.init).2.2.2.feedListeners 1 = ["ab"] :=
  ⟨rfl, (join_race_two_feeds demoEnv "ab" State.init rfl rfl rfl).2.2.2.2.1,
    (join_race_two_feeds demoEnv "ab" State.init rfl rfl rfl).2.2.2.2.2.1,
    (join_race_two_feeds demoEnv "ab" State.init rfl rfl rfl).2.2.2.2.2.2.1,
    (join_race_two_feeds demoEnv "ab" State.init rfl rfl rfl).2.2.2.2.2.2.2.2.1,
    (join_race_two_feeds demoEnv "ab" State.init rfl rfl rfl).2.2.2.2.2.2.2.2.2⟩

/-! ## The protocol handler -/

theorem dropFirstColon_scheme (scheme : String) (h : ':' ∉ scheme.data) :
    dropFirstColon (scheme ++ ":") = scheme := by
  unfold dropFirstColon
  have h1 : (scheme ++ ":").data = scheme.data ++ [':'] := by
    rw [String.data_append]
  rw [h1, List.erase_append_right _ h]
  simp

theorem startsWith_iff (text start : String) :
    startsWith text start = true ↔ ∃ rest, text = start ++ rest := by
  unfold startsWith
  rw [List.isPrefixOf_iff_prefix]
  constructor
  · rintro ⟨t, ht⟩
    refine ⟨String.mk t, ?_⟩
    apply String.ext
    rw [String.data_append, ← ht]
  · rintro ⟨rest, rfl⟩
    exact ⟨rest.data, by rw [String.data_append]⟩

theorem routedToChat_iff (req : Request) (scheme : String)
    (hp : req.protocol = scheme ++ ":") (hs : ':' ∉ scheme.data) :
    routedToChat req = true ↔ InChatNamespace scheme req := by
  unfold routedToChat InChatNamespace
  rw [hp, dropFirstColon_scheme scheme hs]
  simp only [Bool.and_eq_true, Bool.or_eq_true, beq_iff_eq, startsWith_iff]

theorem handleChatRequest_fst (env : Env) (req : Request) (s : State) :
    (handleChatRequest env req s).1 = .ok () := by
  unfold handleChatRequest
  split <;> rfl

theorem handleHyperRequest_spec (fetchFn : FetchFn) (req : Request) (s : State) :
    (handleHyperRequest fetchFn req s).1 = .ok ()
    ∧ ∃ r, (handleHyperRequest fetchFn req s).2 = s.emit [Event.callback r] := by
  unfold handleHyperRequest
  split
  · split
    · exact ⟨rfl, _, rfl⟩
    · exact ⟨rfl, _, rfl⟩
  · exact ⟨rfl, _, rfl⟩

/-- C25. A request whose URL has the scheme `scheme` (so that
`urlObj.protocol` is the scheme followed by a colon): the protocol handler
takes the chat branch if and only if the scheme is `hyper` and the hostname
is `chat` or the pathname begins with `/chat`.  In that case what it does
is what `handleChatRequest` does on the request.  In every other case it
does what `handleHyperRequest` does: the request goes to the SDK's fetch,
the one call recorded is the callback with the answer, and nothing of the
chat router's state (the registry, the feeds, the streams) is touched. -/
theorem protocolHandler_routes (env : Env) (fetchFn : FetchFn) (req : Request) (s : State)
    (scheme : String) (hp : req.protocol = scheme ++ ":") (hs : ':' ∉ scheme.data) :
    (routedToChat req = true ↔ InChatNamespace scheme req)
    ∧ (InChatNamespace scheme req →
        protocolHandler env fetchFn req s = handleChatRequest env req s)
    ∧ (¬ InChatNamespace scheme req →
        protocolHandler env fetchFn req s = handleHyperRequest fetchFn req s
        ∧ (∃ r, eventsSince s (protocolHandler env fetchFn req s).2 = [Event.callback r])
        ∧ (protocolHandler env fetchFn req s).2.registry = s.registry
        ∧ (protocolHandler env fetchFn req s).2.feeds = s.feeds
        ∧ (protocolHandler env fetchFn req s).2.nextStream = s.nextStream) := by
  have hiff := routedToChat_iff req scheme hp hs
  refine ⟨hiff, ?_, ?_⟩
  · intro h
    have hb : protocolHandlerBody env fetchFn req s = handleChatRequest env req s := by
      unfold protocolHandlerBody
      rw [if_pos (hiff.2 h)]
    unfold protocolHandler
    rw [hb, handleChatRequest_fst]
    exact Prod.ext (handleChatRequest_fst env req s).symm rfl
  · intro h
    have hr : routedToChat req = false := by
      cases hc : routedToChat req with
      | false => rfl
      | true => exact absurd (hiff.1 hc) h
    have hb : protocolHandlerBody env fetchFn req s = handleHyperRequest fetchFn req s := by
      unfold protocolHandlerBody
      rw [hr]
      rfl
    obtain ⟨h1, r, h2⟩ := handleHyperRequest_spec fetchFn req s
    have hpe : protocolHandler env fetchFn req s = handleHyperRequest fetchFn req s := by
      unfold protocolHandler
      rw [hb, h1]
      exact Prod.ext h1.symm rfl
    rw [hpe, h2]
    exact ⟨rfl, ⟨r, eventsSince_emit s _⟩, rfl, rfl, rfl⟩

theorem protocolHandler_routes_witness :
    InChatNamespace "hyper" (joinRequest "ab") ∧ ¬ InChatNamespace "hyper" driveRequest
    ∧ protocolHandler demoEnv demoFetch (joinRequest "ab") State.init
        = handleChatRequest demoEnv (joinRequest "ab") State.init
    ∧ protocolHandler demoEnv demoFetch driveRequest joinedAb
        = handleHyperRequest demoFetch driveRequest joinedAb :=
  ⟨⟨rfl, Or.inl rfl⟩,
    (fun h => absurd ((protocolHandler_routes demoEnv demoFetch driveRequest joinedAb "hyper" rfl
      (by decide)).1.2 h) (by decide)),
    (protocolHandler_routes demoEnv demoFetch (joinRequest "ab") State.init "hyper" rfl
      (by decide)).2.1 ⟨rfl, Or.inl rfl⟩,
    rfl⟩

/-! ## Rooms with a local feed are the joined rooms -/

theorem remoteGrows_refl (s : State) : RemoteGrows s s := fun _ h => h

theorem remoteGrows_trans {s t u : State} (h1 : RemoteGrows s t) (h2 : RemoteGrows t u) :
    RemoteGrows s u := fun k h => h2 k (h1 k h)

theorem remoteGrows_of_remote {s s' : State} (h : s'.remote = s.remote) : RemoteGrows s s' := by
  intro k hk
  have h' : s'.remoteRoomFeeds = s.remoteRoomFeeds := h
  simpa [State.hasRemoteEntry, h'] using hk

theorem JSObj.isSome_get_set {α : Type} (o : JSObj α) (K k : String) (v : α)
    (h : (o.get k).isSome = true) : ((o.set K v).get k).isSome = true := by
  by_cases hk : k = K
  · subst hk
    rw [JSObj.get_set_self]
    rfl
  · rw [JSObj.get_set_ne _ _ hk]
    exact h

theorem remoteGrows_ensureRemoteRoom (K : RoomKey) (s : State) :
    RemoteGrows s (ensureRemoteRoom K s) := by
  unfold ensureRemoteRoom
  split
  · exact remoteGrows_refl s
  · intro k hk
    exact JSObj.isSome_get_set _ _ _ _ hk

theorem hasRemoteEntry_ensureRemoteRoom (K : RoomKey) (s : State)
    (hK : K ∉ objectPrototypeNames) : (ensureRemoteRoom K s).hasRemoteEntry K = true := by
  obtain ⟨o, ho⟩ := remote_ensureRemoteRoom_of_ordinary K s hK
  simp [State.hasRemoteEntry, ho]

theorem remoteGrows_registerRemoteFeed (c : ConnId) (K : RoomKey) (fk : String) (f : FeedId)
    (s : State) : RemoteGrows s (registerRemoteFeed c K fk f s) := by
  intro k hk
  exact JSObj.isSome_get_set _ _ _ _ hk

theorem remoteGrows_onHello (env : Env) (conn : ConnId) (rk fk : JVal) (s : State) :
    RemoteGrows s (onHello env conn rk fk s).2 := by
  apply onHello_induct (fun t => RemoteGrows s t) _ _ _ _ _ _ _ _ _ (remoteGrows_refl s)
  · intro k t ht; exact remoteGrows_trans ht (remoteGrows_ensureRemoteRoom k t)
  · intro key t ht; exact remoteGrows_trans ht (remoteGrows_of_remote (remote_storeGetByKey _ _))
  · intro k p f t ht; exact remoteGrows_trans ht (remoteGrows_registerRemoteFeed _ _ _ _ _)
  · intro n p f t ht
    exact remoteGrows_trans ht (remoteGrows_of_remote (remote_registerBuiltinFeed _ _ _ _ _))

theorem remoteGrows_onMessage (env : Env) (conn : ConnId) (sid : String) (msg : JVal)
    (s : State) : RemoteGrows s (onMessage env conn sid msg s).2 := by
  unfold onMessage
  split
  · split
    · exact remoteGrows_onHello _ _ _ _ _
    · split
      · exact remoteGrows_of_remote (by simp)
      · exact remoteGrows_refl s
  · exact remoteGrows_refl s

theorem remoteGrows_onData (env : Env) (conn : ConnId) (sid : String) (raw : String)
    (s : State) : RemoteGrows s (onData env conn sid raw s).2 := by
  unfold onData
  split
  · exact remoteGrows_onMessage _ _ _ _ _
  · exact remoteGrows_trans (remoteGrows_of_remote (remote_dateNow env s))
      (remoteGrows_onMessage _ _ _ _ _)

theorem localRoomsOk_of_frame {s s' : State} (hr : s'.rooms = s.rooms) (hg : RemoteGrows s s')
    (hs : LocalRoomsOk s) : LocalRoomsOk s' := by
  simp only [State.rooms, Prod.mk.injEq] at hr
  intro k hk
  have hk' : s.hasLocalFeed k = true := by
    simpa [State.hasLocalFeed, hr.1] using hk
  rw [hr.2]
  exact ⟨(hs k hk').1, hg k (hs k hk').2⟩

theorem joinedRooms_registerLocalFeed (k : RoomKey) (f : FeedId) (s : State) :
    (registerLocalFeed k f s).joinedRooms
      = if k ∈ s.joinedRooms then s.joinedRooms else s.joinedRooms ++ [k] := by
  unfold registerLocalFeed
  simp only []
  split
  · rename_i h
    have h' : k ∈ s.joinedRooms := h
    rw [if_pos h']
    rfl
  · rename_i h
    have h' : k ∉ s.joinedRooms := h
    rw [if_neg h']
    rfl

theorem localRoomsOk_registerLocalFeed (K : RoomKey) (f : FeedId) (s : State)
    (hs : LocalRoomsOk s) (hrem : s.hasRemoteEntry K = true) :
    LocalRoomsOk (registerLocalFeed K f s) := by
  intro k hk
  have hrm : (registerLocalFeed K f s).remoteRoomFeeds = s.remoteRoomFeeds :=
    remote_registerLocalFeed K f s
  simp only [State.hasLocalFeed, State.hasRemoteEntry, hrm, localRoomFeeds_registerLocalFeed,
    joinedRooms_registerLocalFeed] at hk ⊢
  by_cases hkK : k = K
  · subst hkK
    refine ⟨?_, hrem⟩
    split
    · assumption
    · simp
  · rw [JSObj.get_set_ne _ _ hkK] at hk
    have h1 := hs k hk
    refine ⟨?_, h1.2⟩
    split
    · exact h1.1
    · exact List.mem_append_left _ h1.1

theorem localRoomsOk_joinChatRoom (env : Env) (k : RoomKey) (s : State)
    (hs : LocalRoomsOk s) : LocalRoomsOk (joinChatRoom env k s).2 := by
  have h0 : LocalRoomsOk (ensureRemoteRoom k s) :=
    localRoomsOk_of_frame (rooms_ensureRemoteRoom k s) (remoteGrows_ensureRemoteRoom k s) hs
  have h1 : LocalRoomsOk (storeGetFresh env (ensureRemoteRoom k s)).2 :=
    localRoomsOk_of_frame (rooms_storeGetFresh env _)
      (remoteGrows_of_remote (remote_storeGetFresh env _)) h0
  rcases joinChatRoom_cases env k s with ⟨_, h⟩ | ⟨hno, h⟩
  · rw [h]
    exact h0
  · have h2 : (storeGetFresh env (ensureRemoteRoom k s)).2.hasRemoteEntry k = true :=
      hasRemoteEntry_ensureRemoteRoom k s (JSObj.has_eq_false hno).2
    rw [h]
    unfold joinChatRoomResume
    split
    · exact h1
    · unfold broadcastHello
      exact localRoomsOk_of_frame (rooms_sendMessageToPeers _ _ _)
        (remoteGrows_of_remote (remote_sendMessageToPeers _ _ _))
        (localRoomsOk_registerLocalFeed k _ _ h1 h2)

theorem localRoomsOk_of_same {s s' : State} (hr : s'.rooms = s.rooms) (hm : s'.remote = s.remote)
    (hs : LocalRoomsOk s) : LocalRoomsOk s' :=
  localRoomsOk_of_frame hr (remoteGrows_of_remote hm) hs

theorem localRoomsOk_handleChatRequest (env : Env) (req : Request) (s : State)
    (hs : LocalRoomsOk s) : LocalRoomsOk (handleChatRequest env req s).2 := by
  have hb : LocalRoomsOk (handleChatBody env req s).2 := by
    unfold handleChatBody
    split
    · exact localRoomsOk_of_same (by simp) (by simp) hs
    · split
      · split
        · exact hs
        · split
          · exact localRoomsOk_joinChatRoom env _ s hs
          · exact localRoomsOk_of_same (rooms_emit _ _) (remote_emit _ _)
              (localRoomsOk_joinChatRoom env _ s hs)
      · split
        · split
          · exact hs
          · exact localRoomsOk_of_same (by simp) (by simp) hs
        · split
          · split
            · exact hs
            · exact localRoomsOk_of_same (by simp) (by simp) hs
          · exact localRoomsOk_of_same (by simp) (by simp) hs
  unfold handleChatRequest
  split
  · exact hb
  · exact localRoomsOk_of_same (rooms_emit _ _) (remote_emit _ _) hb

theorem localRoomsOk_step (a : Action) (s : State) (hs : LocalRoomsOk s) :
    LocalRoomsOk (step a s) := by
  cases a with
  | request env req => exact localRoomsOk_handleChatRequest env req s hs
  | connection conn pk =>
    exact localRoomsOk_of_same (rooms_onConnection _ _ _) (remote_onConnection _ _ _) hs
  | data env conn sid raw =>
    exact localRoomsOk_of_frame (rooms_onData _ _ _ _ _) (remoteGrows_onData _ _ _ _ _) hs
  | close conn => exact localRoomsOk_of_same (rooms_onClose _ _) (remote_onClose _ _) hs
  | streamClose k st =>
    exact localRoomsOk_of_same (rooms_onStreamClose _ _ _) (remote_onStreamClose _ _ _) hs
  | keepAlive st => exact localRoomsOk_of_same (rooms_onKeepAlive _ _) (remote_onKeepAlive _ _) hs
  | replicated f es =>
    unfold step
    simp only []
    split
    · exact localRoomsOk_of_same (rooms_updateFeed _ _ _) (remote_updateFeed _ _ _) hs
    · exact hs
  | listener env i =>
    exact localRoomsOk_of_same (rooms_resumeListener _ _ _) (remote_resumeListener _ _ _) hs

theorem Reachable.localRoomsOk {s : State} (h : Reachable s) : LocalRoomsOk s := by
  induction h with
  | init => intro k hk; simp [State.init, State.hasLocalFeed, JSObj.get] at hk
  | next a _ ih => exact localRoomsOk_step a _ ih

/-- C28. In every state reached by handler invocations run one after the
other from module load: a room has a local feed if and only if it is in
`joinedRooms`, and every room with a local feed has an entry in
`remoteRoomFeeds`.  Hence, whenever a `joinChatRoom(K)` call gets past the
existence check and so comes to the `!joinedRooms.has(K)` guard, the guard
holds: `K` is not in `joinedRooms` there, and the call adds it. -/
theorem local_feeds_are_joined_rooms (s : State) (hs : Reachable s) :
    (∀ k, s.hasLocalFeed k = true ↔ k ∈ s.joinedRooms)
    ∧ (∀ k, s.hasLocalFeed k = true → s.hasRemoteEntry k = true)
    ∧ (∀ env K feed, (joinChatRoomBegin env K s).1 = some feed →
        K ∉ (joinChatRoomBegin env K s).2.joinedRooms
        ∧ (registerLocalFeed K feed (joinChatRoomBegin env K s).2).joinedRooms
            = s.joinedRooms ++ [K]) := by
  have h1 : ∀ k, s.hasLocalFeed k = true ↔ k ∈ s.joinedRooms := by
    intro k
    constructor
    · exact fun h => (hs.localRoomsOk k h).1
    · intro h
      obtain ⟨f, hf⟩ := hs.joinedHaveFeed k h
      simp [State.hasLocalFeed, hf]
  refine ⟨h1, fun k h => (hs.localRoomsOk k h).2, ?_⟩
  intro env K feed hb
  have hhas : s.localRoomFeeds.has K = false := by
    cases hc : s.localRoomFeeds.has K with
    | false => rfl
    | true =>
      unfold joinChatRoomBegin at hb
      rw [localRoomFeeds_ensureRemoteRoom, hc] at hb
      cases hb
  have hnone : s.localRoomFeeds.get K = none := (JSObj.has_eq_false hhas).1
  have hj : (joinChatRoomBegin env K s).2.joinedRooms = s.joinedRooms := by
    rw [joinChatRoomBegin_of_none env K s hhas]
    have := rooms_storeGetFresh env (ensureRemoteRoom K s)
    simp only [State.rooms, Prod.mk.injEq] at this
    rw [this.2, joinedRooms_ensureRemoteRoom]
  have hnot : K ∉ s.joinedRooms := by
    intro hin
    have := (h1 K).2 hin
    simp [State.hasLocalFeed, hnone] at this
  rw [joinedRooms_registerLocalFeed, hj, if_neg hnot]
  exact ⟨hnot, rfl⟩

theorem local_feeds_are_joined_rooms_witness :
    Reachable twoRemotes
    ∧ twoRemotes.hasLocalFeed "ab" = true ∧ "ab" ∈ twoRemotes.joinedRooms
    ∧ twoRemotes.hasRemoteEntry "ab" = true
    ∧ (twoRemotes.hasLocalFeed "zz" = true ↔ "zz" ∈ twoRemotes.joinedRooms) :=
  ⟨reachable_joinedAb.run _, rfl,
    ((local_feeds_are_joined_rooms twoRemotes (reachable_joinedAb.run _)).1 "ab").1 rfl,
    (local_feeds_are_joined_rooms twoRemotes (reachable_joinedAb.run _)).2.1 "ab" rfl,
    (local_feeds_are_joined_rooms twoRemotes (reachable_joinedAb.run _)).1 "zz"⟩

/-! ## Writes to peers come from join and send only -/

theorem peerWrites_append (a b : List Event) :
    peerWrites (a ++ b) = peerWrites a ++ peerWrites b := by
  induction a with
  | nil => rfl
  | cons e rest ih => cases e <;> simp [peerWrites, ih]

theorem peerWrites_of_none (a : List Event) (h : ∀ e ∈ a, e.isPeerWrite = false) :
    peerWrites a = [] := by
  induction a with
  | nil => rfl
  | cons e rest ih =>
    have hr := ih (fun x hx => h x (List.mem_cons_of_mem _ hx))
    have he := h e (List.mem_cons_self _ _)
    cases e <;> first | exact hr | simp [Event.isPeerWrite] at he

theorem peerWrites_map_of_none {α : Type} (l : List α) (g : α → Event)
    (h : ∀ x, (g x).isPeerWrite = false) : peerWrites (l.map g) = [] := by
  apply peerWrites_of_none
  intro e he
  rw [List.mem_map] at he
  obtain ⟨x, _, rfl⟩ := he
  exact h x

theorem peerWrites_streamWrites {α : Type} (l : List α) (g : α → StreamId) (h : α → String) :
    peerWrites (l.map (fun x => Event.streamWrite (g x) (h x))) = [] :=
  peerWrites_map_of_none l _ (fun _ => rfl)

theorem peerWrites_frames (ps : List Peer) (data : String) :
    peerWrites (ps.map (fun p => Event.peerWrite p.connection data))
      = ps.map (fun p => (p.connection, data)) := by
  induction ps with
  | nil => rfl
  | cons p rest ih => simp [peerWrites, ih]

theorem written_emit (s : State) (a : List Event) :
    (s.emit a).written = s.written ++ peerWrites a := by
  simp [State.written, State.emit, peerWrites_append]

theorem written_emit_none (s : State) (a : List Event) (h : ∀ e ∈ a, e.isPeerWrite = false) :
    (s.emit a).written = s.written := by
  rw [written_emit, peerWrites_of_none a h, List.append_nil]

@[simp] theorem written_dateNow (env : Env) (s : State) :
    (dateNow env s).2.written = s.written := rfl

@[simp] theorem written_tick (s : State) : s.tick.written = s.written := rfl

@[simp] theorem written_updateFeed (s : State) (fid : FeedId) (f : Feed → Feed) :
    (s.updateFeed fid f).written = s.written := rfl

@[simp] theorem written_appendListener (env : Env) (fid : FeedId) (r : RoomKey) (i : Nat)
    (s : State) : (appendListener env fid r i s).written = s.written := by
  unfold appendListener
  split
  · rw [written_emit, peerWrites_streamWrites, List.append_nil]
  · rfl

@[simp] theorem written_registerBuiltinFeed (c : ConnId) (n p : String) (f : FeedId)
    (s : State) : (registerBuiltinFeed c n p f s).written = s.written := by
  simp [registerBuiltinFeed, State.written, peerWrites_append, peerWrites]

@[simp] theorem written_resumeListener (env : Env) (i : Nat) (s : State) :
    (resumeListener env i s).written = s.written := by
  unfold resumeListener
  split
  · rw [written_appendListener]; rfl
  · rfl

@[simp] theorem written_emitAppend (fid : FeedId) (rs : List RoomKey) (s : State) :
    (emitAppend fid rs s).written = s.written := rfl

@[simp] theorem written_feedAppend (env : Env) (fid : FeedId) (v : JVal) (s : State) :
    (feedAppend env fid v s).2.written = s.written := by
  unfold feedAppend
  split <;> simp

@[simp] theorem written_appendMessageToLocalFeed (env : Env) (k : RoomKey) (a b c : JVal)
    (s : State) : (appendMessageToLocalFeed env k a b c s).2.written = s.written := by
  unfold appendMessageToLocalFeed
  split
  · rfl
  · split <;> simp [awaitAppend]
  · split <;> simp

@[simp] theorem written_ensureRemoteRoom (k : RoomKey) (s : State) :
    (ensureRemoteRoom k s).written = s.written := by
  unfold ensureRemoteRoom
  split <;> rfl

@[simp] theorem written_storeGetByKey (key : FeedKey) (s : State) :
    (storeGetByKey key s).2.written = s.written := by
  unfold storeGetByKey
  split
  · exact written_emit_none _ _ (by simp [Event.isPeerWrite])
  · simp [State.written, peerWrites_append, peerWrites]

@[simp] theorem written_storeGetFresh (env : Env) (s : State) :
    (storeGetFresh env s).2.written = s.written := by
  simp [storeGetFresh, State.written, peerWrites_append, peerWrites]

@[simp] theorem written_registerRemoteFeed (c : ConnId) (k : RoomKey) (fk : String) (f : FeedId)
    (s : State) : (registerRemoteFeed c k fk f s).written = s.written := by
  simp [registerRemoteFeed, State.written, peerWrites_append, peerWrites]

@[simp] theorem written_registerLocalFeed (k : RoomKey) (f : FeedId) (s : State) :
    (registerLocalFeed k f s).written = s.written := by
  simp only [State.written, trace_registerLocalFeed, peerWrites_append]
  split <;> simp [peerWrites]

@[simp] theorem written_onHello (env : Env) (conn : ConnId) (rk fk : JVal) (s : State) :
    (onHello env conn rk fk s).2.written = s.written := by
  unfold onHello onHelloBuiltin loadRemoteFeed
  repeat' split
  all_goals simp

@[simp] theorem written_onChatMessage (env : Env) (sid : String) (fields : List (String × JVal))
    (s : State) : (onChatMessage env sid fields s).2.written = s.written := by
  unfold onChatMessage
  simp only []
  repeat' split
  all_goals simp

@[simp] theorem written_onMessage (env : Env) (conn : ConnId) (sid : String) (msg : JVal)
    (s : State) : (onMessage env conn sid msg s).2.written = s.written := by
  unfold onMessage
  split
  · split
    · simp
    · split <;> simp
  · rfl

@[simp] theorem written_onData (env : Env) (conn : ConnId) (sid : String) (raw : String)
    (s : State) : (onData env conn sid raw s).2.written = s.written := by
  unfold onData
  split <;> simp

@[simp] theorem written_broadcastPeerCount (s : State) :
    (broadcastPeerCount s).written = s.written := by
  unfold broadcastPeerCount
  rw [written_emit, peerWrites_streamWrites, List.append_nil]

theorem peerWrites_replicateAll (conn : ConnId) (s : State) :
    peerWrites (replicateAll conn s) = [] := by
  apply peerWrites_of_none
  intro e he
  simp only [replicateAll, List.mem_append, List.mem_map, List.mem_flatMap] at he
  rcases he with ⟨x, _, rfl⟩ | ⟨r, _, x, _, rfl⟩ <;> rfl

@[simp] theorem written_onConnection (conn : ConnId) (pk : Option Bytes) (s : State) :
    (onConnection conn pk s).written = s.written := by
  unfold onConnection
  rw [written_emit, peerWrites_replicateAll, List.append_nil, written_broadcastPeerCount]
  rfl

@[simp] theorem written_onClose (conn : ConnId) (s : State) :
    (onClose conn s).written = s.written := by
  unfold onClose
  rw [written_broadcastPeerCount]
  rfl

@[simp] theorem written_onStreamClose (k : RoomKey) (st : StreamId) (s : State) :
    (onStreamClose k st s).written = s.written := by
  simp [onStreamClose, State.written, peerWrites_append, peerWrites]

@[simp] theorem written_onKeepAlive (st : StreamId) (s : State) :
    (onKeepAlive st s).written = s.written := by
  simp [onKeepAlive, written_emit, peerWrites]

@[simp] theorem written_generateChatRoom (env : Env) (s : State) :
    (generateChatRoom env s).2.written = s.written := rfl

@[simp] theorem written_receiveAction (env : Env) (k : RoomKey) (s : State) :
    (receiveAction env k s).2.written = s.written := by
  obtain ⟨l, hl⟩ := replayAll_frames env s.nextStream k
    { s with nextStream := s.nextStream + 1, messageStream := some s.nextStream }
  have hp : peerWrites (l.map (fun m => Event.streamWrite s.nextStream (dataFrame env m))) = [] :=
    peerWrites_streamWrites l (fun _ => s.nextStream) (fun m => dataFrame env m)
  unfold receiveAction
  simp only []
  split
  · rfl
  · split
    · simp [State.written, State.emit, hl, peerWrites_append, hp, peerWrites]
    · simp [State.written, State.emit, hl, peerWrites_append, hp, peerWrites]

theorem written_writePeers (env : Env) (data : String) (ps : List Peer) (s : State) :
    (writePeers env data ps s).2.written
      = s.written ++ (writtenPeers env ps).map (fun p => (p.connection, data)) := by
  rw [writePeers_eq, written_emit, peerWrites_frames]

theorem written_joinChatRoom (env : Env) (K : RoomKey) (s : State) :
    ∃ ws, (joinChatRoom env K s).2.written = s.written ++ ws
      ∧ ∀ w ∈ ws, IsHelloFrame env K w.2 := by
  rcases joinChatRoom_cases env K s with ⟨_, h⟩ | ⟨_, h⟩
  · rw [h]
    exact ⟨[], by simp, by simp⟩
  · rw [h]
    unfold joinChatRoomResume
    split
    · exact ⟨[], by simp, by simp⟩
    · unfold broadcastHello sendMessageToPeers
      simp only [written_writePeers, written_registerLocalFeed, written_storeGetFresh,
        written_ensureRemoteRoom]
      refine ⟨_, rfl, ?_⟩
      intro w hw
      rw [List.mem_map] at hw
      obtain ⟨p, _, rfl⟩ := hw
      exact ⟨_, rfl⟩

theorem written_sendAction (env : Env) (K : RoomKey) (u : Option (List Chunk)) (s : State) :
    ∃ ws, (sendAction env K u s).2.written = s.written ++ ws
      ∧ ∀ w ∈ ws, IsSendFrame env K w.2 := by
  have hw : ∀ (sender message : JVal) (t : State),
      ∃ ws, (sendMessageToPeers env
          (env.stringify (peerMessage sender message (.num (dateNow env t).1) K))
          (dateNow env t).2).2.written = t.written ++ ws
        ∧ ∀ w ∈ ws, IsSendFrame env K w.2 := by
    intro sender message t
    unfold sendMessageToPeers
    simp only [written_writePeers, written_dateNow]
    refine ⟨_, rfl, ?_⟩
    intro w hw
    rw [List.mem_map] at hw
    obtain ⟨p, _, rfl⟩ := hw
    exact ⟨_, _, _, rfl⟩
  unfold sendAction
  cases hb : getJSONBody env u with
  | error m' => exact ⟨[], by simp, by simp⟩
  | ok body =>
    simp only []
    cases hs : body.getProp "sender" with
    | none => exact ⟨[], by simp, by simp⟩
    | some sender =>
      cases hm : body.getProp "message" with
      | none => exact ⟨[], by simp, by simp⟩
      | some message =>
        simp only []
        obtain ⟨ws, h1, h2⟩ := hw sender message
          (appendMessageToLocalFeed env K sender message (.num (dateNow env s).1)
            (dateNow env s).2).2
        simp only [written_appendMessageToLocalFeed, written_dateNow] at h1
        split
        · exact ⟨[], by simp, by simp⟩
        · split
          · exact ⟨[], by simp, by simp⟩
          · split
            · exact ⟨ws, h1, h2⟩
            · refine ⟨ws, ?_, h2⟩
              rw [written_emit, h1]
              simp [peerWrites]

theorem roomKey_of_not_missing (roomKey : Option String) (h : ¬ roomKeyMissing roomKey = true) :
    roomKey = some (roomKey.getD "") := by
  cases roomKey with
  | none => simp [roomKeyMissing] at h
  | some k => rfl

theorem written_handleChatBody (env : Env) (req : Request) (s : State) :
    ∃ ws, (handleChatBody env req s).2.written = s.written ++ ws
      ∧ ∀ w ∈ ws, FromJoinOrSend env req w.2 := by
  unfold handleChatBody
  split
  · exact ⟨[], by simp [written_emit, peerWrites], by simp⟩
  · split
    · rename_i hjoin
      split
      · exact ⟨[], by simp, by simp⟩
      · rename_i hk
        obtain ⟨ws, h1, h2⟩ := written_joinChatRoom env (req.roomKey.getD "") s
        have h3 : ∀ w ∈ ws, FromJoinOrSend env req w.2 := fun w hw =>
          ⟨hjoin.1, _, roomKey_of_not_missing _ hk, Or.inl ⟨hjoin.2, h2 w hw⟩⟩
        split
        · exact ⟨ws, h1, h3⟩
        · refine ⟨ws, ?_, h3⟩
          rw [written_emit, h1]
          simp [peerWrites]
    · split
      · rename_i hsend
        split
        · exact ⟨[], by simp, by simp⟩
        · rename_i hk
          obtain ⟨ws, h1, h2⟩ := written_sendAction env (req.roomKey.getD "") req.uploadData s
          exact ⟨ws, h1, fun w hw =>
            ⟨hsend.1, _, roomKey_of_not_missing _ hk, Or.inr ⟨hsend.2, h2 w hw⟩⟩⟩
      · split
        · split
          · exact ⟨[], by simp, by simp⟩
          · exact ⟨[], by simp, by simp⟩
        · exact ⟨[], by simp [written_emit, peerWrites], by simp⟩

theorem written_handleChatRequest (env : Env) (req : Request) (s : State) :
    ∃ ws, (handleChatRequest env req s).2.written = s.written ++ ws
      ∧ ∀ w ∈ ws, FromJoinOrSend env req w.2 := by
  obtain ⟨ws, h1, h2⟩ := written_handleChatBody env req s
  unfold handleChatRequest
  split
  · exact ⟨ws, h1, h2⟩
  · refine ⟨ws, ?_, h2⟩
    rw [written_emit, h1]
    simp [peerWrites]

/-- C21. From any state: a `connection` event, a `data` event (whatever
the frame: a hello, a chat message, anything else) and a `close` event
record no write to any peer connection.  For every handler invocation, the
writes to peers it records all come from a chat request that is a POST with
a roomKey, and each is either, the action being `join`, the hello of
`joinChatRoom` for that room, or, the action being `send`, the message of
the send to that room. -/
theorem peer_writes_only_from_join_and_send (s : State) :
    (∀ conn pk, (step (.connection conn pk) s).written = s.written)
    ∧ (∀ env conn sid raw, (step (.data env conn sid raw) s).written = s.written)
    ∧ (∀ conn, (step (.close conn) s).written = s.written)
    ∧ (∀ a, ∃ ws, (step a s).written = s.written ++ ws
        ∧ ∀ w ∈ ws, ∃ env req, a = .request env req ∧ FromJoinOrSend env req w.2) := by
  refine ⟨fun conn pk => written_onConnection conn pk s,
    fun env conn sid raw => written_onData env conn sid raw s,
    fun conn => written_onClose conn s, ?_⟩
  intro a
  cases a with
  | request env req =>
    obtain ⟨ws, h1, h2⟩ := written_handleChatRequest env req s
    exact ⟨ws, h1, fun w hw => ⟨env, req, rfl, h2 w hw⟩⟩
  | connection conn pk => exact ⟨[], by simp [step], by simp⟩
  | data env conn sid raw => exact ⟨[], by simp [step], by simp⟩
  | close conn => exact ⟨[], by simp [step], by simp⟩
  | streamClose k st => exact ⟨[], by simp [step], by simp⟩
  | keepAlive st => exact ⟨[], by simp [step], by simp⟩
  | replicated f es =>
    refine ⟨[], ?_, by simp⟩
    unfold step
    simp only []
    split <;> simp
  | listener env i => exact ⟨[], by simp [step], by simp⟩

/-! ## What the entries of a local feed are -/

theorem logsOk_of_feeds {s s' : State} (h : s'.feeds = s.feeds) (hs : LogsOk s) : LogsOk s' := by
  intro i f hf
  rw [h] at hf
  exact hs i f hf

theorem logsOk_modify {s s' : State} {g : Feed → Feed} {i : FeedId}
    (h : s'.feeds = s.feeds.modify g i) (hs : LogsOk s)
    (hg : ∀ x, s.feeds[i]? = some x → (g x).listeners ≠ [] → ∀ e ∈ (g x).entries, EntryShape e) :
    LogsOk s' := by
  intro j f hf
  rw [h] at hf
  by_cases hij : i = j
  · subst hij
    rw [List.getElem?_modify_eq] at hf
    cases hx : s.feeds[i]? with
    | none => rw [hx] at hf; cases hf
    | some x =>
      rw [hx] at hf
      have hgf : g x = f := by simpa using hf
      rw [← hgf]
      exact hg x hx
  · rw [List.getElem?_modify_ne _ _ hij] at hf
    exact hs j f hf

theorem logsOk_append {s s' : State} {x : Feed} (h : s'.feeds = s.feeds ++ [x])
    (hx : x.entries = []) (hs : LogsOk s) : LogsOk s' := by
  intro j f hf
  rw [h] at hf
  by_cases hj : j < s.feeds.length
  · rw [List.getElem?_append_left hj] at hf
    exact hs j f hf
  · rw [List.getElem?_append_right (Nat.le_of_not_lt hj)] at hf
    intro _ e he
    cases hk : j - s.feeds.length with
    | zero =>
      rw [hk] at hf
      simp only [List.getElem?_cons_zero, Option.some.injEq] at hf
      rw [← hf, hx] at he
      cases he
    | succ n =>
      rw [hk] at hf
      simp at hf

theorem logsOk_feedAppend (env : Env) (f : FeedId) (v : JVal) (s : State) (hv : EntryShape v)
    (hs : LogsOk s) : LogsOk (feedAppend env f v s).2 := by
  unfold feedAppend
  split
  · exact hs
  · refine logsOk_of_feeds (feeds_emitAppend _ _ _) ?_
    refine logsOk_modify (g := fun x => { x with entries := x.entries ++ [v] }) (i := f)
      (by simp [State.updateFeed]) hs ?_
    intro x hx hl e he
    simp only [List.mem_append, List.mem_singleton] at he
    rcases he with he | rfl
    · exact hs f x hx hl e he
    · exact hv

theorem logsOk_appendMessageToLocalFeed (env : Env) (K : RoomKey) (sender message ts : JVal)
    (s : State) (hv : (∃ n, ts = .num n) ∨ ∃ id, sender = .str id) (hs : LogsOk s) :
    LogsOk (appendMessageToLocalFeed env K sender message ts s).2 := by
  unfold appendMessageToLocalFeed
  split
  · exact hs
  · simp only [awaitAppend]
    split
    · rename_i ht
      apply logsOk_feedAppend _ _ _ _ _ hs
      refine ⟨sender, message, ts, rfl, ?_⟩
      rcases hv with h | h
      · exact Or.inl h
      · exact Or.inr ⟨h, ht⟩
    · have h1 : LogsOk (dateNow env s).2 := logsOk_of_feeds (s := s) rfl hs
      exact logsOk_feedAppend _ _ _ _ ⟨sender, message, _, rfl, Or.inl ⟨_, rfl⟩⟩ h1
  · split
    · exact hs
    · exact logsOk_of_feeds (s := s) rfl hs

theorem logsOk_storeGetByKey (key : FeedKey) (s : State) (hs : LogsOk s) :
    LogsOk (storeGetByKey key s).2 := by
  unfold storeGetByKey
  split
  · exact logsOk_of_feeds (s := s) rfl hs
  · exact logsOk_append (s := s) (x := { key := key, entries := [], listeners := [] }) rfl rfl hs

theorem logsOk_storeGetFresh (env : Env) (s : State) (hs : LogsOk s) :
    LogsOk (storeGetFresh env s).2 :=
  logsOk_append (s := s)
    (x := { key := env.freshKey s.feeds.length, entries := [], listeners := [] }) rfl rfl hs

theorem logsOk_onHello (env : Env) (conn : ConnId) (rk fk : JVal) (s : State) (hs : LogsOk s) :
    LogsOk (onHello env conn rk fk s).2 := by
  apply onHello_induct (fun t => LogsOk t) _ _ _ _ _ _ _ _ _ hs
  · intro k t ht; exact logsOk_of_feeds (feeds_ensureRemoteRoom _ _) ht
  · intro key t ht; exact logsOk_storeGetByKey _ _ ht
  · intro k p f t ht; exact logsOk_of_feeds (s := t) rfl ht
  · intro n p f t ht; exact logsOk_of_feeds (s := t) rfl ht

theorem logsOk_onChatMessage (env : Env) (sid : String) (fields : List (String × JVal))
    (s : State) (hs : LogsOk s) : LogsOk (onChatMessage env sid fields s).2 := by
  have hstay : LogsOk (if (JVal.lookupField "timestamp" fields).truthy = true then s
      else s.tick) := by
    split
    · exact hs
    · exact logsOk_of_feeds (s := s) rfl hs
  rw [onChatMessage_eq]
  split
  · exact hstay
  · simp only []
    split
    · exact logsOk_appendMessageToLocalFeed _ _ _ _ _ _ (Or.inr ⟨sid, rfl⟩) hstay
    · exact hstay

theorem logsOk_onMessage (env : Env) (conn : ConnId) (sid : String) (msg : JVal)
    (s : State) (hs : LogsOk s) : LogsOk (onMessage env conn sid msg s).2 := by
  unfold onMessage
  split
  · split
    · exact logsOk_onHello _ _ _ _ _ hs
    · split
      · exact logsOk_onChatMessage _ _ _ _ hs
      · exact hs
  · exact hs

theorem logsOk_onData (env : Env) (conn : ConnId) (sid : String) (raw : String)
    (s : State) (hs : LogsOk s) : LogsOk (onData env conn sid raw s).2 := by
  unfold onData
  split
  · exact logsOk_onMessage _ _ _ _ _ hs
  · exact logsOk_onMessage _ _ _ _ _ (logsOk_of_feeds (s := s) rfl hs)

theorem fresh_feed_empty (env : Env) (t : State) (x : Feed)
    (h : (storeGetFresh env t).2.feeds[(storeGetFresh env t).1]? = some x) : x.entries = [] := by
  simp only [storeGetFresh] at h
  rw [List.getElem?_append_right (Nat.le_refl _)] at h
  simp only [Nat.sub_self, List.getElem?_cons_zero, Option.some.injEq] at h
  rw [← h]

theorem logsOk_registerLocalFeed (K : RoomKey) (f : FeedId) (s : State) (hs : LogsOk s)
    (hempty : ∀ x, s.feeds[f]? = some x → x.entries = []) :
    LogsOk (registerLocalFeed K f s) := by
  refine logsOk_modify (feeds_registerLocalFeed K f s) hs ?_
  intro x hx _ e he
  rw [show ({ x with listeners := x.listeners ++ [K] } : Feed).entries = x.entries from rfl,
    hempty x hx] at he
  cases he

theorem logsOk_joinChatRoom (env : Env) (k : RoomKey) (s : State)
    (hs : LogsOk s) : LogsOk (joinChatRoom env k s).2 := by
  have h0 : LogsOk (ensureRemoteRoom k s) := logsOk_of_feeds (feeds_ensureRemoteRoom _ _) hs
  have h1 : LogsOk (storeGetFresh env (ensureRemoteRoom k s)).2 := logsOk_storeGetFresh env _ h0
  rcases joinChatRoom_cases env k s with ⟨_, h⟩ | ⟨_, h⟩
  · rw [h]
    exact h0
  · rw [h]
    unfold joinChatRoomResume
    split
    · exact h1
    · unfold broadcastHello
      refine logsOk_of_feeds (feeds_sendMessageToPeers _ _ _) ?_
      exact logsOk_registerLocalFeed k _ _ h1 (fresh_feed_empty env _)

theorem logsOk_sendAction (env : Env) (K : RoomKey) (u : Option (List Chunk)) (s : State)
    (hs : LogsOk s) : LogsOk (sendAction env K u s).2 := by
  unfold sendAction
  cases hb : getJSONBody env u with
  | error m' => exact hs
  | ok body =>
    simp only []
    cases hsnd : body.getProp "sender" with
    | none => exact hs
    | some sender =>
      cases hm : body.getProp "message" with
      | none => exact hs
      | some message =>
        simp only []
        split
        · exact hs
        have h1 : LogsOk (appendMessageToLocalFeed env K sender message (.num (dateNow env s).1)
            (dateNow env s).2).2 :=
          logsOk_appendMessageToLocalFeed _ _ _ _ _ _ (Or.inl ⟨_, rfl⟩)
            (logsOk_of_feeds (s := s) rfl hs)
        split
        · exact h1
        · have h2 : LogsOk (sendMessageToPeers env
              (env.stringify (peerMessage sender message
                (.num (dateNow env (appendMessageToLocalFeed env K sender message
                  (.num (dateNow env s).1) (dateNow env s).2).2).1) K))
              (dateNow env (appendMessageToLocalFeed env K sender message
                (.num (dateNow env s).1) (dateNow env s).2).2).2).2 :=
            logsOk_of_feeds (feeds_sendMessageToPeers _ _ _) (logsOk_of_feeds
              (s := (appendMessageToLocalFeed env K sender message (.num (dateNow env s).1)
                (dateNow env s).2).2) rfl h1)
          split
          · exact h2
          · exact logsOk_of_feeds (State.feeds_emit _ _) h2

theorem feeds_receiveAction (env : Env) (k : RoomKey) (s : State) :
    (receiveAction env k s).2.feeds = s.feeds := by
  unfold receiveAction
  simp only []
  repeat' split
  all_goals rfl

theorem logsOk_handleChatRequest (env : Env) (req : Request) (s : State)
    (hs : LogsOk s) : LogsOk (handleChatRequest env req s).2 := by
  have hb : LogsOk (handleChatBody env req s).2 := by
    unfold handleChatBody
    split
    · exact logsOk_of_feeds (s := s) rfl hs
    · split
      · split
        · exact hs
        · split
          · exact logsOk_joinChatRoom env _ s hs
          · exact logsOk_of_feeds (State.feeds_emit _ _) (logsOk_joinChatRoom env _ s hs)
      · split
        · split
          · exact hs
          · exact logsOk_sendAction env _ _ s hs
        · split
          · split
            · exact hs
            · exact logsOk_of_feeds (feeds_receiveAction _ _ _) hs
          · exact logsOk_of_feeds (s := s) rfl hs
  unfold handleChatRequest
  split
  · exact hb
  · exact logsOk_of_feeds (State.feeds_emit _ _) hb

theorem logsOk_step (a : Action) (s : State) (hs : LogsOk s) : LogsOk (step a s) := by
  cases a with
  | request env req => exact logsOk_handleChatRequest env req s hs
  | connection conn pk => exact logsOk_of_feeds (s := s) rfl hs
  | data env conn sid raw => exact logsOk_onData _ _ _ _ _ hs
  | close conn => exact logsOk_of_feeds (s := s) rfl hs
  | streamClose k st => exact logsOk_of_feeds (s := s) rfl hs
  | keepAlive st => exact logsOk_of_feeds (s := s) rfl hs
  | replicated f es =>
    unfold step
    simp only []
    split
    · rename_i hl
      refine logsOk_modify (s := s) (g := fun x => { x with entries := x.entries ++ es }) (i := f)
        rfl hs ?_
      intro x hx hne
      simp only [State.feedListeners, hx, List.isEmpty_iff] at hl
      exact absurd hl hne
    · exact hs
  | listener env i => exact logsOk_of_feeds (feeds_resumeListener _ _ _) hs

theorem Reachable.logsOk {s : State} (h : Reachable s) : LogsOk s := by
  induction h with
  | init => intro i f hf; simp [State.init] at hf
  | next a _ ih => exact logsOk_step a _ ih

/-- C26, as the code has it. In every state reached by handler
invocations from module load, every entry of a local feed is an object
`{sender, message, timestamp}` whose timestamp is a number (the send
action, and a peer frame without a truthy timestamp) or whose sender is a
string and whose timestamp is truthy (a peer frame, whose sender is the
peer's short id and whose timestamp is whatever truthy value the frame
carried).  Nothing more is checked: the sender of a send and the message
of either path are whatever the body or the frame held. -/
theorem local_entries_shape (s : State) (hs : Reachable s) (K : RoomKey) (f : FeedId)
    (hf : s.localRoomFeeds.get K = some f) :
    ∀ e ∈ s.feedEntries f, EntryShape e := by
  intro e he
  have hl := hs.localFeed_listeners hf
  unfold State.feedEntries at he
  unfold State.feedListeners at hl
  cases hx : s.feeds[f]? with
  | none => rw [hx] at he; cases he
  | some x =>
    rw [hx] at he hl
    exact hs.logsOk f x hx (by rw [show x.listeners = [K] from hl]; simp) e he

theorem local_entries_shape_witness :
    Reachable sentHi ∧ sentHi.localRoomFeeds.get "ab" = some 0
    ∧ sentHi.feedEntries 0 = [chatMessage (.str "a") (.str "hi") (.num 1700000000000)]
    ∧ ∀ e ∈ sentHi.feedEntries 0, EntryShape e :=
  ⟨Reachable.next _ reachable_joinedAb, rfl, rfl,
    local_entries_shape sentHi (Reachable.next _ reachable_joinedAb) "ab" 0 rfl⟩

/-- C26, as stated, fails. After a send whose body has no `sender`, the
local feed of the room holds an entry whose sender is `undefined`; after a
peer frame whose message is a number and whose timestamp is a text, it
holds an entry with that number as message and that text as timestamp.
Both states are reachable, and neither entry is a ChatMessage with a
string sender, a string message and an integer timestamp. -/
theorem local_entries_not_chat_messages :
    Reachable sentNoSender
    ∧ sentNoSender.localEntries "ab"
        = [chatMessage .undefined (.str "hi") (.num 1700000000000)]
    ∧ ¬ IsChatMessage (chatMessage .undefined (.str "hi") (.num 1700000000000))
    ∧ Reachable receivedOdd
    ∧ receivedOdd.localEntries "ab" = [chatMessage (.str "peer") (.num 5) (.str "soon")]
    ∧ ¬ IsChatMessage (chatMessage (.str "peer") (.num 5) (.str "soon")) := by
  refine ⟨Reachable.next _ reachable_joinedAb, rfl, ?_, Reachable.next _ reachable_joinedAb,
    rfl, ?_⟩
  · rintro ⟨a, b, c, h⟩
    simp [chatMessage] at h
  · rintro ⟨a, b, c, h⟩
    simp [chatMessage] at h

/-! ## Room keys and feed keys that are names of `Object.prototype` -/

/-- C1 fails on the code at the room key `constructor`, for which no local
feed is registered: `localRoomFeeds["constructor"]` and
`remoteRoomFeeds["constructor"]` are the inherited `Object`, both guards of
`joinChatRoom` are skipped, and the call returns with the state as it was.
Two calls in sequence open no feed, register no local feed for the room and
call `swarm.join` not once; the join request is answered 200 all the
same. -/
theorem join_constructor_opens_no_feed :
    State.init.localRoomFeeds.get "constructor" = none
    ∧ joinChatRoom demoEnv "constructor" State.init = (.ok (), State.init)
    ∧ joinChatRoom demoEnv "constructor" (joinChatRoom demoEnv "constructor" State.init).2
        = (.ok (), State.init)
    ∧ (eventsSince State.init (joinChatRoom demoEnv "constructor"
        (joinChatRoom demoEnv "constructor" State.init).2).2).countP Event.isStoreGet = 0
    ∧ (eventsSince State.init (joinChatRoom demoEnv "constructor"
        (joinChatRoom demoEnv "constructor" State.init).2).2).countP
          (Event.isSwarmJoin "constructor") = 0
    ∧ (joinChatRoom demoEnv "constructor"
        (joinChatRoom demoEnv "constructor" State.init).2).2.localRoomFeeds.get "constructor" = none
    ∧ eventsSince State.init (handleChatRequest demoEnv (joinRequest "constructor") State.init).2
        = [Event.callback (jsonResponse demoEnv (.obj [("message", .str "Joined chat room")]))] :=
  ⟨rfl, rfl, rfl, rfl, rfl, rfl, rfl⟩

/-- C2 fails on the code at the room key `constructor`, for which no local
feed is registered: `feed` is the inherited `Object`, the guard `!feed` is
passed, and the call throws at `feed.append` with a message that does not
name the room. -/
theorem appendMessageToLocalFeed_constructor :
    State.init.localRoomFeeds.get "constructor" = none
    ∧ appendMessageToLocalFeed demoEnv "constructor" (.str "a") (.str "hi") (.num 5) State.init
        = (.error "feed.append is not a function", State.init)
    ∧ (appendMessageToLocalFeed demoEnv "constructor" (.str "a") (.str "hi") (.num 5)
          State.init).1
        ≠ .error ("Local feed not initialized for room " ++ "constructor") := by
  refine ⟨rfl, rfl, ?_⟩
  intro h
  have e : (appendMessageToLocalFeed demoEnv "constructor" (.str "a") (.str "hi") (.num 5)
      State.init).1 = .error "feed.append is not a function" := rfl
  rw [e] at h
  exact absurd (Except.error.inj h) (by decide)

/-- C14 fails on the code at the room key `constructor`, for which no local
feed exists: the send is answered 500, and the body of the answer reports
the call of `feed.append` on the inherited `Object`, not the not-joined
error. -/
theorem send_constructor_not_a_function :
    State.init.localRoomFeeds.get "constructor" = none
    ∧ eventsSince State.init
        (handleChatRequest demoEnv (sendRequest "constructor" hiUpload) State.init).2
      = [Event.callback
          { statusCode := 500, headers := [("Content-Type", "text/plain")],
            data := .text "Error in chat request: feed.append is not a function" }] :=
  ⟨rfl, rfl⟩

/-- C20 fails on the code at the room key `constructor`, which has no local
feed: `joinChatRoom` returns at its existence check, with one live peer
connected it writes no frame to it, and the room has no local feed
afterwards. -/
theorem join_constructor_writes_no_hello :
    onePeer.localRoomFeeds.get "constructor" = none
    ∧ onePeer.peerConns = [7] ∧ demoEnv.destroyed 7 = false
    ∧ (joinChatRoom demoEnv "constructor" onePeer).1 = .ok ()
    ∧ eventsSince onePeer (joinChatRoom demoEnv "constructor" onePeer).2 = []
    ∧ (joinChatRoom demoEnv "constructor" onePeer).2.localRoomFeeds.get "constructor" = none :=
  ⟨rfl, rfl, rfl, rfl, rfl, rfl⟩

/-- C7 fails on the code at the feed key `constructor`: on the room's
mapping of remote feeds, a plain object, `["constructor"]` is the inherited
`Object`, so each of two identical hello messages is taken as already
registered; both return normally and the mapping has no entry for the feed
key, not one. -/
theorem hello_constructor_twice :
    demoEnv.parse helloConstructor = .ok (helloMessage "ab" "constructor")
    ∧ IsHello (helloMessage "ab" "constructor") (.str "ab") (.str "constructor")
    ∧ (onData demoEnv 7 "peer" helloConstructor joinedAb).1 = .ok ()
    ∧ (onData demoEnv 7 "peer" helloConstructor
        (onData demoEnv 7 "peer" helloConstructor joinedAb).2).1 = .ok ()
    ∧ (((onData demoEnv 7 "peer" helloConstructor
        (onData demoEnv 7 "peer" helloConstructor joinedAb).2).2.remoteFeeds "ab").map
          Prod.fst).count "constructor" = 0 :=
  ⟨rfl, ⟨rfl, rfl, rfl, rfl, rfl⟩, rfl, rfl, rfl⟩

/-- C18 fails on the code at the feed key `constructor`: the pair is not in
the registry, yet the handler takes it as registered; it returns with the
state as it was, so no feed is got from the store, nothing is registered
and `replicate` is not called. -/
theorem hello_constructor_skipped :
    demoEnv.parse helloConstructor = .ok (helloMessage "ab" "constructor")
    ∧ (joinedAb.remoteFeeds "ab").get "constructor" = none
    ∧ onData demoEnv 7 "peer" helloConstructor joinedAb = (.ok (), joinedAb)
    ∧ eventsSince joinedAb (onData demoEnv 7 "peer" helloConstructor joinedAb).2 = []
    ∧ ((onData demoEnv 7 "peer" helloConstructor joinedAb).2.remoteFeeds "ab").get "constructor"
        = none :=
  ⟨rfl, rfl, rfl, rfl, rfl⟩

/-- C30 fails on the code at the feed key `constructor`: a hello for the
room `ab`, which this process has not joined, creates the room's entry in
`remoteRoomFeeds`, and then takes the feed as registered: the entry stays
empty, no feed is got from the store and `replicate` is not called. -/
theorem hello_unjoined_constructor :
    State.init.localRoomFeeds.get "ab" = none ∧ "ab" ∉ State.init.joinedRooms
    ∧ (onData demoEnv 7 "peer" helloConstructor State.init).1 = .ok ()
    ∧ (onData demoEnv 7 "peer" helloConstructor State.init).2.remoteRoomFeeds = [("ab", [])]
    ∧ eventsSince State.init (onData demoEnv 7 "peer" helloConstructor State.init).2 = [] :=
  ⟨rfl, by simp [State.init], rfl, rfl, rfl⟩

/-- C13 fails on the code at the body `{"sender":"a","message":{"toString":
null}}`, sent to the joined room `ab` with two peers connected, the store
accepting appends and no write to a peer throwing: the log line before the
append converts the message to a string, the conversion throws, and the
request is answered 500 with nothing appended and nothing written to a
peer. -/
theorem send_unprintable_message :
    roomWithPeers.localRoomFeeds.get "ab" = some 0
    ∧ demoEnv.appendError 0 = none ∧ NoWriteFails demoEnv roomWithPeers.peers
    ∧ getJSONBody demoEnv unprintableUpload
        = .ok (.obj [("sender", .str "a"), ("message", .obj [("toString", .null)])])
    ∧ eventsSince roomWithPeers
        (handleChatRequest demoEnv (sendRequest "ab" unprintableUpload) roomWithPeers).2
      = [Event.callback
          { statusCode := 500, headers := [("Content-Type", "text/plain")],
            data := .text "Error in chat request: Cannot convert object to primitive value" }]
    ∧ (handleChatRequest demoEnv (sendRequest "ab" unprintableUpload) roomWithPeers).2.feedLength 0
        = roomWithPeers.feedLength 0 :=
  ⟨rfl, rfl, (fun _ _ _ => rfl), rfl, rfl, rfl⟩

end HyperHandler
